import Mathlib

/-!
mahjong-helper: majsoul message dispatch and record navigation (`server.go`).

A shallow embedding of `mjHandler.runAnalysisMajsoulMessageTask`,
`mjHandler._onRecordClick`, `mjHandler._fastLoadActions` and the helpers they
call.  Handler methods become functions on an explicit `mjHandler` value; a Go
runtime panic (index out of range, slice bounds, division by zero) is an
`Except.error`; for the methods that can panic, the functions named
`...InPlace` also give the handler as the statements before the panic left
it, and the loop returns that handler.  Calls into code that lives outside `server.go`
(`majsoulRoundData.analysis`, `newGame`, the analysis goroutines) are recorded
in logs carried by the state, so that "which payload was applied, with which
`skipOutput`" and "which analysis task was started" are observable.
-/

namespace MahjongHelper

/-! ## Go runtime -/

/-- Run-time panics that the modelled code can raise.  `beyondLength` is the
outcome of a slice expression `l[lo:hi]` with `len(l) < hi`, see `goSlice`. -/
inductive GoPanic where
  | indexOutOfRange
  | sliceBoundsOutOfRange
  | integerDivideByZero
  | beyondLength
deriving DecidableEq, Repr

/-- Two's-complement wrap of a mathematical integer into Go's 64-bit `int`. -/
def wrapInt (x : Int) : Int := (x + 2 ^ 63) % 2 ^ 64 - 2 ^ 63

/-- Go `a + b` on `int`. -/
def goAdd (a b : Int) : Int := wrapInt (a + b)

/-- Go `a % b` on `int`: truncated remainder (sign of the dividend), panics on `b = 0`. -/
def goRem (a b : Int) : Except GoPanic Int :=
  if b = 0 then .error .integerDivideByZero else .ok (Int.tmod a b)

/-- Go `l[i]` on a slice. -/
def goIndex {α : Type} (l : List α) (i : Int) : Except GoPanic α :=
  if 0 ≤ i then
    match l[i.toNat]? with
    | some a => .ok a
    | none => .error .indexOutOfRange
  else .error .indexOutOfRange

/-- Go `l[lo:hi]` on a slice.  With `0 ≤ lo ≤ hi ≤ len(l)` the result is the
elements from `lo` up to `hi`; with `lo < 0` or `hi < lo` Go panics with
"slice bounds out of range" whatever the capacity.  With `len(l) < hi` Go
bounds `hi` by the capacity of the slice, which a list does not carry: Go
panics with "slice bounds out of range" when `hi` exceeds the capacity too,
and otherwise yields a slice that reaches past the length.  In
`_onRecordClick` a panic follows in that case as well (a nil element in the
loop of lines 412-417, or the read of line 428, the action index being past
the length); in the seat change one follows when the elements past the length
are nil.  The model gives the panic `beyondLength` for all of these. -/
def goSlice {α : Type} (l : List α) (lo hi : Int) : Except GoPanic (List α) :=
  if 0 ≤ lo ∧ lo ≤ hi ∧ hi ≤ (l.length : Int) then
    .ok ((l.take hi.toNat).drop lo.toNat)
  else if lo < 0 ∨ hi < lo then .error .sliceBoundsOutOfRange
  else .error .beyondLength

/-- Modelled from the spec: `util.MaxInt`, defined outside `server.go`, the
larger of two ints (all but the last three actions, and never fewer than none). -/
def MaxInt (a b : Int) : Int := if a > b then a else b

/-! ## Data model -/

/-- The fields of `*majsoulRecordBaseInfo` that `server.go` reads: the UUID and
the result of `Config.isGuyiMode()`; `other` stands for the remaining content. -/
structure majsoulRecordBaseInfo where
  UUID : String
  isGuyiMode : Bool
  other : Nat
deriving DecidableEq, Repr

mutual
/-- The decoded payload `majsoulMessage`, with the fields that the dispatch in
`runAnalysisMajsoulMessageTask` inspects; `Other` stands for the ordinary game
data carried by the message.  Pointer fields are `Option` (`none` is `nil`). -/
inductive majsoulMessage where
  | mk (Friends : List Nat)
       (RecordBaseInfoList : List majsoulRecordBaseInfo)
       (SharedRecordBaseInfo : Option majsoulRecordBaseInfo)
       (CurrentRecordUUID : String)
       (AccountID : Int)
       (RecordActions : List majsoulRecordAction)
       (RecordClickAction : String)
       (RecordClickActionIndex : Int)
       (FastRecordTo : Int)
       (LiveBaseInfo : Option Nat)
       (LiveFastAction : Option majsoulRecordAction)
       (LiveAction : Option majsoulRecordAction)
       (ChangeSeatTo : Option Int)
       (SyncGameActions : List majsoulRecordAction)
       (Other : Nat)
/-- One recorded action: its name and the payload fed to the round data. -/
inductive majsoulRecordAction where
  | mk (Name : String) (Action : majsoulMessage)
end

def majsoulRecordAction.Name : majsoulRecordAction → String
  | .mk n _ => n

def majsoulRecordAction.Action : majsoulRecordAction → majsoulMessage
  | .mk _ a => a

def majsoulMessage.Friends : majsoulMessage → List Nat
  | .mk x _ _ _ _ _ _ _ _ _ _ _ _ _ _ => x

def majsoulMessage.RecordBaseInfoList : majsoulMessage → List majsoulRecordBaseInfo
  | .mk _ x _ _ _ _ _ _ _ _ _ _ _ _ _ => x

def majsoulMessage.SharedRecordBaseInfo : majsoulMessage → Option majsoulRecordBaseInfo
  | .mk _ _ x _ _ _ _ _ _ _ _ _ _ _ _ => x

def majsoulMessage.CurrentRecordUUID : majsoulMessage → String
  | .mk _ _ _ x _ _ _ _ _ _ _ _ _ _ _ => x

def majsoulMessage.AccountID : majsoulMessage → Int
  | .mk _ _ _ _ x _ _ _ _ _ _ _ _ _ _ => x

def majsoulMessage.RecordActions : majsoulMessage → List majsoulRecordAction
  | .mk _ _ _ _ _ x _ _ _ _ _ _ _ _ _ => x

def majsoulMessage.RecordClickAction : majsoulMessage → String
  | .mk _ _ _ _ _ _ x _ _ _ _ _ _ _ _ => x

def majsoulMessage.RecordClickActionIndex : majsoulMessage → Int
  | .mk _ _ _ _ _ _ _ x _ _ _ _ _ _ _ => x

def majsoulMessage.FastRecordTo : majsoulMessage → Int
  | .mk _ _ _ _ _ _ _ _ x _ _ _ _ _ _ => x

def majsoulMessage.LiveBaseInfo : majsoulMessage → Option Nat
  | .mk _ _ _ _ _ _ _ _ _ x _ _ _ _ _ => x

def majsoulMessage.LiveFastAction : majsoulMessage → Option majsoulRecordAction
  | .mk _ _ _ _ _ _ _ _ _ _ x _ _ _ _ => x

def majsoulMessage.LiveAction : majsoulMessage → Option majsoulRecordAction
  | .mk _ _ _ _ _ _ _ _ _ _ _ x _ _ _ => x

def majsoulMessage.ChangeSeatTo : majsoulMessage → Option Int
  | .mk _ _ _ _ _ _ _ _ _ _ _ _ x _ _ => x

def majsoulMessage.SyncGameActions : majsoulMessage → List majsoulRecordAction
  | .mk _ _ _ _ _ _ _ _ _ _ _ _ _ x _ => x

def majsoulMessage.Other : majsoulMessage → Nat
  | .mk _ _ _ _ _ _ _ _ _ _ _ _ _ _ x => x

/-- A decoded message all of whose dispatch fields are empty or `nil`: an
ordinary game-data payload with content `n`. -/
def plainMessage (n : Nat) : majsoulMessage :=
  .mk [] [] none "" 0 [] "" 0 0 none none none none [] n

/-- The type `majsoulRoundActions`. -/
abbrev majsoulRoundActions := List majsoulRecordAction

/-- The game-mode tag of the round data. -/
inductive gameMode where
  | gameModeMatch
  | gameModeRecord
  | gameModeLive
deriving DecidableEq, Repr

/-- One call of `majsoulRoundData.analysis()`: the payload and origin text it
consumed and the value of `skipOutput` at the time of the call. -/
structure analysisCall where
  msg : majsoulMessage
  originJSON : String
  skipOutput : Bool

/-- The round data `*majsoulRoundData` as far as `server.go` touches it.  The
methods `newGame` and `analysis` are defined elsewhere; their calls are
recorded (`newGameCalls`, `analysisCalls`). -/
structure majsoulRoundData where
  selfSeat : Int
  gameMode : gameMode
  skipOutput : Bool
  msg : Option majsoulMessage
  originJSON : String
  newGameCalls : Nat
  analysisCalls : List analysisCall

/-- Modelled from the spec: the analysis cache entry of `newGameAnalysisCache`,
which is keyed by (match identity, seat). -/
structure gameAnalysisCache where
  majsoulRecordUUID : String
  selfSeat : Int
deriving DecidableEq, Repr

/-- Modelled from the spec: the package-level analysis cache behind
`resetAnalysisCache`, `setAnalysisCache`, `getAnalysisCache` and
`getCurrentAnalysisCache`: the retained entries, at most one per seat, and the
seat of the active entry. -/
structure analysisCacheStore where
  entries : List gameAnalysisCache
  currentSeat : Option Int
deriving DecidableEq, Repr

/-- Modelled from the spec: the part of `gameConf` used by the handler, the
known account identities and the active one (`-1` when unset). -/
structure gameConfig where
  majsoulAccountIDs : List Int
  currentActiveMajsoulAccountID : Int
deriving DecidableEq, Repr

/-- One `go analysisCache.runMajsoulRecordAnalysisTask(actions)` statement: the
receiver (`none` is a `nil` cache) and the action list handed to the task. -/
structure analysisTask where
  cache : Option gameAnalysisCache
  actions : majsoulRoundActions

/-- The handler `mjHandler` (majsoul part), together with the package-level
state its methods read and write: `gameConf`, the analysis cache, the
old-yaku switch of `util`, and the log of started analysis goroutines.
`majsoulCurrentRecordActionsList = none` is the `nil` slice. -/
structure mjHandler where
  majsoulRoundData : majsoulRoundData
  majsoulRecordMap : List (String × majsoulRecordBaseInfo)
  majsoulCurrentRecordUUID : String
  majsoulCurrentRecordActionsList : Option (List majsoulRoundActions)
  majsoulCurrentRoundIndex : Int
  majsoulCurrentActionIndex : Int
  majsoulCurrentRoundActions : majsoulRoundActions
  gameConf : gameConfig
  analysisCache : analysisCacheStore
  considerOldYaku : Bool
  startedTasks : List analysisTask

/-- Functions of the repository that `server.go` calls and that are defined in
other files: `majsoulRecordBaseInfo.getSelfSeat`, `parseMajsoulRecordAction`
and `majsoulRoundActions.append`.  An `Except.error` is a returned `error`. -/
structure Env where
  getSelfSeat : majsoulRecordBaseInfo → Int → Except String Int
  parseMajsoulRecordAction : List majsoulRecordAction → Except String (List majsoulRoundActions)
  append : majsoulRoundActions → majsoulRecordAction → Except String majsoulRoundActions

/-! ## Package-level helpers -/

/-- Go map read `m[k]` with the comma-ok form. -/
def mapGet (m : List (String × majsoulRecordBaseInfo)) (k : String) : Option majsoulRecordBaseInfo :=
  m.lookup k

/-- Go map write `m[k] = v`: the entry for `k` is replaced or created. -/
def mapSet (m : List (String × majsoulRecordBaseInfo)) (k : String) (v : majsoulRecordBaseInfo) :
    List (String × majsoulRecordBaseInfo) :=
  (k, v) :: m.filter (fun e => e.1 != k)

/-- Modelled from the spec: `resetAnalysisCache()` clears the cached entries. -/
def resetAnalysisCache (c : analysisCacheStore) : analysisCacheStore :=
  { c with entries := [] }

/-- Modelled from the spec: `newGameAnalysisCache(uuid, seat)` is a new empty
entry for (match identity, seat). -/
def newGameAnalysisCache (uuid : String) (seat : Int) : gameAnalysisCache :=
  { majsoulRecordUUID := uuid, selfSeat := seat }

/-- Modelled from the spec: `getAnalysisCache(seat)` retrieves the entry of a
seat when one exists (`none` is `nil`). -/
def getAnalysisCache (c : analysisCacheStore) (seat : Int) : Option gameAnalysisCache :=
  c.entries.find? (fun e => e.selfSeat == seat)

/-- Modelled from the spec: `setAnalysisCache(entry)` stores the entry under
its seat, replacing an older one, and makes it the active entry. -/
def setAnalysisCache (c : analysisCacheStore) (e : gameAnalysisCache) : analysisCacheStore :=
  { entries := e :: c.entries.filter (fun x => x.selfSeat != e.selfSeat),
    currentSeat := some e.selfSeat }

/-- Modelled from the spec: `getCurrentAnalysisCache()` is the active entry. -/
def getCurrentAnalysisCache (c : analysisCacheStore) : Option gameAnalysisCache :=
  match c.currentSeat with
  | some s => getAnalysisCache c s
  | none => none

/-- Modelled from the spec: `gameConf.setMajsoulAccountID(id)` makes `id` the
active account. -/
def gameConfig.setMajsoulAccountID (c : gameConfig) (id : Int) : gameConfig :=
  { c with currentActiveMajsoulAccountID := id }

/-- Modelled from the spec: `gameConf.addMajsoulAccountID(id)` remembers `id`
among the known accounts. -/
def gameConfig.addMajsoulAccountID (c : gameConfig) (id : Int) : gameConfig :=
  if id ∈ c.majsoulAccountIDs then c else { c with majsoulAccountIDs := c.majsoulAccountIDs ++ [id] }

/-! ## Handler methods -/

/-- Modelled from the spec: the method `newGame` of the round data, defined
outside `server.go`; the reset it performs is recorded as a call. -/
def majsoulRoundData.newGame (d : majsoulRoundData) : majsoulRoundData :=
  { d with newGameCalls := d.newGameCalls + 1 }

/-- Modelled from the spec: the method `analysis` of the round data, defined
outside `server.go`, the transition that consumes the current payload; the
call is recorded with the payload, the origin text and the `skipOutput` in
force. -/
def majsoulRoundData.analysis (d : majsoulRoundData) : majsoulRoundData :=
  match d.msg with
  | some m => { d with analysisCalls := d.analysisCalls ++ [{ msg := m, originJSON := d.originJSON, skipOutput := d.skipOutput }] }
  | none => d

/-- The method `_analysisMajsoulRoundData(data, originJSON)`. -/
def mjHandler._analysisMajsoulRoundData (h : mjHandler) (data : majsoulMessage) (originJSON : String) :
    mjHandler :=
  { h with majsoulRoundData :=
      majsoulRoundData.analysis { h.majsoulRoundData with msg := some data, originJSON := originJSON } }

/-- Assignment `h.majsoulRoundData.skipOutput = b`. -/
def mjHandler.setSkipOutput (h : mjHandler) (b : Bool) : mjHandler :=
  { h with majsoulRoundData := { h.majsoulRoundData with skipOutput := b } }

/-- The loop over `actions` that calls `h._analysisMajsoulRoundData(action.Action, "")`
on each action in order. -/
def mjHandler.loadActions (h : mjHandler) (actions : List majsoulRecordAction) : mjHandler :=
  actions.foldl (fun s action => s._analysisMajsoulRoundData action.Action "") h

/-- The statement `go cache.runMajsoulRecordAnalysisTask(actions)` (recorded). -/
def mjHandler.goRunTask (h : mjHandler) (cache : Option gameAnalysisCache) (actions : majsoulRoundActions) :
    mjHandler :=
  { h with startedTasks := h.startedTasks ++ [{ cache := cache, actions := actions }] }

/-- The record/action store as a slice (`nil` has length 0). -/
def mjHandler.actionsList (h : mjHandler) : List majsoulRoundActions :=
  h.majsoulCurrentRecordActionsList.getD []

/-- The method `_loadMajsoulRecordBaseInfo(uuid)`; `none` is the returned
not-found error. -/
def mjHandler._loadMajsoulRecordBaseInfo (h : mjHandler) (majsoulRecordUUID : String) : Option mjHandler :=
  match mapGet h.majsoulRecordMap majsoulRecordUUID with
  | none => none
  | some baseInfo =>
    some { h with majsoulCurrentRecordUUID := majsoulRecordUUID, considerOldYaku := baseInfo.isGuyiMode }

/-- The method `_loadLiveAction(action, isFast)`; `Except.error` is the
returned `error`. -/
def mjHandler._loadLiveAction (env : Env) (h : mjHandler) (action : majsoulRecordAction) (isFast : Bool) :
    Except String mjHandler :=
  match env.append h.majsoulCurrentRoundActions action with
  | .error e => .error e
  | .ok newActions =>
    let h1 := { h with majsoulCurrentRoundActions := newActions }
    let h2 := h1.setSkipOutput isFast
    .ok (h2._analysisMajsoulRoundData action.Action "")

/-- The method `_fastLoadActions(actions)`. -/
def mjHandler._fastLoadActions (h : mjHandler) (actions : List majsoulRecordAction) : mjHandler :=
  if actions.length = 0 then h
  else
    let fastRecordEnd := (MaxInt 0 ((actions.length : Int) - 3)).toNat
    let h1 := h.setSkipOutput true
    let h2 := h1.loadActions (actions.take fastRecordEnd)
    let h3 := h2.setSkipOutput false
    h3.loadActions (actions.drop fastRecordEnd)

/-- The test `action.Name == "RecordHule" || action.Name == "RecordLiuJu" || action.Name == "RecordNoTile"`. -/
def isRoundEndName (name : String) : Bool :=
  name == "RecordHule" || name == "RecordLiuJu" || name == "RecordNoTile"

/-- The `switch clickAction` of `_onRecordClick` (lines 377-423).  The result
`none` is an early `return`; `some` is the handler on leaving the switch. -/
def mjHandler.clickSwitch (h : mjHandler) (analysisCache : Option gameAnalysisCache)
    (clickAction : String) (clickActionIndex : Int) (fastRecordTo : Int) :
    Except GoPanic (Option mjHandler) :=
  if clickAction = "nextStep" ∨ clickAction = "update" then do
    let newActionIndex := h.majsoulCurrentActionIndex + 1
    let round ← goIndex h.actionsList h.majsoulCurrentRoundIndex
    if newActionIndex ≥ (round.length : Int) then
      pure none
    else
      pure (some { h with majsoulCurrentActionIndex := newActionIndex })
  else if clickAction = "nextRound" then do
    let r ← goRem (h.majsoulCurrentRoundIndex + 1) h.actionsList.length
    let h1 := { h with majsoulCurrentRoundIndex := r, majsoulCurrentActionIndex := 0 }
    let round ← goIndex h1.actionsList h1.majsoulCurrentRoundIndex
    pure (some (h1.goRunTask analysisCache round))
  else if clickAction = "preRound" then do
    let r ← goRem (h.majsoulCurrentRoundIndex - 1 + h.actionsList.length) h.actionsList.length
    let h1 := { h with majsoulCurrentRoundIndex := r, majsoulCurrentActionIndex := 0 }
    let round ← goIndex h1.actionsList h1.majsoulCurrentRoundIndex
    pure (some (h1.goRunTask analysisCache round))
  else if clickAction = "jumpRound" then do
    let r ← goRem clickActionIndex h.actionsList.length
    let h1 := { h with majsoulCurrentRoundIndex := r, majsoulCurrentActionIndex := 0 }
    let round ← goIndex h1.actionsList h1.majsoulCurrentRoundIndex
    pure (some (h1.goRunTask analysisCache round))
  else if clickAction = "nextXun" ∨ clickAction = "preXun" ∨ clickAction = "jumpXun"
      ∨ clickAction = "preStep" ∨ clickAction = "jumpToLastRoundXun" then do
    let h1 ←
      if clickAction = "jumpToLastRoundXun" then do
        let r ← goRem (h.majsoulCurrentRoundIndex - 1 + h.actionsList.length) h.actionsList.length
        let h0 := { h with majsoulCurrentRoundIndex := r }
        let round ← goIndex h0.actionsList h0.majsoulCurrentRoundIndex
        pure (h0.goRunTask analysisCache round)
      else pure h
    let h2 := h1.setSkipOutput true
    let currentRoundActions ← goIndex h2.actionsList h2.majsoulCurrentRoundIndex
    let startActionIndex := if clickAction = "nextXun" then h2.majsoulCurrentActionIndex + 1 else 0
    let endActionIndex := fastRecordTo
    let ranged ← goSlice currentRoundActions startActionIndex (goAdd endActionIndex 1)
    let h3 := h2.loadActions ranged
    let h4 := h3.setSkipOutput false
    pure (some { h4 with majsoulCurrentActionIndex := goAdd endActionIndex 1 })
  else
    pure none

/-- Lines 428-429 of `_onRecordClick`: the action under the cursor is read
and its payload applied; the action is handed on to the round-end test. -/
def mjHandler.clickApply (h : mjHandler) : Except GoPanic (mjHandler × majsoulRecordAction) := do
  let round ← goIndex h.actionsList h.majsoulCurrentRoundIndex
  let action ← goIndex round h.majsoulCurrentActionIndex
  pure (h._analysisMajsoulRoundData action.Action "", action)

/-- Lines 431-447 of `_onRecordClick`: after a round-end action the cursor
moves to the start of the next round, or wraps to round 0 and returns.  The
`time.Sleep` has no effect on the state. -/
def mjHandler.clickAdvance (h : mjHandler) (analysisCache : Option gameAnalysisCache)
    (action : majsoulRecordAction) : Except GoPanic mjHandler :=
  if isRoundEndName action.Name then
    let h2 := { h with majsoulCurrentRoundIndex := h.majsoulCurrentRoundIndex + 1,
                       majsoulCurrentActionIndex := 0 }
    if h2.majsoulCurrentRoundIndex = (h2.actionsList.length : Int) then
      pure { h2 with majsoulCurrentRoundIndex := 0 }
    else do
      let actions ← goIndex h2.actionsList h2.majsoulCurrentRoundIndex
      let h3 := h2.goRunTask analysisCache actions
      let first ← goIndex actions h3.majsoulCurrentActionIndex
      pure (h3._analysisMajsoulRoundData first.Action "")
  else
    pure h

/-- Lines 428-447 of `_onRecordClick`: what follows the switch. -/
def mjHandler.clickLand (h : mjHandler) (analysisCache : Option gameAnalysisCache) :
    Except GoPanic mjHandler := do
  let (h1, action) ← h.clickApply
  h1.clickAdvance analysisCache action

/-- The method `_onRecordClick(clickAction, clickActionIndex, fastRecordTo)`.
Cursor arithmetic is on values bounded by slice lengths, where no 64-bit
overflow can occur; the client-supplied `fastRecordTo` is incremented with
wrap-around. -/
def mjHandler._onRecordClick (h : mjHandler) (clickAction : String) (clickActionIndex : Int)
    (fastRecordTo : Int) : Except GoPanic mjHandler := do
  let analysisCache := getCurrentAnalysisCache h.analysisCache
  match ← h.clickSwitch analysisCache clickAction clickActionIndex fastRecordTo with
  | none => pure h
  | some h1 => h1.clickLand analysisCache

/-! ## Dispatch -/

/-- The event kinds selected by the `switch` of `runAnalysisMajsoulMessageTask`. -/
inductive EventKind where
  | FriendList
  | RecordCatalog
  | SharedRecordPointer
  | BeginViewingRecord
  | RecordActionBatch
  | ReplayNavigationCommand
  | BeginLiveSpectate
  | LiveFastAction
  | LiveAction
  | SeatChange
  | SyncActionBatch
  | OpaqueStateDelta
deriving DecidableEq, Repr

/-- The case selection of the `switch` at lines 156-301: the conditions are
tried from top to bottom and the first true one selects the case. -/
def classify (d : majsoulMessage) : EventKind :=
  if d.Friends.length > 0 then .FriendList
  else if d.RecordBaseInfoList.length > 0 then .RecordCatalog
  else if d.SharedRecordBaseInfo.isSome then .SharedRecordPointer
  else if d.CurrentRecordUUID ≠ "" then .BeginViewingRecord
  else if d.RecordActions.length > 0 then .RecordActionBatch
  else if d.RecordClickAction ≠ "" then .ReplayNavigationCommand
  else if d.LiveBaseInfo.isSome then .BeginLiveSpectate
  else if d.LiveFastAction.isSome then .LiveFastAction
  else if d.LiveAction.isSome then .LiveAction
  else if d.ChangeSeatTo.isSome then .SeatChange
  else if d.SyncGameActions.length > 0 then .SyncActionBatch
  else .OpaqueStateDelta

/-- The body of the case `len(d.RecordActions) > 0` (lines 197-249). -/
def mjHandler.onRecordActions (env : Env) (h : mjHandler) (d : majsoulMessage) (originJSON : String) :
    Except GoPanic mjHandler :=
  if h.majsoulCurrentRecordActionsList.isSome then pure h
  else if h.majsoulCurrentRecordUUID = "" then pure h
  else
    match mapGet h.majsoulRecordMap h.majsoulCurrentRecordUUID with
    | none => pure h
    | some baseInfo =>
      let selfAccountID := h.gameConf.currentActiveMajsoulAccountID
      if selfAccountID = -1 then pure h
      else
        let h1 := { h with majsoulRoundData :=
          { h.majsoulRoundData.newGame with gameMode := gameMode.gameModeRecord } }
        match env.getSelfSeat baseInfo selfAccountID with
        | .error _ => pure h1
        | .ok selfSeat =>
          let h2 := { h1 with majsoulRoundData := { h1.majsoulRoundData with selfSeat := selfSeat } }
          match env.parseMajsoulRecordAction d.RecordActions with
          | .error _ => pure h2
          | .ok majsoulCurrentRecordActions => do
            let h3 := { h2 with majsoulCurrentRecordActionsList := some majsoulCurrentRecordActions,
                                majsoulCurrentRoundIndex := 0,
                                majsoulCurrentActionIndex := 0 }
            let actions ← goIndex h3.actionsList h3.majsoulCurrentRoundIndex
            let analysisCache := newGameAnalysisCache h3.majsoulCurrentRecordUUID selfSeat
            let h4 := { h3 with analysisCache := setAnalysisCache h3.analysisCache analysisCache }
            let h5 := h4.goRunTask (some analysisCache) actions
            let first ← goIndex actions 0
            pure (h5._analysisMajsoulRoundData first.Action originJSON)

/-- The body of the case `d.ChangeSeatTo != nil` (lines 273-295). -/
def mjHandler.onChangeSeat (h : mjHandler) (changeSeatTo : Int) : Except GoPanic mjHandler := do
  let h1 := { h with majsoulRoundData := { h.majsoulRoundData with selfSeat := changeSeatTo } }
  if h1.majsoulRoundData.gameMode = gameMode.gameModeLive then
    pure (h1._fastLoadActions h1.majsoulCurrentRoundActions)
  else do
    let fullActions ← goIndex h1.actionsList h1.majsoulCurrentRoundIndex
    let actions ← goSlice fullActions 0 (h1.majsoulCurrentActionIndex + 1)
    let analysisCache :=
      match getAnalysisCache h1.analysisCache changeSeatTo with
      | some c => c
      | none => newGameAnalysisCache h1.majsoulCurrentRecordUUID changeSeatTo
    let h2 := { h1 with analysisCache := setAnalysisCache h1.analysisCache analysisCache }
    let h3 := h2.goRunTask (some analysisCache) fullActions
    pure (h3._fastLoadActions actions)

/-- One iteration of the loop of `runAnalysisMajsoulMessageTask` on a
successfully decoded message `d` with raw text `originJSON` (lines 154-301). -/
def mjHandler.handleMessage (env : Env) (h : mjHandler) (d : majsoulMessage) (originJSON : String) :
    Except GoPanic mjHandler :=
  match classify d with
  | .FriendList => pure h
  | .RecordCatalog =>
    pure { h with majsoulRecordMap :=
      d.RecordBaseInfoList.foldl (fun m record => mapSet m record.UUID record) h.majsoulRecordMap }
  | .SharedRecordPointer =>
    match d.SharedRecordBaseInfo with
    | none => pure h
    | some record =>
      let h1 := { h with majsoulRecordMap := mapSet h.majsoulRecordMap record.UUID record }
      match h1._loadMajsoulRecordBaseInfo record.UUID with
      | none => pure h1
      | some h2 => pure h2
  | .BeginViewingRecord =>
    let h1 := { h with analysisCache := resetAnalysisCache h.analysisCache,
                       majsoulCurrentRecordActionsList := none }
    match h1._loadMajsoulRecordBaseInfo d.CurrentRecordUUID with
    | none => pure { h1 with gameConf := h1.gameConf.setMajsoulAccountID d.AccountID }
    | some h2 =>
      let h3 := { h2 with gameConf := h2.gameConf.addMajsoulAccountID d.AccountID }
      if h3.gameConf.currentActiveMajsoulAccountID ≠ d.AccountID then
        pure { h3 with gameConf := h3.gameConf.setMajsoulAccountID d.AccountID }
      else pure h3
  | .RecordActionBatch => h.onRecordActions env d originJSON
  | .ReplayNavigationCommand =>
    h._onRecordClick d.RecordClickAction d.RecordClickActionIndex d.FastRecordTo
  | .BeginLiveSpectate =>
    let h1 := { h with gameConf := h.gameConf.setMajsoulAccountID 1 }
    pure { h1 with majsoulRoundData :=
      { h1.majsoulRoundData.newGame with selfSeat := 0, gameMode := gameMode.gameModeLive } }
  | .LiveFastAction =>
    match d.LiveFastAction with
    | none => pure h
    | some action =>
      match h._loadLiveAction env action true with
      | .error _ => pure h
      | .ok h1 => pure h1
  | .LiveAction =>
    match d.LiveAction with
    | none => pure h
    | some action =>
      match h._loadLiveAction env action false with
      | .error _ => pure h
      | .ok h1 => pure h1
  | .SeatChange =>
    match d.ChangeSeatTo with
    | none => pure h
    | some changeSeatTo => h.onChangeSeat changeSeatTo
  | .SyncActionBatch => pure (h._fastLoadActions d.SyncGameActions)
  | .OpaqueStateDelta => pure (h._analysisMajsoulRoundData d originJSON)

/-! ## Predicates used in the statements -/

/-- The replay cursor invariant: the store is non-empty, every round is
non-empty, and the cursor addresses an action of the store. -/
def mjHandler.CursorValid (h : mjHandler) : Prop :=
  0 < h.actionsList.length ∧ (∀ round ∈ h.actionsList, 0 < round.length) ∧
  0 ≤ h.majsoulCurrentRoundIndex ∧ h.majsoulCurrentRoundIndex < (h.actionsList.length : Int) ∧
  0 ≤ h.majsoulCurrentActionIndex ∧
  h.majsoulCurrentActionIndex < ((h.actionsList.getD h.majsoulCurrentRoundIndex.toNat []).length : Int)

instance (h : mjHandler) : Decidable h.CursorValid := by
  unfold mjHandler.CursorValid; infer_instance

/-- The record of an applied action: payload of the action, empty origin text,
and the `skipOutput` value in force. -/
def appliedWith (skip : Bool) (action : majsoulRecordAction) : analysisCall :=
  { msg := action.Action, originJSON := "", skipOutput := skip }

/-- The `skipOutput` flags of the payload applications recorded in a handler. -/
def mjHandler.skipFlags (h : mjHandler) : List Bool :=
  h.majsoulRoundData.analysisCalls.map (fun c => c.skipOutput)

/-- The precedence table of the specification (section 4.1, rules 1 to 11):
each rule is a test on the decoded payload and the event kind it selects. -/
def precedenceRules : List ((majsoulMessage → Bool) × EventKind) :=
  [ (fun d => !d.Friends.isEmpty, .FriendList),
    (fun d => !d.RecordBaseInfoList.isEmpty, .RecordCatalog),
    (fun d => d.SharedRecordBaseInfo.isSome, .SharedRecordPointer),
    (fun d => d.CurrentRecordUUID != "", .BeginViewingRecord),
    (fun d => !d.RecordActions.isEmpty, .RecordActionBatch),
    (fun d => d.RecordClickAction != "", .ReplayNavigationCommand),
    (fun d => d.LiveBaseInfo.isSome, .BeginLiveSpectate),
    (fun d => d.LiveFastAction.isSome, .LiveFastAction),
    (fun d => d.LiveAction.isSome, .LiveAction),
    (fun d => d.ChangeSeatTo.isSome, .SeatChange),
    (fun d => !d.SyncGameActions.isEmpty, .SyncActionBatch) ]

/-- The classification of the specification: the event kind of the first rule
of the precedence table whose test holds, and `OpaqueStateDelta` (rule 12)
when none does. -/
def firstMatchingKind (d : majsoulMessage) : EventKind :=
  match precedenceRules.find? (fun rule => rule.1 d) with
  | some rule => rule.2
  | none => .OpaqueStateDelta

/-- A handler state with an empty catalog, no record loaded and the given
store and cursor, in record mode; used to evaluate the code on concrete
inputs. -/
def recordHandler (store : List majsoulRoundActions) (round action : Int) : mjHandler :=
  { majsoulRoundData :=
      { selfSeat := 0, gameMode := gameMode.gameModeRecord, skipOutput := false, msg := none,
        originJSON := "", newGameCalls := 0, analysisCalls := [] },
    majsoulRecordMap := [],
    majsoulCurrentRecordUUID := "R1",
    majsoulCurrentRecordActionsList := some store,
    majsoulCurrentRoundIndex := round,
    majsoulCurrentActionIndex := action,
    majsoulCurrentRoundActions := [],
    gameConf := { majsoulAccountIDs := [], currentActiveMajsoulAccountID := 42 },
    analysisCache := { entries := [{ majsoulRecordUUID := "R1", selfSeat := 0 }], currentSeat := some 0 },
    considerOldYaku := false,
    startedTasks := [] }

/-- A recorded action with the given name and payload content. -/
def act (name : String) (n : Nat) : majsoulRecordAction :=
  .mk name (plainMessage n)

/-- A concrete environment: account 42 sits at seat 1, a non-empty batch
parses to a single round, and appending always succeeds. -/
def sampleEnv : Env :=
  { getSelfSeat := fun _ account => if account = 42 then .ok 1 else .error "no such account",
    parseMajsoulRecordAction := fun actions =>
      if actions.isEmpty then .error "empty record" else .ok [actions],
    append := fun actions action => .ok (actions ++ [action]) }

/-- A payload with a non-empty friend list and a non-empty record catalog list. -/
def friendsAndCatalogMessage : majsoulMessage :=
  .mk [7] [{ UUID := "R1", isGuyiMode := false, other := 0 }] none "" 0 [] "" 0 0
    none none none none [] 0

/-- A round of five actions that ends with a win; payload contents are
`10 * k`, ..., `10 * k + 4`. -/
def fiveActionRound (k : Nat) : majsoulRoundActions :=
  [act "RecordNewRound" (10 * k), act "RecordDealTile" (10 * k + 1),
   act "RecordDiscardTile" (10 * k + 2), act "RecordDealTile" (10 * k + 3),
   act "RecordHule" (10 * k + 4)]

/-- A store with 3 rounds of 5 actions each. -/
def threeRoundStore : List majsoulRoundActions :=
  [fiveActionRound 0, fiveActionRound 1, fiveActionRound 2]

/-- The five bulk navigation commands of `_onRecordClick`. -/
def isBulkCommand (clickAction : String) : Prop :=
  clickAction = "nextXun" ∨ clickAction = "preXun" ∨ clickAction = "jumpXun"
    ∨ clickAction = "preStep" ∨ clickAction = "jumpToLastRoundXun"

instance (clickAction : String) : Decidable (isBulkCommand clickAction) := by
  unfold isBulkCommand; infer_instance

/-- The round index a bulk command works on: `jumpToLastRoundXun` first steps
back one round (wrapping), the others keep the round index. -/
def mjHandler.bulkRoundIndex (h : mjHandler) (clickAction : String) : Int :=
  if clickAction = "jumpToLastRoundXun" then
    Int.tmod (h.majsoulCurrentRoundIndex - 1 + h.actionsList.length) h.actionsList.length
  else h.majsoulCurrentRoundIndex

/-- The value of `startActionIndex` in a bulk command. -/
def mjHandler.bulkStart (h : mjHandler) (clickAction : String) : Int :=
  if clickAction = "nextXun" then h.majsoulCurrentActionIndex + 1 else 0

/-- The round a bulk command works on (empty when the index is out of range). -/
def mjHandler.bulkRound (h : mjHandler) (clickAction : String) : majsoulRoundActions :=
  h.actionsList.getD (h.bulkRoundIndex clickAction).toNat []

/-- The command `clickAction` issued `n` times in succession. -/
def mjHandler.repeatClick (h : mjHandler) (clickAction : String) (clickActionIndex fastRecordTo : Int) :
    Nat → Except GoPanic mjHandler
  | 0 => .ok h
  | n + 1 =>
    match h._onRecordClick clickAction clickActionIndex fastRecordTo with
    | .error p => .error p
    | .ok h1 => h1.repeatClick clickAction clickActionIndex fastRecordTo n

/-- The names the round-end test of `_onRecordClick` accepts. -/
def RoundEndName (name : String) : Prop :=
  name = "RecordHule" ∨ name = "RecordLiuJu" ∨ name = "RecordNoTile"

instance (name : String) : Decidable (RoundEndName name) := by
  unfold RoundEndName; infer_instance

/-- No round of the store begins with a round-end action. -/
def mjHandler.RoundsStartPlain (h : mjHandler) : Prop :=
  ∀ round ∈ h.actionsList, ∀ first ∈ round.head?, ¬ RoundEndName first.Name

instance (h : mjHandler) : Decidable h.RoundsStartPlain := by
  unfold mjHandler.RoundsStartPlain; infer_instance

/-- A store of two one-action rounds whose round 0 begins with a win. -/
def winFirstStore : List majsoulRoundActions :=
  [[act "RecordHule" 0], [act "RecordNewRound" 10]]

/-- A handler that is viewing record "R1", known to the catalog, with no
actions loaded yet and account 42 active. -/
def viewingHandler : mjHandler :=
  { majsoulRoundData :=
      { selfSeat := -1, gameMode := gameMode.gameModeMatch, skipOutput := false, msg := none,
        originJSON := "", newGameCalls := 0, analysisCalls := [] },
    majsoulRecordMap := [("R1", { UUID := "R1", isGuyiMode := false, other := 0 })],
    majsoulCurrentRecordUUID := "R1",
    majsoulCurrentRecordActionsList := none,
    majsoulCurrentRoundIndex := 0,
    majsoulCurrentActionIndex := 0,
    majsoulCurrentRoundActions := [],
    gameConf := { majsoulAccountIDs := [42], currentActiveMajsoulAccountID := 42 },
    analysisCache := { entries := [], currentSeat := none },
    considerOldYaku := false,
    startedTasks := [] }

/-- A record-action batch of three actions. -/
def recordBatchMessage : majsoulMessage :=
  .mk [] [] none "" 0
    [act "RecordNewRound" 0, act "RecordDealTile" 1, act "RecordDiscardTile" 2]
    "" 0 0 none none none none [] 0

/-! ## The handler at a panic

The Go methods update `*h` in place: when a statement panics, the writes of
the statements before it stay.  The functions of this section follow the same
source lines as `_onRecordClick`, `onRecordActions` and `onChangeSeat` above
and also give the handler as it is at the panic. -/

/-- How control leaves a method of the handler: by returning, or by a panic;
in both cases with the handler as the statements executed so far left it. -/
inductive Outcome where
  | returned (h : mjHandler)
  | panicked (h : mjHandler) (p : GoPanic)

/-- The handler when control leaves the method. -/
def Outcome.handler : Outcome → mjHandler
  | .returned h => h
  | .panicked h _ => h

/-- The outcome without the handler at the panic. -/
def Outcome.toExcept : Outcome → Except GoPanic mjHandler
  | .returned h => .ok h
  | .panicked _ p => .error p

/-- Evaluation of an expression that may panic while the handler is `h`: on a
panic the method is left with `h`, otherwise it goes on with the value. -/
def attempt {α : Type} (h : mjHandler) (x : Except GoPanic α) (k : α → Outcome) : Outcome :=
  match x with
  | .ok a => k a
  | .error p => .panicked h p

/-- Lines 428-447 of `_onRecordClick`, with the handler at a panic: at the
read of line 428 nothing has been written since the switch; at the read of
line 442 the payload of line 429 is applied and the cursor is at the start of
the next round; at the read of line 445 the analysis task is started too. -/
def mjHandler.clickLandInPlace (h : mjHandler) (analysisCache : Option gameAnalysisCache) : Outcome :=
  attempt h (goIndex h.actionsList h.majsoulCurrentRoundIndex) fun round =>
  attempt h (goIndex round h.majsoulCurrentActionIndex) fun action =>
    let h1 := h._analysisMajsoulRoundData action.Action ""
    if isRoundEndName action.Name then
      let h2 := { h1 with majsoulCurrentRoundIndex := h1.majsoulCurrentRoundIndex + 1,
                          majsoulCurrentActionIndex := 0 }
      if h2.majsoulCurrentRoundIndex = (h2.actionsList.length : Int) then
        .returned { h2 with majsoulCurrentRoundIndex := 0 }
      else
        attempt h2 (goIndex h2.actionsList h2.majsoulCurrentRoundIndex) fun actions =>
          let h3 := h2.goRunTask analysisCache actions
          attempt h3 (goIndex actions h3.majsoulCurrentActionIndex) fun first =>
            .returned (h3._analysisMajsoulRoundData first.Action "")
    else
      .returned h1

/-- Lines 384-387, 388-391 and 392-395 of `_onRecordClick` (`nextRound`,
`preRound`, `jumpRound`) followed by lines 428-447: the round index `r` and
the action index 0 are stored before the round is read for the `go`
statement, so a panic of that read leaves the cursor at `(r, 0)`. -/
def mjHandler.roundJumpInPlace (h : mjHandler) (analysisCache : Option gameAnalysisCache)
    (target : Int) : Outcome :=
  attempt h (goRem target h.actionsList.length) fun r =>
    let h1 := { h with majsoulCurrentRoundIndex := r, majsoulCurrentActionIndex := 0 }
    attempt h1 (goIndex h1.actionsList h1.majsoulCurrentRoundIndex) fun round =>
      (h1.goRunTask analysisCache round).clickLandInPlace analysisCache

/-- Lines 402-420 of `_onRecordClick` followed by lines 428-447: `skipOutput`
is set before the round is read and sliced, so a panic of the read or of the
slice expression leaves it set.  For the panic `beyondLength` the handler is
the one at the slice expression: the payloads that Go may apply from past the
length of the round before it panics are not tracked. -/
def mjHandler.bulkLoadInPlace (h : mjHandler) (analysisCache : Option gameAnalysisCache)
    (clickAction : String) (fastRecordTo : Int) : Outcome :=
  let h2 := h.setSkipOutput true
  attempt h2 (goIndex h2.actionsList h2.majsoulCurrentRoundIndex) fun currentRoundActions =>
    let startActionIndex := if clickAction = "nextXun" then h2.majsoulCurrentActionIndex + 1 else 0
    let endActionIndex := fastRecordTo
    attempt h2 (goSlice currentRoundActions startActionIndex (goAdd endActionIndex 1)) fun ranged =>
      let h3 := h2.loadActions ranged
      let h4 := h3.setSkipOutput false
      mjHandler.clickLandInPlace { h4 with majsoulCurrentActionIndex := goAdd endActionIndex 1 }
        analysisCache

/-- The method `_onRecordClick` with the handler at a panic. -/
def mjHandler._onRecordClickInPlace (h : mjHandler) (clickAction : String) (clickActionIndex : Int)
    (fastRecordTo : Int) : Outcome :=
  let analysisCache := getCurrentAnalysisCache h.analysisCache
  if clickAction = "nextStep" ∨ clickAction = "update" then
    let newActionIndex := h.majsoulCurrentActionIndex + 1
    attempt h (goIndex h.actionsList h.majsoulCurrentRoundIndex) fun round =>
      if newActionIndex ≥ (round.length : Int) then
        .returned h
      else
        mjHandler.clickLandInPlace { h with majsoulCurrentActionIndex := newActionIndex } analysisCache
  else if clickAction = "nextRound" then
    h.roundJumpInPlace analysisCache (h.majsoulCurrentRoundIndex + 1)
  else if clickAction = "preRound" then
    h.roundJumpInPlace analysisCache (h.majsoulCurrentRoundIndex - 1 + h.actionsList.length)
  else if clickAction = "jumpRound" then
    h.roundJumpInPlace analysisCache clickActionIndex
  else if clickAction = "nextXun" ∨ clickAction = "preXun" ∨ clickAction = "jumpXun"
      ∨ clickAction = "preStep" ∨ clickAction = "jumpToLastRoundXun" then
    if clickAction = "jumpToLastRoundXun" then
      attempt h (goRem (h.majsoulCurrentRoundIndex - 1 + h.actionsList.length)
          h.actionsList.length) fun r =>
        let h0 := { h with majsoulCurrentRoundIndex := r }
        attempt h0 (goIndex h0.actionsList h0.majsoulCurrentRoundIndex) fun round =>
          (h0.goRunTask analysisCache round).bulkLoadInPlace analysisCache clickAction fastRecordTo
    else
      h.bulkLoadInPlace analysisCache clickAction fastRecordTo
  else
    .returned h

/-- The body of the case `len(d.RecordActions) > 0` (lines 197-249) with the
handler at a panic: at the read of line 240 the new game, the seat, the store
and the cursor `(0, 0)` are written; at the read of line 248 the analysis
cache is set and the task is started too. -/
def mjHandler.onRecordActionsInPlace (env : Env) (h : mjHandler) (d : majsoulMessage)
    (originJSON : String) : Outcome :=
  if h.majsoulCurrentRecordActionsList.isSome then .returned h
  else if h.majsoulCurrentRecordUUID = "" then .returned h
  else
    match mapGet h.majsoulRecordMap h.majsoulCurrentRecordUUID with
    | none => .returned h
    | some baseInfo =>
      let selfAccountID := h.gameConf.currentActiveMajsoulAccountID
      if selfAccountID = -1 then .returned h
      else
        let h1 := { h with majsoulRoundData :=
          { h.majsoulRoundData.newGame with gameMode := gameMode.gameModeRecord } }
        match env.getSelfSeat baseInfo selfAccountID with
        | .error _ => .returned h1
        | .ok selfSeat =>
          let h2 := { h1 with majsoulRoundData := { h1.majsoulRoundData with selfSeat := selfSeat } }
          match env.parseMajsoulRecordAction d.RecordActions with
          | .error _ => .returned h2
          | .ok majsoulCurrentRecordActions =>
            let h3 := { h2 with majsoulCurrentRecordActionsList := some majsoulCurrentRecordActions,
                                majsoulCurrentRoundIndex := 0,
                                majsoulCurrentActionIndex := 0 }
            attempt h3 (goIndex h3.actionsList h3.majsoulCurrentRoundIndex) fun actions =>
              let analysisCache := newGameAnalysisCache h3.majsoulCurrentRecordUUID selfSeat
              let h4 := { h3 with analysisCache := setAnalysisCache h3.analysisCache analysisCache }
              let h5 := h4.goRunTask (some analysisCache) actions
              attempt h5 (goIndex actions 0) fun first =>
                .returned (h5._analysisMajsoulRoundData first.Action originJSON)

/-- The body of the case `d.ChangeSeatTo != nil` (lines 273-295) with the
handler at a panic: the seat is written (line 275) before the round is read
and sliced (lines 284-285).  For the panic `beyondLength` the handler is the
one at the slice expression. -/
def mjHandler.onChangeSeatInPlace (h : mjHandler) (changeSeatTo : Int) : Outcome :=
  let h1 := { h with majsoulRoundData := { h.majsoulRoundData with selfSeat := changeSeatTo } }
  if h1.majsoulRoundData.gameMode = gameMode.gameModeLive then
    .returned (h1._fastLoadActions h1.majsoulCurrentRoundActions)
  else
    attempt h1 (goIndex h1.actionsList h1.majsoulCurrentRoundIndex) fun fullActions =>
    attempt h1 (goSlice fullActions 0 (h1.majsoulCurrentActionIndex + 1)) fun actions =>
      let analysisCache :=
        match getAnalysisCache h1.analysisCache changeSeatTo with
        | some c => c
        | none => newGameAnalysisCache h1.majsoulCurrentRecordUUID changeSeatTo
      let h2 := { h1 with analysisCache := setAnalysisCache h1.analysisCache analysisCache }
      let h3 := h2.goRunTask (some analysisCache) fullActions
      .returned (h3._fastLoadActions actions)

/-- One iteration of the loop of `runAnalysisMajsoulMessageTask` (lines
154-301) with the handler at a panic.  The three cases whose statements index
or slice the record store are followed statement by statement; the other
cases contain no statement that can panic in the model
(`handleMessage_ok_of_kind`), and their outcome is the one of `handleMessage`. -/
def mjHandler.handleMessageInPlace (env : Env) (h : mjHandler) (d : majsoulMessage)
    (originJSON : String) : Outcome :=
  match classify d with
  | .RecordActionBatch => h.onRecordActionsInPlace env d originJSON
  | .ReplayNavigationCommand =>
    h._onRecordClickInPlace d.RecordClickAction d.RecordClickActionIndex d.FastRecordTo
  | .SeatChange =>
    match d.ChangeSeatTo with
    | none => .returned h
    | some changeSeatTo => h.onChangeSeatInPlace changeSeatTo
  | _ =>
    match h.handleMessage env d originJSON with
    | .ok h1 => .returned h1
    | .error p => .panicked h p

/-! ## The processing loop -/

/-- One element of `majsoulMessageQueue`: the raw text of the message and the
result of `json.Unmarshal` on it (`none` when decoding fails). -/
structure queuedMessage where
  decoded : Option majsoulMessage
  raw : String

/-- How a run of `runAnalysisMajsoulMessageTask` on a finite queue ends: the
queue is drained (the loop waits for more), a panic is recovered by the
deferred function and the method returns, or (in debug mode, where nothing is
deferred) the panic is not recovered. -/
inductive loopEnd where
  | drained
  | recovered (p : GoPanic)
  | crashed (p : GoPanic)
deriving DecidableEq, Repr

/-- The result of the loop: the handler, the messages still in the queue when
the loop ended, how many messages the loop took from the queue, and how it
ended.  For a panic the handler is the one at the panic, with the writes that
the handling of the failing message made before it. -/
structure loopResult where
  handler : mjHandler
  unread : List queuedMessage
  consumed : Nat
  ending : loopEnd

/-- The method `runAnalysisMajsoulMessageTask` on the messages `queue` (lines
138-303).  The `recover` is deferred once, outside the `for` loop: a panic in
the handling of a message leaves the loop, and the method returns. -/
def mjHandler.runAnalysisMajsoulMessageTask (env : Env) (debugMode : Bool) (h : mjHandler) :
    List queuedMessage → loopResult
  | [] => { handler := h, unread := [], consumed := 0, ending := loopEnd.drained }
  | msg :: queue =>
    match msg.decoded with
    | none =>
      let r := h.runAnalysisMajsoulMessageTask env debugMode queue
      { r with consumed := r.consumed + 1 }
    | some d =>
      match h.handleMessageInPlace env d msg.raw with
      | .panicked hp p =>
        { handler := hp, unread := queue, consumed := 1,
          ending := if debugMode then loopEnd.crashed p else loopEnd.recovered p }
      | .returned h1 =>
        let r := h1.runAnalysisMajsoulMessageTask env debugMode queue
        { r with consumed := r.consumed + 1 }

/-! ## The tenhou loop -/

/-- Modelled from the spec: the fields of `tenhouRoundData` that
`runAnalysisTenhouMessageTask` writes (lines 124-125); the type and its
`analysis` method are defined outside `server.go`.  A decoded `tenhouMessage`
is represented by a number, and the calls of `analysis` are recorded. -/
structure tenhouRoundData where
  msg : Option Nat
  originJSON : String
  analysisCalls : List (Nat × String)

/-- One message of `tenhouMessageReceiver`: the raw text and the result of
`json.Unmarshal` on it (`none` when decoding fails). -/
structure tenhouQueuedMessage where
  decoded : Option Nat
  raw : String

/-- The result of the tenhou loop, as `loopResult`. -/
structure tenhouLoopResult where
  roundData : tenhouRoundData
  unread : List tenhouQueuedMessage
  consumed : Nat
  ending : loopEnd

/-- The method `runAnalysisTenhouMessageTask` on the messages `queue` (lines
105-130).  `analysisPanics` tells whether the call `h.tenhouRoundData.analysis()`
of line 126, made on the round data with the message stored, panics (an error
that it returns is logged and the loop goes on).  As in the majsoul loop the
`recover` is deferred outside the `for`: a panic ends the method. -/
def runAnalysisTenhouMessageTask (analysisPanics : tenhouRoundData → Option GoPanic)
    (debugMode : Bool) (t : tenhouRoundData) : List tenhouQueuedMessage → tenhouLoopResult
  | [] => { roundData := t, unread := [], consumed := 0, ending := loopEnd.drained }
  | msg :: queue =>
    match msg.decoded with
    | none =>
      let r := runAnalysisTenhouMessageTask analysisPanics debugMode t queue
      { r with consumed := r.consumed + 1 }
    | some d =>
      let t1 := { t with msg := some d, originJSON := msg.raw }
      let t2 := { t1 with analysisCalls := t1.analysisCalls ++ [(d, msg.raw)] }
      match analysisPanics t1 with
      | some p =>
        { roundData := t2, unread := queue, consumed := 1,
          ending := if debugMode then loopEnd.crashed p else loopEnd.recovered p }
      | none =>
        let r := runAnalysisTenhouMessageTask analysisPanics debugMode t2 queue
        { r with consumed := r.consumed + 1 }

/-! ## Further predicates and sample inputs -/

/-- The action stored at the cursor, when the cursor addresses one. -/
def mjHandler.cursorAction (h : mjHandler) : Option majsoulRecordAction :=
  match goIndex h.actionsList h.majsoulCurrentRoundIndex with
  | .ok round =>
    match goIndex round h.majsoulCurrentActionIndex with
    | .ok action => some action
    | .error _ => none
  | .error _ => none

/-- The payload of the most recent call of `analysis`, when there is one. -/
def mjHandler.lastApplied (h : mjHandler) : Option majsoulMessage :=
  h.majsoulRoundData.analysisCalls.getLast?.map (fun c => c.msg)

/-- The payloads of the recorded calls of `analysis`, in order. -/
def mjHandler.appliedPayloads (h : mjHandler) : List majsoulMessage :=
  h.majsoulRoundData.analysisCalls.map (fun c => c.msg)

/-- The number of actions `_fastLoadActions` applies with output suppressed. -/
def fastRecordEnd (actions : List majsoulRecordAction) : Nat :=
  (MaxInt 0 ((actions.length : Int) - 3)).toNat

/-- A payload that begins the viewing of record `uuid` by `account`. -/
def beginViewingMessage (uuid : String) (account : Int) : majsoulMessage :=
  .mk [] [] none uuid account [] "" 0 0 none none none none [] 0

/-- A payload that carries a record click. -/
def clickMessage (clickAction : String) (clickActionIndex fastRecordTo : Int) : majsoulMessage :=
  .mk [] [] none "" 0 [] clickAction clickActionIndex fastRecordTo none none none none [] 0

/-- A payload that changes the seat. -/
def seatChangeMessage (seat : Int) : majsoulMessage :=
  .mk [] [] none "" 0 [] "" 0 0 none none none (some seat) [] 0

/-- A payload that carries sync game actions. -/
def syncMessage (actions : List majsoulRecordAction) : majsoulMessage :=
  .mk [] [] none "" 0 [] "" 0 0 none none none none actions 0

/-- A payload that carries a record catalog list. -/
def catalogMessage (records : List majsoulRecordBaseInfo) : majsoulMessage :=
  .mk [] records none "" 0 [] "" 0 0 none none none none [] 0

/-- The handler that is viewing record "R1" with account 7 active, an account
whose seat `sampleEnv` cannot resolve. -/
def strangerHandler : mjHandler :=
  { viewingHandler with gameConf := { majsoulAccountIDs := [7], currentActiveMajsoulAccountID := 7 } }

/-- A successfully decoded queue element. -/
def queued (d : majsoulMessage) : queuedMessage :=
  { decoded := some d, raw := "" }

/-- The messages of `queue` handled one after the other, as the loop does
while no panic occurs: a message that fails to decode is skipped. -/
def mjHandler.handleAll (env : Env) (h : mjHandler) : List queuedMessage → Except GoPanic mjHandler
  | [] => .ok h
  | msg :: queue =>
    match msg.decoded with
    | none => h.handleAll env queue
    | some d =>
      match h.handleMessage env d msg.raw with
      | .error p => .error p
      | .ok h1 => h1.handleAll env queue

/-- The catalog has an entry for the identity `uuid`. -/
def mjHandler.inCatalog (h : mjHandler) (uuid : String) : Prop :=
  (mapGet h.majsoulRecordMap uuid).isSome = true

instance (h : mjHandler) (uuid : String) : Decidable (h.inCatalog uuid) := by
  unfold mjHandler.inCatalog; infer_instance

/-- The payload upserts the identity `uuid`: it is dispatched as a record
catalog that lists a record with this identity, or as a shared-record pointer
to such a record. -/
def upserts (d : majsoulMessage) (uuid : String) : Prop :=
  (classify d = EventKind.RecordCatalog ∧ ∃ record ∈ d.RecordBaseInfoList, record.UUID = uuid) ∨
  (classify d = EventKind.SharedRecordPointer ∧
    ∃ record, d.SharedRecordBaseInfo = some record ∧ record.UUID = uuid)

/-- A queue of two record clicks: `jumpRound` with index -1, then `nextStep`. -/
def panicQueue : List queuedMessage :=
  [queued (clickMessage "jumpRound" (-1) 0), queued (clickMessage "nextStep" 0 0)]

/-- The queue of an undecodable message, `nextStep`, `jumpRound -1` and
`nextStep`. -/
def mixedPanicQueue : List queuedMessage :=
  [{ decoded := none, raw := "?" }, queued (clickMessage "nextStep" 0 0),
   queued (clickMessage "jumpRound" (-1) 0), queued (clickMessage "nextStep" 0 0)]

/-- An `analysis` of the tenhou round data that panics on the message `bad`
and on no other. -/
def analysisPanicsOn (bad : Nat) (t : tenhouRoundData) : Option GoPanic :=
  if t.msg = some bad then some GoPanic.indexOutOfRange else none

/-- Tenhou round data before any message. -/
def freshTenhouRoundData : tenhouRoundData :=
  { msg := none, originJSON := "", analysisCalls := [] }

/-- Two decoded tenhou messages, 13 and then 14. -/
def tenhouQueue : List tenhouQueuedMessage :=
  [{ decoded := some 13, raw := "first" }, { decoded := some 14, raw := "second" }]

/-! ## Auxiliary lemmas -/

theorem goIndex_ok {α : Type} (l : List α) (n : Nat) (a : α) (h : l[n]? = some a) :
    goIndex l (n : Int) = .ok a := by
  simp [goIndex, h]

theorem goIndex_ok_int {α : Type} (l : List α) (i : Int) (n : Nat) (a : α) (hi : i = (n : Int))
    (h : l[n]? = some a) : goIndex l i = .ok a := by
  subst hi; exact goIndex_ok l n a h

theorem goSlice_ok {α : Type} (l : List α) (lo hi : Nat) (h1 : lo ≤ hi) (h2 : hi ≤ l.length) :
    goSlice l (lo : Int) (hi : Int) = .ok ((l.take hi).drop lo) := by
  have : (0 : Int) ≤ lo ∧ (lo : Int) ≤ hi ∧ (hi : Int) ≤ l.length := by omega
  simp [goSlice, this]

/-- The round data after a run of applications. -/
theorem loadActions_eq (actions : List majsoulRecordAction) :
    ∀ h : mjHandler, h.loadActions actions =
      { h with majsoulRoundData := (actions.foldl
          (fun d a => majsoulRoundData.analysis { d with msg := some a.Action, originJSON := "" })
          h.majsoulRoundData) } := by
  induction actions with
  | nil => intro h; rfl
  | cons a as ih =>
    intro h
    simp only [mjHandler.loadActions, List.foldl_cons] at ih ⊢
    rw [ih]
    rfl

theorem foldl_analysis_frame (actions : List majsoulRecordAction) :
    ∀ d : majsoulRoundData,
      let d' := actions.foldl
        (fun d a => majsoulRoundData.analysis { d with msg := some a.Action, originJSON := "" }) d
      d'.selfSeat = d.selfSeat ∧ d'.gameMode = d.gameMode ∧ d'.skipOutput = d.skipOutput ∧
      d'.newGameCalls = d.newGameCalls ∧
      d'.analysisCalls = d.analysisCalls ++ actions.map (appliedWith d.skipOutput) := by
  induction actions with
  | nil => intro d; simp
  | cons a as ih =>
    intro d
    have := ih (majsoulRoundData.analysis { d with msg := some a.Action, originJSON := "" })
    simp only [List.foldl_cons, List.map_cons]
    simp only [majsoulRoundData.analysis] at this ⊢
    obtain ⟨h1, h2, h3, h4, h5⟩ := this
    refine ⟨h1, h2, h3, h4, ?_⟩
    rw [h5]
    simp [appliedWith]

theorem loadActions_calls (h : mjHandler) (actions : List majsoulRecordAction) :
    (h.loadActions actions).majsoulRoundData.analysisCalls =
      h.majsoulRoundData.analysisCalls ++ actions.map (appliedWith h.majsoulRoundData.skipOutput) := by
  rw [loadActions_eq]
  exact (foldl_analysis_frame actions h.majsoulRoundData).2.2.2.2

theorem loadActions_skipOutput (h : mjHandler) (actions : List majsoulRecordAction) :
    (h.loadActions actions).majsoulRoundData.skipOutput = h.majsoulRoundData.skipOutput := by
  rw [loadActions_eq]
  exact (foldl_analysis_frame actions h.majsoulRoundData).2.2.1

theorem cursorValid_elim (h : mjHandler) (hv : h.CursorValid) :
    ∃ (r a : Nat) (round : majsoulRoundActions) (action : majsoulRecordAction),
      h.majsoulCurrentRoundIndex = (r : Int) ∧ h.majsoulCurrentActionIndex = (a : Int) ∧
      h.actionsList[r]? = some round ∧ round[a]? = some action := by
  obtain ⟨_, _, h0, h1, h2, h3⟩ := hv
  have hr : h.majsoulCurrentRoundIndex.toNat < h.actionsList.length := by omega
  refine ⟨h.majsoulCurrentRoundIndex.toNat, h.majsoulCurrentActionIndex.toNat,
    h.actionsList[h.majsoulCurrentRoundIndex.toNat], ?_⟩
  have hround : h.actionsList.getD h.majsoulCurrentRoundIndex.toNat [] =
      h.actionsList[h.majsoulCurrentRoundIndex.toNat] := by
    simp [List.getD, List.getElem?_eq_getElem hr]
  rw [hround] at h3
  have ha : h.majsoulCurrentActionIndex.toNat <
      (h.actionsList[h.majsoulCurrentRoundIndex.toNat]).length := by omega
  refine ⟨(h.actionsList[h.majsoulCurrentRoundIndex.toNat])[h.majsoulCurrentActionIndex.toNat], ?_, ?_,
    ?_, ?_⟩
  · omega
  · omega
  · exact List.getElem?_eq_getElem hr
  · exact List.getElem?_eq_getElem ha

theorem cursorValid_intro (h : mjHandler) (r a : Nat) (round : majsoulRoundActions)
    (hne : ∀ round ∈ h.actionsList, 0 < round.length)
    (hr : h.majsoulCurrentRoundIndex = (r : Int)) (ha : h.majsoulCurrentActionIndex = (a : Int))
    (hround : h.actionsList[r]? = some round) (hlt : a < round.length) : h.CursorValid := by
  have hr' : r < h.actionsList.length := by
    rcases Nat.lt_or_ge r h.actionsList.length with hlt' | hge
    · exact hlt'
    · rw [List.getElem?_eq_none hge] at hround; cases hround
  refine ⟨by omega, hne, by omega, by omega, by omega, ?_⟩
  rw [hr, ha]
  simp [List.getD, hround, hlt]

theorem clickLand_plain (h : mjHandler) (cache : Option gameAnalysisCache) (r a : Nat)
    (round : majsoulRoundActions) (action : majsoulRecordAction)
    (hr : h.majsoulCurrentRoundIndex = (r : Int)) (ha : h.majsoulCurrentActionIndex = (a : Int))
    (hround : h.actionsList[r]? = some round) (hact : round[a]? = some action)
    (hname : isRoundEndName action.Name = false) :
    h.clickLand cache = .ok (h._analysisMajsoulRoundData action.Action "") := by
  simp [mjHandler.clickLand, mjHandler.clickApply, mjHandler.clickAdvance, hr, ha,
    goIndex_ok _ _ _ hround, goIndex_ok _ _ _ hact, hname, bind, Except.bind, pure, Except.pure]

theorem clickLand_wrap (h : mjHandler) (cache : Option gameAnalysisCache) (r a : Nat)
    (round : majsoulRoundActions) (action : majsoulRecordAction)
    (hr : h.majsoulCurrentRoundIndex = (r : Int)) (ha : h.majsoulCurrentActionIndex = (a : Int))
    (hround : h.actionsList[r]? = some round) (hact : round[a]? = some action)
    (hname : isRoundEndName action.Name = true) (hlast : r + 1 = h.actionsList.length) :
    h.clickLand cache =
      .ok { h._analysisMajsoulRoundData action.Action "" with
              majsoulCurrentRoundIndex := 0, majsoulCurrentActionIndex := 0 } := by
  have hl : ((h._analysisMajsoulRoundData action.Action "").actionsList.length : Int) = (r : Int) + 1 := by
    simp [mjHandler._analysisMajsoulRoundData, mjHandler.actionsList] at hlast ⊢
    omega
  simp [mjHandler.clickLand, mjHandler.clickApply, mjHandler.clickAdvance, hr, ha,
    goIndex_ok _ _ _ hround, goIndex_ok _ _ _ hact, hname, bind, Except.bind, pure, Except.pure]
  simp [mjHandler._analysisMajsoulRoundData, mjHandler.actionsList, hr] at hl ⊢
  intro hcontra
  omega

theorem clickLand_next (h : mjHandler) (cache : Option gameAnalysisCache) (r a : Nat)
    (round : majsoulRoundActions) (action first : majsoulRecordAction) (rest : majsoulRoundActions)
    (hr : h.majsoulCurrentRoundIndex = (r : Int)) (ha : h.majsoulCurrentActionIndex = (a : Int))
    (hround : h.actionsList[r]? = some round) (hact : round[a]? = some action)
    (hname : isRoundEndName action.Name = true)
    (hnext : h.actionsList[r + 1]? = some (first :: rest)) :
    h.clickLand cache =
      .ok (mjHandler._analysisMajsoulRoundData
        (mjHandler.goRunTask
          { h._analysisMajsoulRoundData action.Action "" with
              majsoulCurrentRoundIndex := (r : Int) + 1, majsoulCurrentActionIndex := 0 }
          cache (first :: rest))
        first.Action "") := by
  have hlen : r + 1 < h.actionsList.length := by
    rcases Nat.lt_or_ge (r + 1) h.actionsList.length with hlt' | hge
    · exact hlt'
    · rw [List.getElem?_eq_none hge] at hnext; cases hnext
  have hi : goIndex h.actionsList ((r : Int) + 1) = .ok (first :: rest) := by
    have := goIndex_ok _ _ _ hnext
    simpa using this
  have h0 : goIndex (first :: rest) 0 = .ok first := by simp [goIndex]
  have hne : ¬ ((r : Int) + 1 = (h.actionsList.length : Int)) := by omega
  simp [mjHandler.clickLand, mjHandler.clickApply, mjHandler.clickAdvance, hr, ha,
    goIndex_ok _ _ _ hround, goIndex_ok _ _ _ hact, hname, bind, Except.bind, pure, Except.pure]
  simp [mjHandler._analysisMajsoulRoundData, mjHandler.actionsList, mjHandler.goRunTask] at hi hne ⊢
  simp [hr, hi, hne, h0]

theorem onRecordClick_of_switch_none (h : mjHandler) (c : String) (i e : Int)
    (hs : h.clickSwitch (getCurrentAnalysisCache h.analysisCache) c i e = .ok none) :
    h._onRecordClick c i e = .ok h := by
  simp [mjHandler._onRecordClick, hs, bind, Except.bind, pure, Except.pure]

theorem onRecordClick_of_switch_some (h h1 : mjHandler) (c : String) (i e : Int)
    (hs : h.clickSwitch (getCurrentAnalysisCache h.analysisCache) c i e = .ok (some h1)) :
    h._onRecordClick c i e = h1.clickLand (getCurrentAnalysisCache h.analysisCache) := by
  simp [mjHandler._onRecordClick, hs, bind, Except.bind]

theorem clickSwitch_step (h : mjHandler) (cache : Option gameAnalysisCache) (c : String) (i e : Int)
    (r : Nat) (round : majsoulRoundActions) (hc : c = "nextStep" ∨ c = "update")
    (hr : h.majsoulCurrentRoundIndex = (r : Int)) (hround : h.actionsList[r]? = some round) :
    h.clickSwitch cache c i e =
      .ok (if h.majsoulCurrentActionIndex + 1 ≥ (round.length : Int) then none
           else some { h with majsoulCurrentActionIndex := h.majsoulCurrentActionIndex + 1 }) := by
  simp only [mjHandler.clickSwitch, if_pos hc, hr, goIndex_ok _ _ _ hround, bind, Except.bind]
  split_ifs <;> rfl

theorem clickSwitch_nextRound (h : mjHandler) (cache : Option gameAnalysisCache) (i e : Int)
    (k : Nat) (round : majsoulRoundActions) (hR : h.actionsList.length ≠ 0)
    (hk : Int.tmod (h.majsoulCurrentRoundIndex + 1) h.actionsList.length = (k : Int))
    (hround : h.actionsList[k]? = some round) :
    h.clickSwitch cache "nextRound" i e =
      .ok (some (mjHandler.goRunTask
        { h with majsoulCurrentRoundIndex := (k : Int), majsoulCurrentActionIndex := 0 } cache round)) := by
  have hidx : goIndex (mjHandler.actionsList
      { h with majsoulCurrentRoundIndex := (k : Int), majsoulCurrentActionIndex := 0 }) (k : Int) =
      .ok round := goIndex_ok _ _ _ hround
  simp [mjHandler.clickSwitch, goRem, hR, hk, hidx, bind, Except.bind, pure, Except.pure]

theorem clickSwitch_preRound (h : mjHandler) (cache : Option gameAnalysisCache) (i e : Int)
    (k : Nat) (round : majsoulRoundActions) (hR : h.actionsList.length ≠ 0)
    (hk : Int.tmod (h.majsoulCurrentRoundIndex - 1 + h.actionsList.length) h.actionsList.length = (k : Int))
    (hround : h.actionsList[k]? = some round) :
    h.clickSwitch cache "preRound" i e =
      .ok (some (mjHandler.goRunTask
        { h with majsoulCurrentRoundIndex := (k : Int), majsoulCurrentActionIndex := 0 } cache round)) := by
  have hidx : goIndex (mjHandler.actionsList
      { h with majsoulCurrentRoundIndex := (k : Int), majsoulCurrentActionIndex := 0 }) (k : Int) =
      .ok round := goIndex_ok _ _ _ hround
  simp [mjHandler.clickSwitch, goRem, hR, hk, hidx, bind, Except.bind, pure, Except.pure]

theorem clickSwitch_jumpRound (h : mjHandler) (cache : Option gameAnalysisCache) (i e : Int)
    (k : Nat) (round : majsoulRoundActions) (hR : h.actionsList.length ≠ 0)
    (hk : Int.tmod i h.actionsList.length = (k : Int))
    (hround : h.actionsList[k]? = some round) :
    h.clickSwitch cache "jumpRound" i e =
      .ok (some (mjHandler.goRunTask
        { h with majsoulCurrentRoundIndex := (k : Int), majsoulCurrentActionIndex := 0 } cache round)) := by
  have hidx : goIndex (mjHandler.actionsList
      { h with majsoulCurrentRoundIndex := (k : Int), majsoulCurrentActionIndex := 0 }) (k : Int) =
      .ok round := goIndex_ok _ _ _ hround
  simp [mjHandler.clickSwitch, goRem, hR, hk, hidx, bind, Except.bind, pure, Except.pure]

theorem clickSwitch_bulk (h : mjHandler) (cache : Option gameAnalysisCache) (c : String) (i e : Int)
    (r lo hi : Nat) (round : majsoulRoundActions)
    (hc : c = "nextXun" ∨ c = "preXun" ∨ c = "jumpXun" ∨ c = "preStep")
    (hr : h.majsoulCurrentRoundIndex = (r : Int)) (hround : h.actionsList[r]? = some round)
    (hlo : (if c = "nextXun" then h.majsoulCurrentActionIndex + 1 else 0) = (lo : Int))
    (hhi : goAdd e 1 = (hi : Int)) (h1 : lo ≤ hi) (h2 : hi ≤ round.length) :
    h.clickSwitch cache c i e =
      .ok (some { mjHandler.setSkipOutput
                    (mjHandler.loadActions (h.setSkipOutput true) ((round.take hi).drop lo)) false with
                  majsoulCurrentActionIndex := (hi : Int) }) := by
  have hidx : goIndex (h.setSkipOutput true).actionsList (r : Int) = .ok round := goIndex_ok _ _ _ hround
  have hsl := goSlice_ok round lo hi h1 h2
  have hlo2 : (if c = "nextXun" then (h.setSkipOutput true).majsoulCurrentActionIndex + 1 else 0)
      = (lo : Int) := hlo
  have hr2 : (h.setSkipOutput true).majsoulCurrentRoundIndex = (r : Int) := hr
  rcases hc with hc | hc | hc | hc <;> subst hc <;>
    simp [mjHandler.clickSwitch, hidx, hsl, hhi, hr2, bind, Except.bind, pure, Except.pure] <;>
    simp at hlo2 <;> simp [hlo2, hsl]

theorem clickSwitch_bulk_lastRound (h : mjHandler) (cache : Option gameAnalysisCache) (i e : Int)
    (k hi : Nat) (round : majsoulRoundActions) (hR : h.actionsList.length ≠ 0)
    (hk : Int.tmod (h.majsoulCurrentRoundIndex - 1 + h.actionsList.length) h.actionsList.length = (k : Int))
    (hround : h.actionsList[k]? = some round)
    (hhi : goAdd e 1 = (hi : Int)) (h2 : hi ≤ round.length) :
    h.clickSwitch cache "jumpToLastRoundXun" i e =
      .ok (some { mjHandler.setSkipOutput
                    (mjHandler.loadActions
                      (mjHandler.setSkipOutput
                        (mjHandler.goRunTask { h with majsoulCurrentRoundIndex := (k : Int) } cache round)
                        true)
                      (round.take hi)) false with
                  majsoulCurrentActionIndex := (hi : Int) }) := by
  have hidx : goIndex (mjHandler.actionsList { h with majsoulCurrentRoundIndex := (k : Int) }) (k : Int) =
      .ok round := goIndex_ok _ _ _ hround
  have hidx2 : goIndex (mjHandler.actionsList (mjHandler.setSkipOutput
      (mjHandler.goRunTask { h with majsoulCurrentRoundIndex := (k : Int) } cache round) true)) (k : Int) =
      .ok round := goIndex_ok _ _ _ hround
  have hsl := goSlice_ok round 0 hi (Nat.zero_le _) h2
  simp at hsl
  simp [mjHandler.clickSwitch, goRem, hR, hk, hidx, bind, Except.bind, pure, Except.pure]
  simp [mjHandler.setSkipOutput, mjHandler.goRunTask, mjHandler.actionsList] at hidx2 ⊢
  simp [hidx2, hhi, hsl]

theorem loadActions_store (h : mjHandler) (actions : List majsoulRecordAction) :
    (h.loadActions actions).majsoulCurrentRecordActionsList = h.majsoulCurrentRecordActionsList := by
  rw [loadActions_eq]

theorem loadActions_actionsList (h : mjHandler) (actions : List majsoulRecordAction) :
    (h.loadActions actions).actionsList = h.actionsList := by
  rw [loadActions_eq]; rfl

theorem loadActions_roundIndex (h : mjHandler) (actions : List majsoulRecordAction) :
    (h.loadActions actions).majsoulCurrentRoundIndex = h.majsoulCurrentRoundIndex := by
  rw [loadActions_eq]

theorem loadActions_actionIndex (h : mjHandler) (actions : List majsoulRecordAction) :
    (h.loadActions actions).majsoulCurrentActionIndex = h.majsoulCurrentActionIndex := by
  rw [loadActions_eq]

theorem loadActions_startedTasks (h : mjHandler) (actions : List majsoulRecordAction) :
    (h.loadActions actions).startedTasks = h.startedTasks := by
  rw [loadActions_eq]

theorem loadActions_analysisCache (h : mjHandler) (actions : List majsoulRecordAction) :
    (h.loadActions actions).analysisCache = h.analysisCache := by
  rw [loadActions_eq]


theorem clickLand_summary (h : mjHandler) (cache : Option gameAnalysisCache) (hv : h.CursorValid) :
    ∃ (h' : mjHandler) (tail : List analysisCall),
      h.clickLand cache = .ok h' ∧ h'.CursorValid ∧
      h'.majsoulCurrentRecordActionsList = h.majsoulCurrentRecordActionsList ∧
      h'.majsoulRoundData.analysisCalls = h.majsoulRoundData.analysisCalls ++ tail ∧
      (tail.length = 1 ∨ tail.length = 2) ∧
      (∀ c ∈ tail, c.skipOutput = h.majsoulRoundData.skipOutput) := by
  obtain ⟨r, a, round, action, hr, ha, hround, hact⟩ := cursorValid_elim h hv
  have hne := hv.2.1
  have hpos := hv.1
  cases hname : isRoundEndName action.Name with
  | false =>
    refine ⟨_, [appliedWith h.majsoulRoundData.skipOutput action],
      clickLand_plain h cache r a round action hr ha hround hact hname, ?_, rfl, ?_, Or.inl rfl, ?_⟩
    · exact hv
    · simp [mjHandler._analysisMajsoulRoundData, majsoulRoundData.analysis, appliedWith]
    · simp [appliedWith]
  | true =>
    have hrlt : r < h.actionsList.length := by
      rcases Nat.lt_or_ge r h.actionsList.length with hlt' | hge
      · exact hlt'
      · rw [List.getElem?_eq_none hge] at hround; cases hround
    by_cases hlast : r + 1 = h.actionsList.length
    · refine ⟨_, [appliedWith h.majsoulRoundData.skipOutput action],
        clickLand_wrap h cache r a round action hr ha hround hact hname hlast, ?_, rfl, ?_,
        Or.inl rfl, ?_⟩
      · have h0 : (0 : Nat) < h.actionsList.length := hpos
        refine cursorValid_intro _ 0 0 (h.actionsList[0]) hne rfl rfl
          (List.getElem?_eq_getElem h0) (hne _ (List.getElem_mem h0))
      · simp [mjHandler._analysisMajsoulRoundData, majsoulRoundData.analysis, appliedWith]
      · simp [appliedWith]
    · have hlt : r + 1 < h.actionsList.length := by omega
      have hnext : h.actionsList[r + 1]? = some (h.actionsList[r + 1]) := List.getElem?_eq_getElem hlt
      have hnpos := hne _ (List.getElem_mem hlt)
      cases hnr : h.actionsList[r + 1] with
      | nil => rw [hnr] at hnpos; simp at hnpos
      | cons first rest =>
        rw [hnr] at hnext
        refine ⟨_, [appliedWith h.majsoulRoundData.skipOutput action,
            appliedWith h.majsoulRoundData.skipOutput first],
          clickLand_next h cache r a round action first rest hr ha hround hact hname hnext, ?_, rfl, ?_,
          Or.inr rfl, ?_⟩
        · exact cursorValid_intro _ (r + 1) 0 (first :: rest) hne (by rw [Nat.cast_succ]; rfl) rfl hnext (by simp)
        · simp [mjHandler._analysisMajsoulRoundData, majsoulRoundData.analysis, appliedWith,
            mjHandler.goRunTask]
        · simp [appliedWith]

theorem tmod_pred_wrap (r R : Nat) (hr : r < R) :
    ∃ k : Nat, Int.tmod ((r : Int) - 1 + (R : Int)) (R : Int) = (k : Int) ∧ k < R ∧
      k = (r + R - 1) % R := by
  refine ⟨(r + R - 1) % R, ?_, Nat.mod_lt _ (by omega), rfl⟩
  have h1 : (r : Int) - 1 + (R : Int) = ((r + R - 1 : Nat) : Int) := by omega
  rw [h1, ← Int.ofNat_tmod]

theorem bulk_switch_summary (h : mjHandler) (cache : Option gameAnalysisCache) (c : String)
    (i e : Int) (hv : h.CursorValid) (hc : isBulkCommand c)
    (hlo : h.bulkStart c ≤ goAdd e 1) (hhi : goAdd e 1 < ((h.bulkRound c).length : Int)) :
    ∃ hb : mjHandler, h.clickSwitch cache c i e = .ok (some hb) ∧ hb.CursorValid ∧
      hb.majsoulCurrentRecordActionsList = h.majsoulCurrentRecordActionsList ∧
      hb.majsoulCurrentRoundIndex = h.bulkRoundIndex c ∧
      hb.majsoulCurrentActionIndex = goAdd e 1 ∧
      hb.majsoulRoundData.skipOutput = false ∧
      hb.majsoulRoundData.analysisCalls = h.majsoulRoundData.analysisCalls ++
        ((((h.bulkRound c).take (goAdd e 1).toNat).drop (h.bulkStart c).toNat).map
          (appliedWith true)) := by
  obtain ⟨r, a, round, action, hr, ha, hround, hact⟩ := cursorValid_elim h hv
  have hne := hv.2.1
  have hrlt : r < h.actionsList.length := by
    rcases Nat.lt_or_ge r h.actionsList.length with hlt' | hge
    · exact hlt'
    · rw [List.getElem?_eq_none hge] at hround; cases hround
  by_cases hlast : c = "jumpToLastRoundXun"
  · subst hlast
    obtain ⟨k, hk, hklt, -⟩ := tmod_pred_wrap r h.actionsList.length hrlt
    rw [← hr] at hk
    have hkround : h.actionsList[k]? = some (h.actionsList[k]) := List.getElem?_eq_getElem hklt
    have hbr : h.bulkRound "jumpToLastRoundXun" = h.actionsList[k] := by
      simp [mjHandler.bulkRound, mjHandler.bulkRoundIndex, hk, List.getD, hkround]
    have hbs : h.bulkStart "jumpToLastRoundXun" = 0 := by simp [mjHandler.bulkStart]
    rw [hbr] at hhi ⊢
    rw [hbs] at hlo ⊢
    have hhi' : goAdd e 1 = (((goAdd e 1).toNat : Nat) : Int) := by omega
    refine ⟨_, clickSwitch_bulk_lastRound h cache i e k (goAdd e 1).toNat _ (by omega) hk hkround
      hhi' (by omega), ?_, ?_, ?_, ?_, ?_, ?_⟩
    · refine cursorValid_intro _ k (goAdd e 1).toNat (h.actionsList[k]) ?_ ?_ rfl ?_ (by omega)
      · simpa [mjHandler.actionsList, mjHandler.setSkipOutput, loadActions_store] using hne
      · simp [mjHandler.setSkipOutput, loadActions_roundIndex, mjHandler.goRunTask]
      · have hk2 : k < (h.majsoulCurrentRecordActionsList.getD []).length := hklt
        simp [mjHandler.actionsList, mjHandler.setSkipOutput, loadActions_store, mjHandler.goRunTask,
          hk2]
    · simp [mjHandler.setSkipOutput, loadActions_store, mjHandler.goRunTask]
    · simp [mjHandler.bulkRoundIndex, hk, mjHandler.setSkipOutput, loadActions_roundIndex,
        mjHandler.goRunTask]
    · exact hhi'.symm
    · rfl
    · show (mjHandler.loadActions _ _).majsoulRoundData.analysisCalls = _
      rw [loadActions_calls]
      simp [mjHandler.setSkipOutput, mjHandler.goRunTask]
  · have hc4 : c = "nextXun" ∨ c = "preXun" ∨ c = "jumpXun" ∨ c = "preStep" := by
      rcases hc with h1 | h1 | h1 | h1 | h1
      · exact Or.inl h1
      · exact Or.inr (Or.inl h1)
      · exact Or.inr (Or.inr (Or.inl h1))
      · exact Or.inr (Or.inr (Or.inr h1))
      · exact absurd h1 hlast
    have hbr : h.bulkRound c = round := by
      simp [mjHandler.bulkRound, mjHandler.bulkRoundIndex, hlast, hr, List.getD, hround]
    rw [hbr] at hhi ⊢
    have hs0 : 0 ≤ h.bulkStart c := by
      unfold mjHandler.bulkStart; split_ifs <;> omega
    have hlo' : (if c = "nextXun" then h.majsoulCurrentActionIndex + 1 else 0) =
        (((h.bulkStart c).toNat : Nat) : Int) := by
      have : (((h.bulkStart c).toNat : Nat) : Int) = h.bulkStart c := by omega
      rw [this]; rfl
    have hhi' : goAdd e 1 = (((goAdd e 1).toNat : Nat) : Int) := by omega
    refine ⟨_, clickSwitch_bulk h cache c i e r (h.bulkStart c).toNat (goAdd e 1).toNat round hc4 hr
      hround hlo' hhi' (by omega) (by omega), ?_, ?_, ?_, ?_, ?_, ?_⟩
    · refine cursorValid_intro _ r (goAdd e 1).toNat round ?_ ?_ rfl ?_ (by omega)
      · simpa [mjHandler.actionsList, mjHandler.setSkipOutput, loadActions_store] using hne
      · simpa [mjHandler.setSkipOutput, loadActions_roundIndex] using hr
      · simpa [mjHandler.actionsList, mjHandler.setSkipOutput, loadActions_store] using hround
    · simp [mjHandler.setSkipOutput, loadActions_store]
    · simp [mjHandler.bulkRoundIndex, hlast, mjHandler.setSkipOutput, loadActions_roundIndex]
    · exact hhi'.symm
    · rfl
    · show (mjHandler.loadActions _ _).majsoulRoundData.analysisCalls = _
      rw [loadActions_calls]
      simp [mjHandler.setSkipOutput]

theorem length_pos_iff_not_isEmpty {α : Type} (l : List α) :
    (l.length > 0) ↔ (!l.isEmpty) = true := by
  cases l <;> simp

theorem classify_eq_firstMatchingKind (d : majsoulMessage) : classify d = firstMatchingKind d := by
  have q : ∀ s : String, (s ≠ "") ↔ (s != "") = true := by simp
  unfold classify firstMatchingKind precedenceRules
  simp only [length_pos_iff_not_isEmpty, q, List.find?]
  generalize (!d.Friends.isEmpty) = b1
  generalize (!d.RecordBaseInfoList.isEmpty) = b2
  generalize d.SharedRecordBaseInfo.isSome = b3
  generalize (d.CurrentRecordUUID != "") = b4
  generalize (!d.RecordActions.isEmpty) = b5
  generalize (d.RecordClickAction != "") = b6
  generalize d.LiveBaseInfo.isSome = b7
  generalize d.LiveFastAction.isSome = b8
  generalize d.LiveAction.isSome = b9
  generalize d.ChangeSeatTo.isSome = b10
  generalize (!d.SyncGameActions.isEmpty) = b11
  cases b1
  swap
  · rfl
  cases b2
  swap
  · rfl
  cases b3
  swap
  · rfl
  cases b4
  swap
  · rfl
  cases b5
  swap
  · rfl
  cases b6
  swap
  · rfl
  cases b7
  swap
  · rfl
  cases b8
  swap
  · rfl
  cases b9
  swap
  · rfl
  cases b10
  swap
  · rfl
  cases b11 <;> rfl

theorem mapGet_mapSet (m : List (String × majsoulRecordBaseInfo)) (k k' : String)
    (v : majsoulRecordBaseInfo) :
    mapGet (mapSet m k v) k' = if k' = k then some v else mapGet m k' := by
  unfold mapGet mapSet
  by_cases hk : k' = k
  · simp [hk, List.lookup]
  · have hne : (k' == k) = false := by simpa using hk
    simp only [List.lookup, hne, hk, if_false]
    induction m with
    | nil => rfl
    | cons e m ih =>
      obtain ⟨a, b⟩ := e
      by_cases ha : a = k
      · subst ha
        simp [List.filter, List.lookup, hne, ih]
      · have : (a != k) = true := by simpa using ha
        simp only [List.filter, this, List.lookup]
        cases (k' == a) <;> simp [ih]

theorem mapGet_foldl_mapSet (rs : List majsoulRecordBaseInfo) :
    ∀ (m : List (String × majsoulRecordBaseInfo)) (k : String),
      mapGet (rs.foldl (fun m record => mapSet m record.UUID record) m) k =
        match rs.reverse.find? (fun r => r.UUID == k) with
        | some r => some r
        | none => mapGet m k := by
  induction rs with
  | nil => intro m k; rfl
  | cons r rs ih =>
    intro m k
    simp only [List.foldl_cons, ih, List.reverse_cons, List.find?_append]
    cases hf : List.find? (fun r => r.UUID == k) rs.reverse with
    | some r' => simp
    | none =>
      simp only [Option.none_or, List.find?_cons, List.find?_nil, mapGet_mapSet]
      by_cases hk : k = r.UUID
      · simp [hk]
      · have : (r.UUID == k) = false := by simpa using (fun h => hk h.symm)
        simp [this, hk]

theorem skipFlags_eq (h : mjHandler) : h.skipFlags = h.majsoulRoundData.analysisCalls.map (fun c => c.skipOutput) := rfl

theorem getElem?_of_lt_actionsList (h : mjHandler) (k : Nat) (hk : k < h.actionsList.length) :
    h.actionsList[k]? = some (h.actionsList[k]) := List.getElem?_eq_getElem hk

theorem round_switch_valid (h : mjHandler) (cache : Option gameAnalysisCache) (k : Nat)
    (round : majsoulRoundActions) (hne : ∀ round ∈ h.actionsList, 0 < round.length)
    (hround : h.actionsList[k]? = some round) :
    (mjHandler.goRunTask
      { h with majsoulCurrentRoundIndex := (k : Int), majsoulCurrentActionIndex := 0 } cache
      round).CursorValid := by
  have hk : k < h.actionsList.length := by
    rcases Nat.lt_or_ge k h.actionsList.length with hlt' | hge
    · exact hlt'
    · rw [List.getElem?_eq_none hge] at hround; cases hround
  have hmem : round ∈ h.actionsList := List.getElem?_mem hround
  exact cursorValid_intro _ k 0 round hne rfl rfl hround (hne round hmem)

theorem clickSwitch_other (h : mjHandler) (cache : Option gameAnalysisCache) (c : String) (i e : Int)
    (h1 : ¬ (c = "nextStep" ∨ c = "update")) (h2 : c ≠ "nextRound") (h3 : c ≠ "preRound")
    (h4 : c ≠ "jumpRound") (h5 : ¬ isBulkCommand c) :
    h.clickSwitch cache c i e = .ok none := by
  unfold isBulkCommand at h5
  simp only [mjHandler.clickSwitch, if_neg h1, if_neg h2, if_neg h3, if_neg h4, if_neg h5]
  rfl

theorem switch_summary (h : mjHandler) (cache : Option gameAnalysisCache) (c : String) (i e : Int)
    (hv : h.CursorValid)
    (hjump : c = "jumpRound" → 0 ≤ Int.tmod i h.actionsList.length)
    (hbulk : isBulkCommand c →
      h.bulkStart c ≤ goAdd e 1 ∧ goAdd e 1 < ((h.bulkRound c).length : Int)) :
    ∃ res : Option mjHandler, h.clickSwitch cache c i e = .ok res ∧
      ∀ hb, res = some hb → hb.CursorValid ∧
        hb.majsoulCurrentRecordActionsList = h.majsoulCurrentRecordActionsList := by
  obtain ⟨r, a, round, action, hr, ha, hround, hact⟩ := cursorValid_elim h hv
  have hne := hv.2.1
  have hR : h.actionsList.length ≠ 0 := by have := hv.1; omega
  have hrlt : r < h.actionsList.length := by
    rcases Nat.lt_or_ge r h.actionsList.length with hlt' | hge
    · exact hlt'
    · rw [List.getElem?_eq_none hge] at hround; cases hround
  by_cases h1 : c = "nextStep" ∨ c = "update"
  · refine ⟨_, clickSwitch_step h cache c i e r round h1 hr hround, ?_⟩
    intro hb hres
    by_cases hge : h.majsoulCurrentActionIndex + 1 ≥ (round.length : Int)
    · rw [if_pos hge] at hres; cases hres
    · rw [if_neg hge] at hres
      cases hres
      refine ⟨cursorValid_intro _ r (a + 1) round hne hr ?_ hround ?_, rfl⟩
      · show h.majsoulCurrentActionIndex + 1 = _
        rw [ha]; rfl
      · omega
  by_cases h2 : c = "nextRound"
  · subst h2
    have hk : Int.tmod (h.majsoulCurrentRoundIndex + 1) h.actionsList.length =
        (((r + 1) % h.actionsList.length : Nat) : Int) := by
      rw [hr, Int.ofNat_tmod]; rfl
    have hklt : (r + 1) % h.actionsList.length < h.actionsList.length := Nat.mod_lt _ (by omega)
    have hkr := getElem?_of_lt_actionsList h _ hklt
    refine ⟨_, clickSwitch_nextRound h cache i e _ _ hR hk hkr, ?_⟩
    intro hb hres
    cases hres
    exact ⟨round_switch_valid h cache _ _ hne hkr, rfl⟩
  by_cases h3 : c = "preRound"
  · subst h3
    obtain ⟨k, hk, hklt, -⟩ := tmod_pred_wrap r h.actionsList.length hrlt
    rw [← hr] at hk
    have hkr := getElem?_of_lt_actionsList h _ hklt
    refine ⟨_, clickSwitch_preRound h cache i e _ _ hR hk hkr, ?_⟩
    intro hb hres
    cases hres
    exact ⟨round_switch_valid h cache _ _ hne hkr, rfl⟩
  by_cases h4 : c = "jumpRound"
  · have h0 := hjump h4
    subst h4
    have hlt : Int.tmod i h.actionsList.length < h.actionsList.length :=
      Int.tmod_lt_of_pos i (by omega)
    have hk : Int.tmod i h.actionsList.length =
        (((Int.tmod i h.actionsList.length).toNat : Nat) : Int) := by omega
    have hklt : (Int.tmod i h.actionsList.length).toNat < h.actionsList.length := by omega
    have hkr := getElem?_of_lt_actionsList h _ hklt
    refine ⟨_, clickSwitch_jumpRound h cache i e _ _ hR hk hkr, ?_⟩
    intro hb hres
    cases hres
    exact ⟨round_switch_valid h cache _ _ hne hkr, rfl⟩
  by_cases h5 : isBulkCommand c
  · obtain ⟨hlo, hhi⟩ := hbulk h5
    obtain ⟨hb, hsw, hbv, hst, -⟩ := bulk_switch_summary h cache c i e hv h5 hlo hhi
    refine ⟨_, hsw, ?_⟩
    intro hb' hres
    cases hres
    exact ⟨hbv, hst⟩
  · refine ⟨none, clickSwitch_other h cache c i e h1 h2 h3 h4 h5, ?_⟩
    intro hb hres
    cases hres
theorem isRoundEndName_iff (name : String) : isRoundEndName name = true ↔ RoundEndName name := by
  simp [isRoundEndName, RoundEndName, or_assoc]

theorem isRoundEndName_false_iff (name : String) :
    isRoundEndName name = false ↔ ¬ RoundEndName name := by
  rw [← isRoundEndName_iff]; simp

/-- A round command that lands on a plain first action stays there. -/
theorem round_land_plain (h : mjHandler) (cache : Option gameAnalysisCache) (k : Nat)
    (first : majsoulRecordAction) (rest : majsoulRoundActions)
    (hround : h.actionsList[k]? = some (first :: rest)) (hplain : ¬ RoundEndName first.Name) :
    mjHandler.clickLand (mjHandler.goRunTask
      { h with majsoulCurrentRoundIndex := (k : Int), majsoulCurrentActionIndex := 0 } cache
      (first :: rest)) cache =
    .ok (mjHandler._analysisMajsoulRoundData (mjHandler.goRunTask
      { h with majsoulCurrentRoundIndex := (k : Int), majsoulCurrentActionIndex := 0 } cache
      (first :: rest)) first.Action "") :=
  clickLand_plain _ cache k 0 (first :: rest) first rfl rfl hround (by simp)
    ((isRoundEndName_false_iff _).mpr hplain)

theorem nextRound_result (h : mjHandler) (i e : Int) (hv : h.CursorValid)
    (hplain : h.RoundsStartPlain) :
    ∃ h' : mjHandler, h._onRecordClick "nextRound" i e = .ok h' ∧ h'.CursorValid ∧
      h'.majsoulCurrentRecordActionsList = h.majsoulCurrentRecordActionsList ∧
      h'.majsoulCurrentRoundIndex =
        (((h.majsoulCurrentRoundIndex.toNat + 1) % h.actionsList.length : Nat) : Int) ∧
      h'.majsoulCurrentActionIndex = 0 := by
  obtain ⟨r, a, round, action, hr, ha, hround, hact⟩ := cursorValid_elim h hv
  have hne := hv.2.1
  have hR : h.actionsList.length ≠ 0 := by have := hv.1; omega
  have hk : Int.tmod (h.majsoulCurrentRoundIndex + 1) h.actionsList.length =
      (((r + 1) % h.actionsList.length : Nat) : Int) := by
    rw [hr, Int.ofNat_tmod]; rfl
  have hklt : (r + 1) % h.actionsList.length < h.actionsList.length := Nat.mod_lt _ (by omega)
  have hkr := getElem?_of_lt_actionsList h _ hklt
  have hpos := hne _ (List.getElem_mem hklt)
  have hrn : h.majsoulCurrentRoundIndex.toNat = r := by omega
  cases hnr : h.actionsList[(r + 1) % h.actionsList.length] with
  | nil => rw [hnr] at hpos; simp at hpos
  | cons first rest =>
    rw [hnr] at hkr
    have hfp : ¬ RoundEndName first.Name :=
      hplain _ (List.getElem?_mem hkr) first (by simp)
    have hsw := clickSwitch_nextRound h (getCurrentAnalysisCache h.analysisCache) i e _ _ hR hk hkr
    have hclick := (onRecordClick_of_switch_some h _ "nextRound" i e hsw).trans
      (round_land_plain h _ _ first rest hkr hfp)
    refine ⟨_, hclick, ?_, rfl, ?_, rfl⟩
    · exact cursorValid_intro _ ((r + 1) % h.actionsList.length) 0 (first :: rest) hne rfl rfl hkr
        (by simp)
    · rw [hrn]; rfl

theorem preRound_result (h : mjHandler) (i e : Int) (hv : h.CursorValid)
    (hplain : h.RoundsStartPlain) :
    ∃ h' : mjHandler, h._onRecordClick "preRound" i e = .ok h' ∧ h'.CursorValid ∧
      h'.majsoulCurrentRecordActionsList = h.majsoulCurrentRecordActionsList ∧
      h'.majsoulCurrentRoundIndex =
        (((h.majsoulCurrentRoundIndex.toNat + h.actionsList.length - 1) % h.actionsList.length : Nat) : Int) ∧
      h'.majsoulCurrentActionIndex = 0 := by
  obtain ⟨r, a, round, action, hr, ha, hround, hact⟩ := cursorValid_elim h hv
  have hne := hv.2.1
  have hR : h.actionsList.length ≠ 0 := by have := hv.1; omega
  have hrlt : r < h.actionsList.length := by
    rcases Nat.lt_or_ge r h.actionsList.length with hlt' | hge
    · exact hlt'
    · rw [List.getElem?_eq_none hge] at hround; cases hround
  obtain ⟨k, hk, hklt, hkeq⟩ := tmod_pred_wrap r h.actionsList.length hrlt
  rw [← hr] at hk
  have hkr := getElem?_of_lt_actionsList h _ hklt
  have hpos := hne _ (List.getElem_mem hklt)
  have hrn : h.majsoulCurrentRoundIndex.toNat = r := by omega
  cases hnr : h.actionsList[k] with
  | nil => rw [hnr] at hpos; simp at hpos
  | cons first rest =>
    rw [hnr] at hkr
    have hfp : ¬ RoundEndName first.Name :=
      hplain _ (List.getElem?_mem hkr) first (by simp)
    have hsw := clickSwitch_preRound h (getCurrentAnalysisCache h.analysisCache) i e _ _ hR hk hkr
    have hclick := (onRecordClick_of_switch_some h _ "preRound" i e hsw).trans
      (round_land_plain h _ _ first rest hkr hfp)
    refine ⟨_, hclick, ?_, rfl, ?_, rfl⟩
    · exact cursorValid_intro _ k 0 (first :: rest) hne rfl rfl hkr (by simp)
    · rw [hrn, ← hkeq]; rfl

theorem repeat_nextRound_result (n : Nat) :
    ∀ (h : mjHandler) (i e : Int), h.CursorValid → h.RoundsStartPlain →
    ∃ h' : mjHandler, h.repeatClick "nextRound" i e n = .ok h' ∧ h'.CursorValid ∧
      h'.majsoulCurrentRecordActionsList = h.majsoulCurrentRecordActionsList ∧
      h'.majsoulCurrentRoundIndex =
        (((h.majsoulCurrentRoundIndex.toNat + n) % h.actionsList.length : Nat) : Int) ∧
      (0 < n → h'.majsoulCurrentActionIndex = 0) := by
  induction n with
  | zero =>
    intro h i e hv _
    refine ⟨h, rfl, hv, rfl, ?_, fun hn => absurd hn (by omega)⟩
    have h0 := hv.2.2.1
    have h1 := hv.2.2.2.1
    have : h.majsoulCurrentRoundIndex.toNat % h.actionsList.length = h.majsoulCurrentRoundIndex.toNat :=
      Nat.mod_eq_of_lt (by omega)
    simp only [Nat.add_zero, this]
    omega
  | succ n ih =>
    intro h i e hv hplain
    obtain ⟨h1, hclick, hv1, hst1, hr1, ha1⟩ := nextRound_result h i e hv hplain
    have hal : h1.actionsList = h.actionsList := by simp [mjHandler.actionsList, hst1]
    have hplain1 : h1.RoundsStartPlain := by
      unfold mjHandler.RoundsStartPlain; rw [hal]; exact hplain
    obtain ⟨h', hrep, hv', hst', hr', ha'⟩ := ih h1 i e hv1 hplain1
    refine ⟨h', ?_, hv', hst'.trans hst1, ?_, ?_⟩
    · simp only [mjHandler.repeatClick, hclick]; exact hrep
    · rw [hr', hr1, hal]
      simp only [Int.toNat_ofNat]
      congr 1
      rw [Nat.add_mod, Nat.mod_mod, ← Nat.add_mod]
      congr 1
      omega
    · intro _
      rcases Nat.eq_zero_or_pos n with hn | hn
      · subst hn
        simp only [mjHandler.repeatClick] at hrep
        cases hrep
        exact ha1
      · exact ha' hn

theorem tmod_eq_emod_of_nonneg (i : Int) (R : Nat) (hR : 0 < R) (h0 : 0 ≤ Int.tmod i R) :
    Int.tmod i R = i % (R : Int) := by
  cases i with
  | ofNat n => exact Int.tmod_eq_emod (Int.ofNat_nonneg n) (by omega)
  | negSucc m =>
    have hdef : Int.tmod (Int.negSucc m) (R : Int) = -(((m + 1) % R : Nat) : Int) := rfl
    have h2 : (m + 1) % R = 0 := by rw [hdef] at h0; omega
    have h3 : Int.tmod (Int.negSucc m) (R : Int) = 0 := by rw [hdef, h2]; rfl
    have h4 := Int.dvd_of_tmod_eq_zero h3
    rw [h3, Int.emod_eq_zero_of_dvd h4]
theorem fastRecordEnd_eq (actions : List majsoulRecordAction) :
    fastRecordEnd actions = actions.length - 3 := by
  unfold fastRecordEnd MaxInt
  split_ifs <;> omega

theorem loadActions_nil (h : mjHandler) : h.loadActions [] = h := rfl

/-- The result of `_fastLoadActions` differs from its argument in the round
data only; there the seat, the game mode and the `newGame` count are kept and
the applications are appended. -/
theorem fastLoadActions_frame (h : mjHandler) (actions : List majsoulRecordAction) :
    ∃ rd : majsoulRoundData, h._fastLoadActions actions = { h with majsoulRoundData := rd } ∧
      rd.selfSeat = h.majsoulRoundData.selfSeat ∧ rd.gameMode = h.majsoulRoundData.gameMode ∧
      rd.newGameCalls = h.majsoulRoundData.newGameCalls ∧
      rd.analysisCalls = h.majsoulRoundData.analysisCalls ++
        (actions.take (fastRecordEnd actions)).map (appliedWith true) ++
        (actions.drop (fastRecordEnd actions)).map (appliedWith false) ∧
      (actions ≠ [] → rd.skipOutput = false) ∧
      (actions = [] → rd = h.majsoulRoundData) := by
  by_cases hnil : actions = []
  · subst hnil
    exact ⟨h.majsoulRoundData, rfl, rfl, rfl, rfl, by simp, fun hne => absurd rfl hne, fun _ => rfl⟩
  · have hlen : ¬ (actions.length = 0) := fun hl => hnil (List.length_eq_zero.mp hl)
    have hrun : h._fastLoadActions actions =
        mjHandler.loadActions
          (mjHandler.setSkipOutput
            (mjHandler.loadActions (h.setSkipOutput true) (actions.take (fastRecordEnd actions)))
            false)
          (actions.drop (fastRecordEnd actions)) := by
      simp only [mjHandler._fastLoadActions, if_neg hlen, fastRecordEnd]
    rw [hrun, loadActions_eq, loadActions_eq]
    have f1 := foldl_analysis_frame (actions.take (fastRecordEnd actions))
      (h.setSkipOutput true).majsoulRoundData
    obtain ⟨a1, a2, a3, a4, a5⟩ := f1
    refine ⟨_, rfl, ?_⟩
    have f2 := foldl_analysis_frame (actions.drop (fastRecordEnd actions))
      (mjHandler.setSkipOutput
        { h.setSkipOutput true with majsoulRoundData :=
            (List.foldl
              (fun d a => majsoulRoundData.analysis { d with msg := some a.Action, originJSON := "" })
              (h.setSkipOutput true).majsoulRoundData (actions.take (fastRecordEnd actions))) }
        false).majsoulRoundData
    obtain ⟨b1, b2, b3, b4, b5⟩ := f2
    refine ⟨?_, ?_, ?_, ?_, ?_, fun hh => absurd hh hnil⟩
    · exact b1.trans a1
    · exact b2.trans a2
    · exact b4.trans a4
    · refine b5.trans ?_
      simp only [mjHandler.setSkipOutput] at a5 ⊢
      rw [a5]
    · intro _
      exact b3

theorem fastLoadActions_calls (h : mjHandler) (actions : List majsoulRecordAction) :
    (h._fastLoadActions actions).majsoulRoundData.analysisCalls =
      h.majsoulRoundData.analysisCalls ++
        (actions.take (fastRecordEnd actions)).map (appliedWith true) ++
        (actions.drop (fastRecordEnd actions)).map (appliedWith false) := by
  obtain ⟨rd, hrd, -, -, -, hc, -⟩ := fastLoadActions_frame h actions
  rw [hrd]; exact hc

theorem appliedPayloads_eq (h : mjHandler) :
    h.appliedPayloads = h.majsoulRoundData.analysisCalls.map (fun c => c.msg) := rfl

theorem fastLoadActions_payloads (h : mjHandler) (actions : List majsoulRecordAction) :
    (h._fastLoadActions actions).appliedPayloads =
      h.appliedPayloads ++ actions.map (fun a => a.Action) := by
  rw [appliedPayloads_eq, appliedPayloads_eq, fastLoadActions_calls]
  simp only [List.map_append, List.map_map]
  rw [List.append_assoc]
  congr 1
  have : ((fun c => c.msg) ∘ appliedWith true) = (fun a : majsoulRecordAction => a.Action) := rfl
  have h2 : ((fun c => c.msg) ∘ appliedWith false) = (fun a : majsoulRecordAction => a.Action) := rfl
  rw [this, h2, ← List.map_append, List.take_append_drop]
/-- The first record-action batch loads the store (shared form of the
statement on lines 196-249). -/
theorem record_batch_loads (env : Env) (h : mjHandler) (d : majsoulMessage) (originJSON : String)
    (baseInfo : majsoulRecordBaseInfo) (selfSeat : Int) (first : majsoulRecordAction)
    (rest : majsoulRoundActions) (rounds : List majsoulRoundActions)
    (hkind : classify d = EventKind.RecordActionBatch)
    (hstore : h.majsoulCurrentRecordActionsList = none)
    (huuid : h.majsoulCurrentRecordUUID ≠ "")
    (hmap : mapGet h.majsoulRecordMap h.majsoulCurrentRecordUUID = some baseInfo)
    (hacc : h.gameConf.currentActiveMajsoulAccountID ≠ -1)
    (hseat : env.getSelfSeat baseInfo h.gameConf.currentActiveMajsoulAccountID = .ok selfSeat)
    (hparse : env.parseMajsoulRecordAction d.RecordActions = .ok ((first :: rest) :: rounds)) :
    ∃ h', h.handleMessage env d originJSON = .ok h' ∧
      h'.majsoulCurrentRecordActionsList = some ((first :: rest) :: rounds) ∧
      h'.majsoulCurrentRoundIndex = 0 ∧ h'.majsoulCurrentActionIndex = 0 ∧
      h'.majsoulRoundData.analysisCalls = h.majsoulRoundData.analysisCalls ++
        [{ msg := first.Action, originJSON := originJSON,
           skipOutput := h.majsoulRoundData.skipOutput }] := by
  have hidx : goIndex ((first :: rest) :: rounds) 0 = .ok (first :: rest) := by simp [goIndex]
  have hidx0 : goIndex (first :: rest) 0 = .ok first := by simp [goIndex]
  simp only [mjHandler.handleMessage, hkind, mjHandler.onRecordActions, hstore, huuid, hmap, hacc,
    hseat, hparse, mjHandler.actionsList, Option.getD, hidx, hidx0, Option.isSome, if_false,
    bind, Except.bind, pure, Except.pure]
  refine ⟨_, rfl, ?_⟩
  simp [mjHandler._analysisMajsoulRoundData, majsoulRoundData.analysis, mjHandler.goRunTask,
    majsoulRoundData.newGame]

theorem cursorAction_eq (h : mjHandler) (r a : Nat) (round : majsoulRoundActions)
    (action : majsoulRecordAction)
    (hr : h.majsoulCurrentRoundIndex = (r : Int)) (ha : h.majsoulCurrentActionIndex = (a : Int))
    (hround : h.actionsList[r]? = some round) (hact : round[a]? = some action) :
    h.cursorAction = some action := by
  simp only [mjHandler.cursorAction, hr, ha, goIndex_ok _ _ _ hround, goIndex_ok _ _ _ hact]

theorem lastApplied_analysis (h : mjHandler) (m : majsoulMessage) (o : String) :
    (h._analysisMajsoulRoundData m o).lastApplied = some m := by
  simp [mjHandler.lastApplied, mjHandler._analysisMajsoulRoundData, majsoulRoundData.analysis]

theorem classify_beginViewing_uuid (d : majsoulMessage)
    (hk : classify d = EventKind.BeginViewingRecord) : d.CurrentRecordUUID ≠ "" := by
  unfold classify at hk
  by_cases c1 : d.Friends.length > 0
  · rw [if_pos c1] at hk; cases hk
  rw [if_neg c1] at hk
  by_cases c2 : d.RecordBaseInfoList.length > 0
  · rw [if_pos c2] at hk; cases hk
  rw [if_neg c2] at hk
  by_cases c3 : d.SharedRecordBaseInfo.isSome = true
  · rw [if_pos c3] at hk; cases hk
  rw [if_neg c3] at hk
  by_cases c4 : d.CurrentRecordUUID ≠ ""
  · exact c4
  rw [if_neg c4] at hk
  split_ifs at hk
theorem clickApply_ok (h : mjHandler) (r a : Nat) (round : majsoulRoundActions)
    (action : majsoulRecordAction)
    (hr : h.majsoulCurrentRoundIndex = (r : Int)) (ha : h.majsoulCurrentActionIndex = (a : Int))
    (hround : h.actionsList[r]? = some round) (hact : round[a]? = some action) :
    h.clickApply = .ok (h._analysisMajsoulRoundData action.Action "", action) := by
  simp only [mjHandler.clickApply, hr, ha, goIndex_ok _ _ _ hround, goIndex_ok _ _ _ hact, bind,
    Except.bind, pure, Except.pure]

theorem clickLand_of_apply (h h1 : mjHandler) (cache : Option gameAnalysisCache)
    (action : majsoulRecordAction) (happly : h.clickApply = .ok (h1, action)) :
    h.clickLand cache = h1.clickAdvance cache action := by
  simp only [mjHandler.clickLand, happly, bind, Except.bind]

/-- After the tail of `_onRecordClick` the last applied payload is the action
under the cursor, unless the cursor was wrapped to (0, 0) after a round-end
action of the last round. -/
theorem clickLand_points (h : mjHandler) (cache : Option gameAnalysisCache) (hv : h.CursorValid) :
    ∃ h' : mjHandler, h.clickLand cache = .ok h' ∧
      (h'.lastApplied = h'.cursorAction.map (fun x => x.Action) ∨
       (h'.majsoulCurrentRoundIndex = 0 ∧ h'.majsoulCurrentActionIndex = 0 ∧
        ∃ (lastRound : majsoulRoundActions) (landed : majsoulRecordAction),
          h'.actionsList.getLast? = some lastRound ∧ landed ∈ lastRound ∧
          RoundEndName landed.Name ∧ h'.lastApplied = some landed.Action)) := by
  obtain ⟨r, a, round, action, hr, ha, hround, hact⟩ := cursorValid_elim h hv
  have hne := hv.2.1
  have hcur := cursorAction_eq h r a round action hr ha hround hact
  cases hname : isRoundEndName action.Name with
  | false =>
    refine ⟨_, clickLand_plain h cache r a round action hr ha hround hact hname, Or.inl ?_⟩
    have hc2 := cursorAction_eq (h._analysisMajsoulRoundData action.Action "") r a round action hr ha
      hround hact
    rw [lastApplied_analysis, hc2]
    rfl
  | true =>
    have hrlt : r < h.actionsList.length := by
      rcases Nat.lt_or_ge r h.actionsList.length with hlt' | hge
      · exact hlt'
      · rw [List.getElem?_eq_none hge] at hround; cases hround
    by_cases hlast : r + 1 = h.actionsList.length
    · refine ⟨_, clickLand_wrap h cache r a round action hr ha hround hact hname hlast, Or.inr ?_⟩
      refine ⟨rfl, rfl, round, action, ?_, List.getElem?_mem hact, (isRoundEndName_iff _).mp hname, ?_⟩
      · show h.actionsList.getLast? = some round
        rw [List.getLast?_eq_getElem?, ← hlast]
        exact hround
      · exact lastApplied_analysis h action.Action ""
    · have hlt : r + 1 < h.actionsList.length := by omega
      have hnext : h.actionsList[r + 1]? = some (h.actionsList[r + 1]) := List.getElem?_eq_getElem hlt
      have hnpos := hne _ (List.getElem_mem hlt)
      cases hnr : h.actionsList[r + 1] with
      | nil => rw [hnr] at hnpos; simp at hnpos
      | cons first rest =>
        rw [hnr] at hnext
        refine ⟨_, clickLand_next h cache r a round action first rest hr ha hround hact hname hnext,
          Or.inl ?_⟩
        have hc2 := cursorAction_eq
          (mjHandler._analysisMajsoulRoundData
            (mjHandler.goRunTask
              { h._analysisMajsoulRoundData action.Action "" with
                  majsoulCurrentRoundIndex := (r : Int) + 1, majsoulCurrentActionIndex := 0 }
              cache (first :: rest))
            first.Action "")
          (r + 1) 0 (first :: rest) first (by rw [Nat.cast_succ]; rfl) rfl hnext (by simp)
        rw [lastApplied_analysis, hc2]
        rfl
theorem loadActions_recordMap (h : mjHandler) (actions : List majsoulRecordAction) :
    (h.loadActions actions).majsoulRecordMap = h.majsoulRecordMap := by
  rw [loadActions_eq]

theorem fastLoadActions_recordMap (h : mjHandler) (actions : List majsoulRecordAction) :
    (h._fastLoadActions actions).majsoulRecordMap = h.majsoulRecordMap := by
  obtain ⟨rd, hrd, -⟩ := fastLoadActions_frame h actions
  rw [hrd]

theorem clickSwitch_recordMap (h hb : mjHandler) (cache : Option gameAnalysisCache) (c : String)
    (i e : Int) (hres : h.clickSwitch cache c i e = .ok (some hb)) :
    hb.majsoulRecordMap = h.majsoulRecordMap := by
  unfold mjHandler.clickSwitch at hres
  split_ifs at hres
  all_goals simp only [bind, Except.bind, pure, Except.pure] at hres
  all_goals repeat' split at hres
  all_goals try cases hres
  all_goals first
    | rfl
    | simp [mjHandler.goRunTask, mjHandler.setSkipOutput, loadActions_recordMap]

theorem clickApply_recordMap (h h1 : mjHandler) (action : majsoulRecordAction)
    (hres : h.clickApply = .ok (h1, action)) :
    h1.majsoulRecordMap = h.majsoulRecordMap := by
  unfold mjHandler.clickApply at hres
  simp only [bind, Except.bind, pure, Except.pure] at hres
  repeat' split at hres
  all_goals try cases hres
  all_goals rfl

theorem clickAdvance_recordMap (h h' : mjHandler) (cache : Option gameAnalysisCache)
    (action : majsoulRecordAction) (hres : h.clickAdvance cache action = .ok h') :
    h'.majsoulRecordMap = h.majsoulRecordMap := by
  unfold mjHandler.clickAdvance at hres
  simp only [bind, Except.bind, pure, Except.pure] at hres
  repeat' split at hres
  all_goals try cases hres
  all_goals rfl

theorem clickLand_recordMap (h h' : mjHandler) (cache : Option gameAnalysisCache)
    (hres : h.clickLand cache = .ok h') :
    h'.majsoulRecordMap = h.majsoulRecordMap := by
  unfold mjHandler.clickLand at hres
  simp only [bind, Except.bind] at hres
  cases happ : h.clickApply with
  | error p => rw [happ] at hres; cases hres
  | ok v =>
    obtain ⟨h1, action⟩ := v
    rw [happ] at hres
    exact (clickAdvance_recordMap h1 h' cache action hres).trans
      (clickApply_recordMap h h1 action happ)

theorem onRecordClick_recordMap (h h' : mjHandler) (c : String) (i e : Int)
    (hres : h._onRecordClick c i e = .ok h') :
    h'.majsoulRecordMap = h.majsoulRecordMap := by
  unfold mjHandler._onRecordClick at hres
  simp only [bind, Except.bind, pure, Except.pure] at hres
  cases hsw : h.clickSwitch (getCurrentAnalysisCache h.analysisCache) c i e with
  | error p => rw [hsw] at hres; cases hres
  | ok res =>
    rw [hsw] at hres
    cases res with
    | none => cases hres; rfl
    | some hb =>
      exact (clickLand_recordMap hb h' _ hres).trans (clickSwitch_recordMap h hb _ c i e hsw)

theorem onRecordActions_recordMap (env : Env) (h h' : mjHandler) (d : majsoulMessage) (o : String)
    (hres : h.onRecordActions env d o = .ok h') :
    h'.majsoulRecordMap = h.majsoulRecordMap := by
  unfold mjHandler.onRecordActions at hres
  simp only [bind, Except.bind, pure, Except.pure] at hres
  repeat' split at hres
  all_goals try cases hres
  all_goals rfl

theorem onChangeSeat_recordMap (h h' : mjHandler) (s : Int)
    (hres : h.onChangeSeat s = .ok h') :
    h'.majsoulRecordMap = h.majsoulRecordMap := by
  unfold mjHandler.onChangeSeat at hres
  simp only [bind, Except.bind, pure, Except.pure] at hres
  repeat' split at hres
  all_goals try cases hres
  all_goals first
    | rfl
    | (rw [fastLoadActions_recordMap]; try rfl)

theorem loadLiveAction_recordMap (env : Env) (h h' : mjHandler) (action : majsoulRecordAction)
    (isFast : Bool) (hres : h._loadLiveAction env action isFast = .ok h') :
    h'.majsoulRecordMap = h.majsoulRecordMap := by
  unfold mjHandler._loadLiveAction at hres
  split at hres
  · cases hres
  · cases hres; rfl

theorem isSome_mapGet_mapSet (m : List (String × majsoulRecordBaseInfo)) (k k' : String)
    (v : majsoulRecordBaseInfo) (hin : (mapGet m k).isSome = true) :
    (mapGet (mapSet m k' v) k).isSome = true := by
  rw [mapGet_mapSet]
  split_ifs
  · rfl
  · exact hin

theorem isSome_mapGet_foldl (rs : List majsoulRecordBaseInfo)
    (m : List (String × majsoulRecordBaseInfo)) (k : String)
    (hin : (mapGet m k).isSome = true) :
    (mapGet (rs.foldl (fun m record => mapSet m record.UUID record) m) k).isSome = true := by
  rw [mapGet_foldl_mapSet]
  split
  · rfl
  · exact hin

/-- No dispatch case removes a catalog key. -/
theorem handleMessage_inCatalog (env : Env) (h h' : mjHandler) (d : majsoulMessage) (o : String)
    (k : String) (hres : h.handleMessage env d o = .ok h') (hin : h.inCatalog k) :
    h'.inCatalog k := by
  unfold mjHandler.inCatalog at hin ⊢
  unfold mjHandler.handleMessage at hres
  cases hk : classify d <;> simp only [hk, pure, Except.pure] at hres
  · cases hres; exact hin
  · cases hres; exact isSome_mapGet_foldl _ _ _ hin
  · split at hres
    · cases hres; exact hin
    · split at hres
      · cases hres; exact isSome_mapGet_mapSet _ _ _ _ hin
      · rename_i h2 hload
        cases hres
        unfold mjHandler._loadMajsoulRecordBaseInfo at hload
        split at hload
        · cases hload
        · cases hload; exact isSome_mapGet_mapSet _ _ _ _ hin
  · split at hres
    · cases hres; exact hin
    · rename_i h2 hload
      unfold mjHandler._loadMajsoulRecordBaseInfo at hload
      split at hload
      · cases hload
      · cases hload
        split_ifs at hres <;> cases hres <;> exact hin
  · rw [onRecordActions_recordMap env h h' d o hres]; exact hin
  · rw [onRecordClick_recordMap h h' _ _ _ hres]; exact hin
  · cases hres; exact hin
  · split at hres
    · cases hres; exact hin
    · split at hres
      · cases hres; exact hin
      · rename_i h1 hl
        cases hres
        rw [loadLiveAction_recordMap env h h' _ _ hl]; exact hin
  · split at hres
    · cases hres; exact hin
    · split at hres
      · cases hres; exact hin
      · rename_i h1 hl
        cases hres
        rw [loadLiveAction_recordMap env h h' _ _ hl]; exact hin
  · split at hres
    · cases hres; exact hin
    · rw [onChangeSeat_recordMap h h' _ hres]; exact hin
  · cases hres; rw [fastLoadActions_recordMap]; exact hin
  · cases hres; exact hin

theorem loop_cons_none (env : Env) (debugMode : Bool) (h : mjHandler) (msg : queuedMessage)
    (queue : List queuedMessage) (hm : msg.decoded = none) :
    h.runAnalysisMajsoulMessageTask env debugMode (msg :: queue) =
      { h.runAnalysisMajsoulMessageTask env debugMode queue with
          consumed := (h.runAnalysisMajsoulMessageTask env debugMode queue).consumed + 1 } := by
  rw [mjHandler.runAnalysisMajsoulMessageTask, hm]

theorem attempt_toExcept {α : Type} (h : mjHandler) (x : Except GoPanic α) (k : α → Outcome) :
    (attempt h x k).toExcept = x.bind (fun a => (k a).toExcept) := by
  cases x <;> rfl

theorem clickLandInPlace_toExcept (h : mjHandler) (cache : Option gameAnalysisCache) :
    (h.clickLandInPlace cache).toExcept = h.clickLand cache := by
  simp only [mjHandler.clickLandInPlace, mjHandler.clickLand, mjHandler.clickApply,
    mjHandler.clickAdvance, attempt_toExcept, bind, pure, Except.pure]
  cases goIndex h.actionsList h.majsoulCurrentRoundIndex with
  | error p => rfl
  | ok round =>
    simp only [Except.bind]
    cases goIndex round h.majsoulCurrentActionIndex with
    | error p => rfl
    | ok action =>
      simp only [Except.bind]
      split_ifs
      · rfl
      · simp only [attempt_toExcept]
        rfl
      · rfl

theorem roundJumpInPlace_toExcept (h : mjHandler) (cache : Option gameAnalysisCache) (target : Int) :
    (h.roundJumpInPlace cache target).toExcept =
      (do
        let r ← goRem target h.actionsList.length
        let h1 := { h with majsoulCurrentRoundIndex := r, majsoulCurrentActionIndex := 0 }
        let round ← goIndex h1.actionsList h1.majsoulCurrentRoundIndex
        (h1.goRunTask cache round).clickLand cache) := by
  simp only [mjHandler.roundJumpInPlace, attempt_toExcept, clickLandInPlace_toExcept, bind]

theorem bulkLoadInPlace_toExcept (h : mjHandler) (cache : Option gameAnalysisCache)
    (c : String) (e : Int) :
    (h.bulkLoadInPlace cache c e).toExcept =
      (do
        let h2 := h.setSkipOutput true
        let currentRoundActions ← goIndex h2.actionsList h2.majsoulCurrentRoundIndex
        let startActionIndex := if c = "nextXun" then h2.majsoulCurrentActionIndex + 1 else 0
        let ranged ← goSlice currentRoundActions startActionIndex (goAdd e 1)
        let h3 := h2.loadActions ranged
        let h4 := h3.setSkipOutput false
        mjHandler.clickLand { h4 with majsoulCurrentActionIndex := goAdd e 1 } cache) := by
  simp only [mjHandler.bulkLoadInPlace, attempt_toExcept, clickLandInPlace_toExcept, bind]

theorem onRecordClickInPlace_toExcept (h : mjHandler) (c : String) (i e : Int) :
    (h._onRecordClickInPlace c i e).toExcept = h._onRecordClick c i e := by
  simp only [mjHandler._onRecordClickInPlace, mjHandler._onRecordClick, mjHandler.clickSwitch]
  by_cases h1 : c = "nextStep" ∨ c = "update"
  · simp only [if_pos h1, attempt_toExcept, bind, pure, Except.pure]
    cases goIndex h.actionsList h.majsoulCurrentRoundIndex with
    | error p => rfl
    | ok round =>
      simp only [Except.bind]
      split_ifs
      · rfl
      · simp only [clickLandInPlace_toExcept]
  simp only [if_neg h1]
  by_cases h2 : c = "nextRound"
  · simp only [if_pos h2, roundJumpInPlace_toExcept, bind, pure, Except.pure]
    cases goRem (h.majsoulCurrentRoundIndex + 1) h.actionsList.length with
    | error p => rfl
    | ok r =>
      simp only [Except.bind]
      cases goIndex (mjHandler.actionsList { h with majsoulCurrentRoundIndex := r, majsoulCurrentActionIndex := 0 }) r with
      | error p => rfl
      | ok round => rfl
  simp only [if_neg h2]
  by_cases h3 : c = "preRound"
  · simp only [if_pos h3, roundJumpInPlace_toExcept, bind, pure, Except.pure]
    cases goRem (h.majsoulCurrentRoundIndex - 1 + h.actionsList.length) h.actionsList.length with
    | error p => rfl
    | ok r =>
      simp only [Except.bind]
      cases goIndex (mjHandler.actionsList { h with majsoulCurrentRoundIndex := r, majsoulCurrentActionIndex := 0 }) r with
      | error p => rfl
      | ok round => rfl
  simp only [if_neg h3]
  by_cases h4 : c = "jumpRound"
  · simp only [if_pos h4, roundJumpInPlace_toExcept, bind, pure, Except.pure]
    cases goRem i h.actionsList.length with
    | error p => rfl
    | ok r =>
      simp only [Except.bind]
      cases goIndex (mjHandler.actionsList { h with majsoulCurrentRoundIndex := r, majsoulCurrentActionIndex := 0 }) r with
      | error p => rfl
      | ok round => rfl
  simp only [if_neg h4]
  by_cases h5 : c = "nextXun" ∨ c = "preXun" ∨ c = "jumpXun" ∨ c = "preStep"
      ∨ c = "jumpToLastRoundXun"
  · simp only [if_pos h5]
    by_cases h6 : c = "jumpToLastRoundXun"
    · simp only [if_pos h6, attempt_toExcept, bulkLoadInPlace_toExcept, bind, pure, Except.pure]
      cases goRem (h.majsoulCurrentRoundIndex - 1 + h.actionsList.length) h.actionsList.length with
      | error p => rfl
      | ok r =>
        simp only [Except.bind]
        cases goIndex (mjHandler.actionsList { h with majsoulCurrentRoundIndex := r }) r with
        | error p => rfl
        | ok round =>
          simp only []
          generalize mjHandler.goRunTask _ _ _ = g
          cases goIndex (g.setSkipOutput true).actionsList (g.setSkipOutput true).majsoulCurrentRoundIndex with
          | error p => rfl
          | ok cur =>
            simp only []
            generalize (if c = "nextXun" then (g.setSkipOutput true).majsoulCurrentActionIndex + 1 else 0) = st
            cases goSlice cur st (goAdd e 1) with
            | error p => rfl
            | ok ranged => rfl
    · simp only [if_neg h6, bulkLoadInPlace_toExcept, bind, pure, Except.pure]
      simp only [Except.bind]
      cases goIndex (h.setSkipOutput true).actionsList (h.setSkipOutput true).majsoulCurrentRoundIndex with
      | error p => rfl
      | ok cur =>
        simp only []
        generalize (if c = "nextXun" then (h.setSkipOutput true).majsoulCurrentActionIndex + 1 else 0) = st
        cases goSlice cur st (goAdd e 1) with
        | error p => rfl
        | ok ranged => rfl
  · simp only [if_neg h5]
    rfl

theorem onRecordActionsInPlace_toExcept (env : Env) (h : mjHandler) (d : majsoulMessage)
    (o : String) :
    (h.onRecordActionsInPlace env d o).toExcept = h.onRecordActions env d o := by
  simp only [mjHandler.onRecordActionsInPlace, mjHandler.onRecordActions]
  by_cases c1 : h.majsoulCurrentRecordActionsList.isSome = true
  · simp only [if_pos c1]; rfl
  simp only [if_neg c1]
  by_cases c2 : h.majsoulCurrentRecordUUID = ""
  · simp only [if_pos c2]; rfl
  simp only [if_neg c2]
  cases mapGet h.majsoulRecordMap h.majsoulCurrentRecordUUID with
  | none => rfl
  | some baseInfo =>
    simp only []
    by_cases c3 : h.gameConf.currentActiveMajsoulAccountID = -1
    · simp only [if_pos c3]; rfl
    simp only [if_neg c3]
    cases env.getSelfSeat baseInfo h.gameConf.currentActiveMajsoulAccountID with
    | error e => rfl
    | ok selfSeat =>
      simp only []
      cases env.parseMajsoulRecordAction d.RecordActions with
      | error e => rfl
      | ok rounds =>
        simp only [attempt_toExcept, bind, pure, Except.pure]
        generalize goIndex (mjHandler.actionsList _) _ = x
        cases x with
        | error p => rfl
        | ok actions =>
          simp only [Except.bind]
          cases goIndex actions 0 with
          | error p => rfl
          | ok first => rfl

theorem onChangeSeatInPlace_toExcept (h : mjHandler) (seat : Int) :
    (h.onChangeSeatInPlace seat).toExcept = h.onChangeSeat seat := by
  simp only [mjHandler.onChangeSeatInPlace, mjHandler.onChangeSeat]
  split_ifs
  · rfl
  · simp only [attempt_toExcept, bind, pure, Except.pure]
    generalize goIndex (mjHandler.actionsList _) _ = x
    cases x with
    | error p => rfl
    | ok full =>
      simp only [Except.bind]
      generalize goSlice full 0 _ = y
      cases y with
      | error p => rfl
      | ok actions => rfl

/-- The handling of a message with the handler at a panic returns or panics
exactly as `handleMessage` does, with the same handler or the same panic. -/
theorem handleMessageInPlace_toExcept (env : Env) (h : mjHandler) (d : majsoulMessage)
    (o : String) :
    (h.handleMessageInPlace env d o).toExcept = h.handleMessage env d o := by
  unfold mjHandler.handleMessageInPlace
  split
  · rename_i hk
    rw [onRecordActionsInPlace_toExcept]; simp only [mjHandler.handleMessage, hk]
  · rename_i hk
    rw [onRecordClickInPlace_toExcept]; simp only [mjHandler.handleMessage, hk]
  · rename_i hk
    simp only [mjHandler.handleMessage, hk]
    split
    · rfl
    · rw [onChangeSeatInPlace_toExcept]
  · cases h.handleMessage env d o <;> rfl

theorem handleMessageInPlace_returned (env : Env) (h h1 : mjHandler) (d : majsoulMessage)
    (o : String) :
    h.handleMessageInPlace env d o = .returned h1 ↔ h.handleMessage env d o = .ok h1 := by
  rw [← handleMessageInPlace_toExcept]
  cases h.handleMessageInPlace env d o <;> simp [Outcome.toExcept]

theorem handleMessageInPlace_panicked (env : Env) (h : mjHandler) (d : majsoulMessage)
    (o : String) (p : GoPanic) :
    (∃ hp, h.handleMessageInPlace env d o = .panicked hp p) ↔
      h.handleMessage env d o = .error p := by
  rw [← handleMessageInPlace_toExcept]
  cases h.handleMessageInPlace env d o <;> simp [Outcome.toExcept]

theorem attempt_recordMap {α : Type} (h : mjHandler) (x : Except GoPanic α) (k : α → Outcome)
    (m : List (String × majsoulRecordBaseInfo)) (hh : h.majsoulRecordMap = m)
    (hk : ∀ a, (k a).handler.majsoulRecordMap = m) :
    (attempt h x k).handler.majsoulRecordMap = m := by
  cases x with
  | error p => exact hh
  | ok a => exact hk a

theorem clickLandInPlace_recordMap (h : mjHandler) (cache : Option gameAnalysisCache) :
    (h.clickLandInPlace cache).handler.majsoulRecordMap = h.majsoulRecordMap := by
  unfold mjHandler.clickLandInPlace
  refine attempt_recordMap _ _ _ _ rfl (fun round => ?_)
  refine attempt_recordMap _ _ _ _ rfl (fun action => ?_)
  simp only []
  split_ifs
  · rfl
  · refine attempt_recordMap _ _ _ _ rfl (fun actions => ?_)
    exact attempt_recordMap _ _ _ _ rfl (fun first => rfl)
  · rfl

theorem roundJumpInPlace_recordMap (h : mjHandler) (cache : Option gameAnalysisCache)
    (target : Int) :
    (h.roundJumpInPlace cache target).handler.majsoulRecordMap = h.majsoulRecordMap := by
  unfold mjHandler.roundJumpInPlace
  refine attempt_recordMap _ _ _ _ rfl (fun r => ?_)
  refine attempt_recordMap _ _ _ _ rfl (fun round => ?_)
  rw [clickLandInPlace_recordMap]; rfl

theorem bulkLoadInPlace_recordMap (h : mjHandler) (cache : Option gameAnalysisCache)
    (c : String) (e : Int) :
    (h.bulkLoadInPlace cache c e).handler.majsoulRecordMap = h.majsoulRecordMap := by
  unfold mjHandler.bulkLoadInPlace
  refine attempt_recordMap _ _ _ _ rfl (fun cur => ?_)
  refine attempt_recordMap _ _ _ _ rfl (fun ranged => ?_)
  rw [clickLandInPlace_recordMap]
  show ((h.setSkipOutput true).loadActions ranged).majsoulRecordMap = _
  rw [loadActions_recordMap]; rfl

theorem onRecordClickInPlace_recordMap (h : mjHandler) (c : String) (i e : Int) :
    (h._onRecordClickInPlace c i e).handler.majsoulRecordMap = h.majsoulRecordMap := by
  unfold mjHandler._onRecordClickInPlace
  simp only []
  split_ifs
  · refine attempt_recordMap _ _ _ _ rfl (fun round => ?_)
    split_ifs
    · rfl
    · rw [clickLandInPlace_recordMap]
  · exact roundJumpInPlace_recordMap _ _ _
  · exact roundJumpInPlace_recordMap _ _ _
  · exact roundJumpInPlace_recordMap _ _ _
  · refine attempt_recordMap _ _ _ _ rfl (fun r => ?_)
    refine attempt_recordMap _ _ _ _ rfl (fun round => ?_)
    rw [bulkLoadInPlace_recordMap]; rfl
  · exact bulkLoadInPlace_recordMap _ _ _ _
  · rfl

theorem onRecordActionsInPlace_recordMap (env : Env) (h : mjHandler) (d : majsoulMessage)
    (o : String) :
    (h.onRecordActionsInPlace env d o).handler.majsoulRecordMap = h.majsoulRecordMap := by
  unfold mjHandler.onRecordActionsInPlace
  split_ifs
  · rfl
  · rfl
  · split
    · rfl
    · simp only []
      split_ifs
      · rfl
      · split
        · rfl
        · split
          · rfl
          · refine attempt_recordMap _ _ _ _ rfl (fun actions => ?_)
            exact attempt_recordMap _ _ _ _ rfl (fun first => rfl)

theorem onChangeSeatInPlace_recordMap (h : mjHandler) (seat : Int) :
    (h.onChangeSeatInPlace seat).handler.majsoulRecordMap = h.majsoulRecordMap := by
  unfold mjHandler.onChangeSeatInPlace
  simp only []
  split_ifs
  · exact fastLoadActions_recordMap _ _
  · refine attempt_recordMap _ _ _ _ rfl (fun full => ?_)
    refine attempt_recordMap _ _ _ _ rfl (fun actions => ?_)
    exact fastLoadActions_recordMap _ _

/-- Outside the three cases that index or slice the record store, the handling
of a message does not panic. -/
theorem handleMessage_ok_of_kind (env : Env) (h : mjHandler) (d : majsoulMessage) (o : String)
    (h1 : classify d ≠ EventKind.RecordActionBatch)
    (h2 : classify d ≠ EventKind.ReplayNavigationCommand)
    (h3 : classify d ≠ EventKind.SeatChange) :
    ∃ h', h.handleMessage env d o = .ok h' := by
  cases hres : h.handleMessage env d o with
  | ok h' => exact ⟨h', rfl⟩
  | error p =>
    exfalso
    unfold mjHandler.handleMessage at hres
    simp only [pure, Except.pure] at hres
    repeat' split at hres
    all_goals try cases hres
    all_goals first | exact h1 (by assumption) | exact h2 (by assumption) | exact h3 (by assumption)

/-- The writes made before a panic do not touch the match catalog. -/
theorem handleMessageInPlace_panicked_recordMap (env : Env) (h hp : mjHandler)
    (d : majsoulMessage) (o : String) (p : GoPanic)
    (hres : h.handleMessageInPlace env d o = .panicked hp p) :
    hp.majsoulRecordMap = h.majsoulRecordMap := by
  have key : ∀ (out : Outcome), out.handler.majsoulRecordMap = h.majsoulRecordMap →
      out = .panicked hp p → hp.majsoulRecordMap = h.majsoulRecordMap := by
    intro out hm he; rw [he] at hm; exact hm
  unfold mjHandler.handleMessageInPlace at hres
  split at hres
  · exact key _ (onRecordActionsInPlace_recordMap env h d o) hres
  · exact key _ (onRecordClickInPlace_recordMap h _ _ _) hres
  · split at hres
    · cases hres
    · exact key _ (onChangeSeatInPlace_recordMap h _) hres
  · split at hres
    · cases hres
    · cases hres; rfl

theorem loop_cons_ok (env : Env) (debugMode : Bool) (h h1 : mjHandler) (msg : queuedMessage)
    (d : majsoulMessage) (queue : List queuedMessage) (hm : msg.decoded = some d)
    (hrun : h.handleMessage env d msg.raw = .ok h1) :
    h.runAnalysisMajsoulMessageTask env debugMode (msg :: queue) =
      { h1.runAnalysisMajsoulMessageTask env debugMode queue with
          consumed := (h1.runAnalysisMajsoulMessageTask env debugMode queue).consumed + 1 } := by
  rw [mjHandler.runAnalysisMajsoulMessageTask, hm]
  simp only [(handleMessageInPlace_returned env h h1 d msg.raw).mpr hrun]

theorem loop_cons_panic (env : Env) (debugMode : Bool) (h hp : mjHandler) (msg : queuedMessage)
    (d : majsoulMessage) (p : GoPanic) (queue : List queuedMessage) (hm : msg.decoded = some d)
    (hrun : h.handleMessageInPlace env d msg.raw = .panicked hp p) :
    h.runAnalysisMajsoulMessageTask env debugMode (msg :: queue) =
      { handler := hp, unread := queue, consumed := 1,
        ending := if debugMode then loopEnd.crashed p else loopEnd.recovered p } := by
  rw [mjHandler.runAnalysisMajsoulMessageTask, hm]
  simp only [hrun]

theorem handleAll_cons_none (env : Env) (h : mjHandler) (msg : queuedMessage)
    (queue : List queuedMessage) (hm : msg.decoded = none) :
    h.handleAll env (msg :: queue) = h.handleAll env queue := by
  rw [mjHandler.handleAll, hm]

theorem handleAll_cons_some (env : Env) (h : mjHandler) (msg : queuedMessage) (d : majsoulMessage)
    (queue : List queuedMessage) (hm : msg.decoded = some d) :
    h.handleAll env (msg :: queue) =
      match h.handleMessage env d msg.raw with
      | .error p => .error p
      | .ok h1 => h1.handleAll env queue := by
  rw [mjHandler.handleAll, hm]
  try rfl

theorem loop_inCatalog (env : Env) (debugMode : Bool) (k : String) (queue : List queuedMessage) :
    ∀ h : mjHandler, h.inCatalog k →
      (h.runAnalysisMajsoulMessageTask env debugMode queue).handler.inCatalog k := by
  induction queue with
  | nil => intro h hin; exact hin
  | cons msg queue ih =>
    intro h hin
    cases hd : msg.decoded with
    | none => rw [loop_cons_none env debugMode h msg queue hd]; exact ih h hin
    | some d =>
      cases hrun : h.handleMessageInPlace env d msg.raw with
      | panicked hp p =>
        rw [loop_cons_panic env debugMode h hp msg d p queue hd hrun]
        show (mapGet hp.majsoulRecordMap k).isSome = true
        rw [handleMessageInPlace_panicked_recordMap env h hp d msg.raw p hrun]
        exact hin
      | returned h1 =>
        have hok := (handleMessageInPlace_returned env h h1 d msg.raw).mp hrun
        rw [loop_cons_ok env debugMode h h1 msg d queue hd hok]
        exact ih h1 (handleMessage_inCatalog env h h1 d msg.raw k hok hin)

/-- The loop on a queue whose first panicking message is `bad`: the messages
before it are handled, the handler is the one at the panic, and the messages
after it stay unread. -/
theorem loop_append_panic (env : Env) (debugMode : Bool) (pre : List queuedMessage) :
    ∀ (h h1 hp : mjHandler) (bad : queuedMessage) (d : majsoulMessage) (p : GoPanic)
      (post : List queuedMessage),
      h.handleAll env pre = .ok h1 → bad.decoded = some d →
      h1.handleMessageInPlace env d bad.raw = .panicked hp p →
      h.runAnalysisMajsoulMessageTask env debugMode (pre ++ bad :: post) =
        { handler := hp, unread := post, consumed := pre.length + 1,
          ending := if debugMode then loopEnd.crashed p else loopEnd.recovered p } := by
  induction pre with
  | nil =>
    intro h h1 hp bad d p post hpre hd hbad
    cases hpre
    exact loop_cons_panic env debugMode h hp bad d p post hd hbad
  | cons msg pre ih =>
    intro h h1 hp bad d p post hpre hd hbad
    rw [List.cons_append]
    cases hm : msg.decoded with
    | none =>
      rw [handleAll_cons_none env h msg pre hm] at hpre
      rw [loop_cons_none env debugMode h msg _ hm, ih h h1 hp bad d p post hpre hd hbad]
      rfl
    | some d0 =>
      rw [handleAll_cons_some env h msg d0 pre hm] at hpre
      cases hrun : h.handleMessage env d0 msg.raw with
      | error q => rw [hrun] at hpre; cases hpre
      | ok h0 =>
        rw [hrun] at hpre
        rw [loop_cons_ok env debugMode h h0 msg d0 _ hm hrun,
          ih h0 h1 hp bad d p post hpre hd hbad]
        rfl

/-- The loop on a queue without a panicking message consumes all of it. -/
theorem loop_all_ok (env : Env) (debugMode : Bool) (queue : List queuedMessage) :
    ∀ (h h1 : mjHandler), h.handleAll env queue = .ok h1 →
      h.runAnalysisMajsoulMessageTask env debugMode queue =
        { handler := h1, unread := [], consumed := queue.length, ending := loopEnd.drained } := by
  induction queue with
  | nil => intro h h1 hall; cases hall; rfl
  | cons msg queue ih =>
    intro h h1 hall
    cases hm : msg.decoded with
    | none =>
      rw [handleAll_cons_none env h msg queue hm] at hall
      rw [loop_cons_none env debugMode h msg _ hm, ih h h1 hall]
      rfl
    | some d0 =>
      rw [handleAll_cons_some env h msg d0 queue hm] at hall
      cases hrun : h.handleMessage env d0 msg.raw with
      | error q => rw [hrun] at hall; cases hall
      | ok h0 =>
        rw [hrun] at hall
        rw [loop_cons_ok env debugMode h h0 msg d0 _ hm hrun, ih h0 h1 hall]
        rfl

/-! ## C1: dispatch precedence -/

/-- C1. The dispatch of `runAnalysisMajsoulMessageTask` selects, for every
decoded payload, the event kind of the first rule that matches in the fixed
order friend list, record catalog, shared-record pointer, current record
identity, record actions, record click, live base info, live fast action, live
action, change-seat-to, sync game actions; when no rule matches the payload is
the opaque state delta and is fed directly to the round data. -/
theorem dispatch_selects_first_match (env : Env) (h : mjHandler) (d : majsoulMessage)
    (originJSON : String) :
    classify d = firstMatchingKind d ∧
    (firstMatchingKind d = EventKind.OpaqueStateDelta →
      h.handleMessage env d originJSON = .ok (h._analysisMajsoulRoundData d originJSON) ∧
      (h._analysisMajsoulRoundData d originJSON).majsoulRoundData.analysisCalls =
        h.majsoulRoundData.analysisCalls ++
          [{ msg := d, originJSON := originJSON, skipOutput := h.majsoulRoundData.skipOutput }]) := by
  refine ⟨classify_eq_firstMatchingKind d, fun hk => ?_⟩
  rw [← classify_eq_firstMatchingKind] at hk
  constructor
  · simp [mjHandler.handleMessage, hk]; rfl
  · simp [mjHandler._analysisMajsoulRoundData, majsoulRoundData.analysis]

/-- C1 at a concrete input: an ordinary game-data payload matches no rule and
is handed to the round data. -/
theorem dispatch_selects_first_match_witness :
    classify (plainMessage 7) = firstMatchingKind (plainMessage 7) ∧
    firstMatchingKind (plainMessage 7) = EventKind.OpaqueStateDelta ∧
    (recordHandler [] 0 0).handleMessage sampleEnv (plainMessage 7) "raw" =
      .ok ((recordHandler [] 0 0)._analysisMajsoulRoundData (plainMessage 7) "raw") :=
  ⟨(dispatch_selects_first_match sampleEnv (recordHandler [] 0 0) (plainMessage 7) "raw").1,
   by decide,
   ((dispatch_selects_first_match sampleEnv (recordHandler [] 0 0) (plainMessage 7) "raw").2
      (by decide)).1⟩

/-! ## C2: friend list against record catalog -/

/-- C2 fails as stated: a payload with a non-empty friend list and a non-empty
record catalog list is classified as `FriendList`, not `RecordCatalog`, and its
catalog entry is not stored. -/
theorem catalog_precedence_counterexample :
    ¬ (∀ d : majsoulMessage, d.RecordBaseInfoList.length > 0 → d.Friends.length > 0 →
        classify d = EventKind.RecordCatalog) ∧
    classify friendsAndCatalogMessage = EventKind.FriendList ∧
    (∃ h', (recordHandler [] 0 0).handleMessage sampleEnv friendsAndCatalogMessage "" = .ok h' ∧
      mapGet h'.majsoulRecordMap "R1" = none) := by
  refine ⟨fun H => ?_, by decide, _, rfl, by decide⟩
  have := H friendsAndCatalogMessage (by decide) (by decide)
  revert this
  decide

/-- C2 as amended: a payload with a non-empty record catalog list is
classified as `FriendList` when its friend list is non-empty too, and the
handler state (the match catalog included) is then unchanged; it is classified
as `RecordCatalog` only when the friend list is empty, and then every entry of
the list is found in the match catalog under its identity afterwards. -/
theorem friends_take_precedence_over_catalog (env : Env) (h : mjHandler) (d : majsoulMessage)
    (originJSON : String) (hcat : d.RecordBaseInfoList.length > 0) :
    (d.Friends.length > 0 →
      classify d = EventKind.FriendList ∧ h.handleMessage env d originJSON = .ok h) ∧
    (d.Friends.length = 0 →
      classify d = EventKind.RecordCatalog ∧
      ∃ h', h.handleMessage env d originJSON = .ok h' ∧
        ∀ record ∈ d.RecordBaseInfoList, ∃ stored ∈ d.RecordBaseInfoList,
          stored.UUID = record.UUID ∧ mapGet h'.majsoulRecordMap record.UUID = some stored) := by
  constructor
  · intro hf
    have hc : classify d = EventKind.FriendList := by simp [classify, hf]
    exact ⟨hc, by simp [mjHandler.handleMessage, hc]; rfl⟩
  · intro hf
    have hc : classify d = EventKind.RecordCatalog := by simp [classify, hf, hcat]
    refine ⟨hc, _, by simp [mjHandler.handleMessage, hc]; rfl, ?_⟩
    intro record hrec
    simp only [mapGet_foldl_mapSet]
    cases hfind : List.find? (fun r => r.UUID == record.UUID) d.RecordBaseInfoList.reverse with
    | none =>
      have := List.find?_eq_none.mp hfind record (by simpa using hrec)
      simp at this
    | some stored =>
      have hmem := List.mem_of_find?_eq_some hfind
      have hp := List.find?_some hfind
      exact ⟨stored, by simpa using hmem, by simpa using hp, rfl⟩

/-- C2 as amended, at the payload that carries both lists. -/
theorem friends_take_precedence_over_catalog_witness :
    friendsAndCatalogMessage.RecordBaseInfoList.length > 0 ∧
    friendsAndCatalogMessage.Friends.length > 0 ∧
    classify friendsAndCatalogMessage = EventKind.FriendList ∧
    (recordHandler [] 0 0).handleMessage sampleEnv friendsAndCatalogMessage "" =
      .ok (recordHandler [] 0 0) :=
  ⟨by decide, by decide,
   (friends_take_precedence_over_catalog sampleEnv (recordHandler [] 0 0) friendsAndCatalogMessage ""
      (by decide)).1 (by decide)⟩

/-! ## C3: output suppression in bulk navigation -/

/-- C3 fails as stated: `jumpXun` with fast-forward target 2 on a round of
five actions applies the range 0..2 (three actions) with `skipOutput = true`
and only the action after it with `skipOutput = false`, so the last three
applications are not all unsuppressed. -/
theorem bulk_tail_of_three_counterexample :
    (recordHandler threeRoundStore 0 0).CursorValid ∧
    ∃ h', (recordHandler threeRoundStore 0 0)._onRecordClick "jumpXun" 0 2 = .ok h' ∧
      h'.skipFlags = [true, true, true, false] ∧
      ¬ (∀ b ∈ h'.skipFlags.drop (h'.skipFlags.length - 3), b = false) :=
  ⟨by decide, _, rfl, by decide, by decide⟩

/-- C3 as amended: for every bulk navigation command whose range
`start .. fastRecordTo` lies inside the selected round with an action after
it, every application of the range is made with `skipOutput = true`, and the
applications that follow (the action after the range and, after a round-end
action, the first action of the next round) are made with `skipOutput =
false`; there are one or two of these, whatever the length of the range. -/
theorem bulk_range_suppressed_last_visible (h : mjHandler) (c : String) (i e : Int)
    (hv : h.CursorValid) (hc : isBulkCommand c)
    (hlo : h.bulkStart c ≤ goAdd e 1) (hhi : goAdd e 1 < ((h.bulkRound c).length : Int)) :
    ∃ (h' : mjHandler) (k : Nat), h._onRecordClick c i e = .ok h' ∧ (k = 1 ∨ k = 2) ∧
      h'.skipFlags = h.skipFlags ++ List.replicate (goAdd e 1 - h.bulkStart c).toNat true ++
        List.replicate k false := by
  obtain ⟨hb, hsw, hbv, -, -, -, hskip, hcalls⟩ :=
    bulk_switch_summary h (getCurrentAnalysisCache h.analysisCache) c i e hv hc hlo hhi
  obtain ⟨h', tail, hland, -, -, hcalls', hlen, hflags⟩ :=
    clickLand_summary hb (getCurrentAnalysisCache h.analysisCache) hbv
  have hs0 : 0 ≤ h.bulkStart c := by
    have := hv.2.2.2.2.1
    unfold mjHandler.bulkStart; split_ifs <;> omega
  refine ⟨h', tail.length, ?_, hlen, ?_⟩
  · rw [onRecordClick_of_switch_some h hb c i e hsw]; exact hland
  · rw [skipFlags_eq, skipFlags_eq, hcalls', hcalls, List.map_append, List.map_append, List.map_map]
    congr 1
    · congr 1
      rw [List.eq_replicate_iff]
      constructor
      · simp only [List.length_map, List.length_drop, List.length_take]
        omega
      · intro b hb'
        simp only [List.mem_map] at hb'
        obtain ⟨x, _, rfl⟩ := hb'
        rfl
    · rw [List.eq_replicate_iff]
      refine ⟨by simp, ?_⟩
      intro b hb'
      simp only [List.mem_map] at hb'
      obtain ⟨x, hx, rfl⟩ := hb'
      rw [hflags x hx, hskip]

/-- C3 as amended, at `jumpXun` with target 2 on a round of five actions. -/
theorem bulk_range_suppressed_last_visible_witness :
    ∃ (h' : mjHandler) (k : Nat),
      (recordHandler threeRoundStore 0 0)._onRecordClick "jumpXun" 0 2 = .ok h' ∧ (k = 1 ∨ k = 2) ∧
      h'.skipFlags = (recordHandler threeRoundStore 0 0).skipFlags ++
        List.replicate (goAdd 2 1 - (recordHandler threeRoundStore 0 0).bulkStart "jumpXun").toNat true ++
        List.replicate k false :=
  bulk_range_suppressed_last_visible (recordHandler threeRoundStore 0 0) "jumpXun" 0 2
    (by decide) (by decide) (by decide) (by decide)

/-! ## C4: the replay cursor invariant -/

/-- C4 fails as stated: with a valid cursor, `jumpXun` with fast-forward
target 4 on a round of five actions sets the action index to 5 and the read of
that action is out of range. -/
theorem cursor_invariant_counterexample :
    ¬ (∀ (h : mjHandler) (c : String) (i e : Int), h.CursorValid →
        ∃ h', h._onRecordClick c i e = .ok h' ∧ h'.CursorValid) := by
  intro H
  obtain ⟨h', heq, -⟩ := H (recordHandler threeRoundStore 0 0) "jumpXun" 0 4 (by decide)
  have hp : (recordHandler threeRoundStore 0 0)._onRecordClick "jumpXun" 0 4 =
      .error GoPanic.indexOutOfRange := rfl
  rw [hp] at heq
  cases heq

/-- C4 as amended: from a state that satisfies the cursor invariant,
`_onRecordClick` completes without a panic, keeps the store and leaves a
cursor that satisfies the invariant again, for every command string, provided
that for `jumpRound` the Go remainder of the index argument by the round count
is not negative, and for a bulk command `start <= fastRecordTo + 1 <
len(selected round)`. -/
theorem click_preserves_cursor_invariant (h : mjHandler) (c : String) (i e : Int)
    (hv : h.CursorValid)
    (hjump : c = "jumpRound" → 0 ≤ Int.tmod i h.actionsList.length)
    (hbulk : isBulkCommand c →
      h.bulkStart c ≤ goAdd e 1 ∧ goAdd e 1 < ((h.bulkRound c).length : Int)) :
    ∃ h' : mjHandler, h._onRecordClick c i e = .ok h' ∧ h'.CursorValid ∧
      h'.majsoulCurrentRecordActionsList = h.majsoulCurrentRecordActionsList := by
  obtain ⟨res, hsw, hres⟩ :=
    switch_summary h (getCurrentAnalysisCache h.analysisCache) c i e hv hjump hbulk
  cases res with
  | none => exact ⟨h, onRecordClick_of_switch_none h c i e hsw, hv, rfl⟩
  | some hb =>
    obtain ⟨hbv, hst⟩ := hres hb rfl
    obtain ⟨h', tail, hland, hv', hst', -⟩ :=
      clickLand_summary hb (getCurrentAnalysisCache h.analysisCache) hbv
    refine ⟨h', ?_, hv', hst'.trans hst⟩
    rw [onRecordClick_of_switch_some h hb c i e hsw]; exact hland

/-- C4 as amended, at `preXun` with target 0 from the cursor (1, 2). -/
theorem click_preserves_cursor_invariant_witness :
    ∃ h' : mjHandler, (recordHandler threeRoundStore 1 2)._onRecordClick "preXun" 0 0 = .ok h' ∧
      h'.CursorValid ∧
      h'.majsoulCurrentRecordActionsList =
        (recordHandler threeRoundStore 1 2).majsoulCurrentRecordActionsList :=
  click_preserves_cursor_invariant (recordHandler threeRoundStore 1 2) "preXun" 0 0
    (by decide) (by decide) (by decide)

/-! ## C5: round wraparound -/

/-- C5 fails as stated: in a store of two non-empty rounds whose round 0
begins with a win, `nextRound` from the last round index 1 lands on that win
and the round-end step moves on, leaving round index 1 and not 0. -/
theorem round_wraparound_counterexample :
    ¬ (∀ h : mjHandler, h.CursorValid →
        h.majsoulCurrentRoundIndex = (h.actionsList.length : Int) - 1 →
        ∃ h', h._onRecordClick "nextRound" 0 0 = .ok h' ∧ h'.majsoulCurrentRoundIndex = 0) := by
  intro H
  obtain ⟨h', heq, hr⟩ := H (recordHandler winFirstStore 1 0) (by decide) (by decide)
  have hp : Except.map (fun x => x.majsoulCurrentRoundIndex)
      ((recordHandler winFirstStore 1 0)._onRecordClick "nextRound" 0 0) = .ok 1 := rfl
  rw [heq] at hp
  simp only [Except.map, hr] at hp
  cases hp

/-- C5 as amended: for every store of R >= 1 non-empty rounds none of which
begins with a round-end action, and every valid cursor, `nextRound` from round
index R-1 leaves round index 0, `preRound` from round index 0 leaves round
index R-1, and `nextRound` issued R times in succession returns the round
index to its original value; in each case the action index is 0. -/
theorem round_wraparound (h : mjHandler) (i e : Int) (hv : h.CursorValid)
    (hplain : h.RoundsStartPlain) :
    (h.majsoulCurrentRoundIndex = (h.actionsList.length : Int) - 1 →
      ∃ h', h._onRecordClick "nextRound" i e = .ok h' ∧
        h'.majsoulCurrentRoundIndex = 0 ∧ h'.majsoulCurrentActionIndex = 0) ∧
    (h.majsoulCurrentRoundIndex = 0 →
      ∃ h', h._onRecordClick "preRound" i e = .ok h' ∧
        h'.majsoulCurrentRoundIndex = (h.actionsList.length : Int) - 1 ∧
        h'.majsoulCurrentActionIndex = 0) ∧
    (∃ h', h.repeatClick "nextRound" i e h.actionsList.length = .ok h' ∧
        h'.majsoulCurrentRoundIndex = h.majsoulCurrentRoundIndex ∧
        h'.majsoulCurrentActionIndex = 0) := by
  have hpos := hv.1
  have h0 := hv.2.2.1
  have h1 := hv.2.2.2.1
  refine ⟨fun hlast => ?_, fun hfirst => ?_, ?_⟩
  · obtain ⟨h', hclick, -, -, hr', ha'⟩ := nextRound_result h i e hv hplain
    refine ⟨h', hclick, ?_, ha'⟩
    rw [hr']
    have : h.majsoulCurrentRoundIndex.toNat + 1 = h.actionsList.length := by omega
    rw [this, Nat.mod_self]; rfl
  · obtain ⟨h', hclick, -, -, hr', ha'⟩ := preRound_result h i e hv hplain
    refine ⟨h', hclick, ?_, ha'⟩
    rw [hr']
    have : h.majsoulCurrentRoundIndex.toNat + h.actionsList.length - 1 = h.actionsList.length - 1 := by
      omega
    rw [this, Nat.mod_eq_of_lt (by omega)]
    omega
  · obtain ⟨h', hrep, -, -, hr', ha'⟩ :=
      repeat_nextRound_result h.actionsList.length h i e hv hplain
    refine ⟨h', hrep, ?_, ha' hpos⟩
    rw [hr', Nat.add_mod_right, Nat.mod_eq_of_lt (by omega)]
    omega

/-- C5 as amended, on the store of three rounds of five actions. -/
theorem round_wraparound_witness :
    ∃ h', (recordHandler threeRoundStore 1 2).repeatClick "nextRound" 0 0
        (recordHandler threeRoundStore 1 2).actionsList.length = .ok h' ∧
      h'.majsoulCurrentRoundIndex = (recordHandler threeRoundStore 1 2).majsoulCurrentRoundIndex ∧
      h'.majsoulCurrentActionIndex = 0 :=
  (round_wraparound (recordHandler threeRoundStore 1 2) 0 0 (by decide) (by decide)).2.2

/-! ## C6: round-end auto-advance -/

/-- C6. Whenever the switch of `_onRecordClick` leaves the cursor at (r, a)
on an action named RecordHule, RecordLiuJu or RecordNoTile, that action is
applied and the cursor is set to (r+1, 0): if r+1 is the round count the
cursor becomes (0, 0) and nothing more is applied and no task is started;
otherwise exactly one analysis task is started on round r+1's action list and
round r+1's first action is applied.  When the action has another name the
cursor stays at (r, a) and nothing further is applied. -/
theorem round_end_auto_advance (h h1 : mjHandler) (c : String) (i e : Int) (r a : Nat)
    (round : majsoulRoundActions) (action : majsoulRecordAction)
    (hsw : h.clickSwitch (getCurrentAnalysisCache h.analysisCache) c i e = .ok (some h1))
    (hr : h1.majsoulCurrentRoundIndex = (r : Int)) (ha : h1.majsoulCurrentActionIndex = (a : Int))
    (hround : h1.actionsList[r]? = some round) (hact : round[a]? = some action) :
    (RoundEndName action.Name → r + 1 = h1.actionsList.length →
      ∃ h', h._onRecordClick c i e = .ok h' ∧
        h' = { h1._analysisMajsoulRoundData action.Action "" with
                majsoulCurrentRoundIndex := 0, majsoulCurrentActionIndex := 0 } ∧
        h'.majsoulCurrentRoundIndex = 0 ∧ h'.majsoulCurrentActionIndex = 0 ∧
        h'.startedTasks = h1.startedTasks ∧
        h'.majsoulRoundData.analysisCalls = h1.majsoulRoundData.analysisCalls ++
          [appliedWith h1.majsoulRoundData.skipOutput action]) ∧
    (RoundEndName action.Name →
      ∀ (first : majsoulRecordAction) (rest : majsoulRoundActions),
        h1.actionsList[r + 1]? = some (first :: rest) →
      ∃ h', h._onRecordClick c i e = .ok h' ∧
        h'.majsoulCurrentRoundIndex = (r : Int) + 1 ∧ h'.majsoulCurrentActionIndex = 0 ∧
        h'.majsoulCurrentRecordActionsList = h1.majsoulCurrentRecordActionsList ∧
        h'.startedTasks = h1.startedTasks ++
          [{ cache := getCurrentAnalysisCache h.analysisCache, actions := first :: rest }] ∧
        h'.majsoulRoundData.analysisCalls = h1.majsoulRoundData.analysisCalls ++
          [appliedWith h1.majsoulRoundData.skipOutput action,
           appliedWith h1.majsoulRoundData.skipOutput first]) ∧
    (¬ RoundEndName action.Name →
      h._onRecordClick c i e = .ok (h1._analysisMajsoulRoundData action.Action "") ∧
      (h1._analysisMajsoulRoundData action.Action "").majsoulCurrentRoundIndex = (r : Int) ∧
      (h1._analysisMajsoulRoundData action.Action "").majsoulCurrentActionIndex = (a : Int) ∧
      (h1._analysisMajsoulRoundData action.Action "").startedTasks = h1.startedTasks ∧
      (h1._analysisMajsoulRoundData action.Action "").majsoulRoundData.analysisCalls =
        h1.majsoulRoundData.analysisCalls ++ [appliedWith h1.majsoulRoundData.skipOutput action]) := by
  have hclick := onRecordClick_of_switch_some h h1 c i e hsw
  refine ⟨fun hname hlast => ?_, fun hname first rest hnext => ?_, fun hname => ?_⟩
  · refine ⟨_, hclick.trans (clickLand_wrap h1 _ r a round action hr ha hround hact
      ((isRoundEndName_iff _).mpr hname) hlast), rfl, rfl, rfl, rfl, ?_⟩
    simp [mjHandler._analysisMajsoulRoundData, majsoulRoundData.analysis, appliedWith]
  · refine ⟨_, hclick.trans (clickLand_next h1 _ r a round action first rest hr ha hround hact
      ((isRoundEndName_iff _).mpr hname) hnext), rfl, rfl, rfl, rfl, ?_⟩
    simp [mjHandler._analysisMajsoulRoundData, majsoulRoundData.analysis, appliedWith,
      mjHandler.goRunTask]
  · refine ⟨hclick.trans (clickLand_plain h1 _ r a round action hr ha hround hact
      ((isRoundEndName_false_iff _).mpr hname)), hr, ha, rfl, ?_⟩
    simp [mjHandler._analysisMajsoulRoundData, majsoulRoundData.analysis, appliedWith]

/-- C6 at a concrete input: `nextStep` from (1, 3) lands on the win at (1, 4)
of a three-round store; the cursor moves to (2, 0), one task is started on
round 2 and two payloads are applied. -/
theorem round_end_auto_advance_witness :
    ∃ h', (recordHandler threeRoundStore 1 3)._onRecordClick "nextStep" 0 0 = .ok h' ∧
      h'.majsoulCurrentRoundIndex = ((1 : Nat) : Int) + 1 ∧ h'.majsoulCurrentActionIndex = 0 ∧
      h'.majsoulCurrentRecordActionsList = some threeRoundStore ∧
      h'.startedTasks =
        [{ cache := some { majsoulRecordUUID := "R1", selfSeat := 0 },
           actions := act "RecordNewRound" 20 :: (fiveActionRound 2).tail }] ∧
      h'.majsoulRoundData.analysisCalls =
        [appliedWith false (act "RecordHule" 14), appliedWith false (act "RecordNewRound" 20)] :=
  (round_end_auto_advance (recordHandler threeRoundStore 1 3)
    { recordHandler threeRoundStore 1 3 with majsoulCurrentActionIndex := 4 }
    "nextStep" 0 0 1 4 (fiveActionRound 1) (act "RecordHule" 14) rfl rfl rfl rfl rfl).2.1
    (by decide) (act "RecordNewRound" 20) (fiveActionRound 2).tail rfl

/-! ## C7: nextStep at the end of a round -/

/-- C7 fails as stated: with three rounds of five actions and the cursor at
(1, 4), the last action of round 1 (a win), `nextStep` returns at the bound
check: the cursor stays at (1, 4), nothing is applied and no task is started. -/
theorem next_step_on_last_action_counterexample :
    (recordHandler threeRoundStore 1 4).CursorValid ∧
    (∃ last, (fiveActionRound 1)[4]? = some last ∧ RoundEndName last.Name) ∧
    (recordHandler threeRoundStore 1 4)._onRecordClick "nextStep" 0 0 =
      .ok (recordHandler threeRoundStore 1 4) ∧
    ¬ (∃ h', (recordHandler threeRoundStore 1 4)._onRecordClick "nextStep" 0 0 = .ok h' ∧
        h'.majsoulCurrentRoundIndex = 2 ∧ h'.majsoulCurrentActionIndex = 0) := by
  refine ⟨by decide, ⟨act "RecordHule" 14, rfl, by decide⟩, rfl, ?_⟩
  rintro ⟨h', heq, hr, -⟩
  have hp : Except.map (fun x => x.majsoulCurrentRoundIndex)
      ((recordHandler threeRoundStore 1 4)._onRecordClick "nextStep" 0 0) = .ok 1 := rfl
  rw [heq] at hp
  simp only [Except.map, hr] at hp
  cases hp

/-- C7 as amended: for every store and every cursor (r, a) on the action
before the last action of a non-final round r, when that last action is
round-terminating and round r+1 is non-empty, `nextStep` lands on the last
action and leaves the cursor at (r+1, 0) with exactly one new analysis task
started, on round r+1's action list; with the cursor on the last action of a
round `nextStep` changes nothing. -/
theorem next_step_onto_round_end (h : mjHandler) (i e : Int) (r a : Nat)
    (round rest : majsoulRoundActions) (last first : majsoulRecordAction)
    (hr : h.majsoulCurrentRoundIndex = (r : Int)) (ha : h.majsoulCurrentActionIndex = (a : Int))
    (hround : h.actionsList[r]? = some round) :
    (a + 2 = round.length → round[a + 1]? = some last → RoundEndName last.Name →
      h.actionsList[r + 1]? = some (first :: rest) →
      ∃ h', h._onRecordClick "nextStep" i e = .ok h' ∧
        h'.majsoulCurrentRoundIndex = (r : Int) + 1 ∧ h'.majsoulCurrentActionIndex = 0 ∧
        h'.majsoulCurrentRecordActionsList = h.majsoulCurrentRecordActionsList ∧
        h'.startedTasks = h.startedTasks ++
          [{ cache := getCurrentAnalysisCache h.analysisCache, actions := first :: rest }]) ∧
    (a + 1 = round.length → h._onRecordClick "nextStep" i e = .ok h) := by
  have hsw := clickSwitch_step h (getCurrentAnalysisCache h.analysisCache) "nextStep" i e r round
    (Or.inl rfl) hr hround
  constructor
  · intro hlen hlast hname hnext
    have hlt : ¬ (h.majsoulCurrentActionIndex + 1 ≥ (round.length : Int)) := by omega
    rw [if_neg hlt] at hsw
    have ha1 : h.majsoulCurrentActionIndex + 1 = ((a + 1 : Nat) : Int) := by omega
    have hclick := (onRecordClick_of_switch_some h _ "nextStep" i e hsw).trans
      (clickLand_next { h with majsoulCurrentActionIndex := h.majsoulCurrentActionIndex + 1 } _ r
        (a + 1) round last first rest hr ha1 hround hlast ((isRoundEndName_iff _).mpr hname) hnext)
    exact ⟨_, hclick, rfl, rfl, rfl, rfl⟩
  · intro hlen
    have hge : h.majsoulCurrentActionIndex + 1 ≥ (round.length : Int) := by omega
    rw [if_pos hge] at hsw
    exact onRecordClick_of_switch_none h "nextStep" i e hsw

/-- C7 as amended, in the scenario of the claim with the cursor at (1, 3). -/
theorem next_step_onto_round_end_witness :
    ∃ h', (recordHandler threeRoundStore 1 3)._onRecordClick "nextStep" 0 0 = .ok h' ∧
      h'.majsoulCurrentRoundIndex = ((1 : Nat) : Int) + 1 ∧ h'.majsoulCurrentActionIndex = 0 ∧
      h'.majsoulCurrentRecordActionsList =
        (recordHandler threeRoundStore 1 3).majsoulCurrentRecordActionsList ∧
      h'.startedTasks = (recordHandler threeRoundStore 1 3).startedTasks ++
        [{ cache := getCurrentAnalysisCache (recordHandler threeRoundStore 1 3).analysisCache,
           actions := act "RecordNewRound" 20 :: (fiveActionRound 2).tail }] :=
  (next_step_onto_round_end (recordHandler threeRoundStore 1 3) 0 0 1 3 (fiveActionRound 1)
    (fiveActionRound 2).tail (act "RecordHule" 14) (act "RecordNewRound" 20) rfl rfl rfl).1
    rfl rfl (by decide) rfl

/-! ## C8: nextStep and update -/

/-- C8. For a handler with cursor (r, a) in round `round`: if a+1 is not
below the round's length, `nextStep` and `update` return the handler unchanged
(nothing applied, no task started); otherwise the switch sets the action index
to a+1 and changes nothing else, exactly the action at (r, a+1) is then
applied, and the rest of the command is the round-end step on that action. -/
theorem next_step_effect (h : mjHandler) (c : String) (i e : Int) (r a : Nat)
    (round : majsoulRoundActions) (hc : c = "nextStep" ∨ c = "update")
    (hr : h.majsoulCurrentRoundIndex = (r : Int)) (ha : h.majsoulCurrentActionIndex = (a : Int))
    (hround : h.actionsList[r]? = some round) :
    (a + 1 ≥ round.length → h._onRecordClick c i e = .ok h) ∧
    (∀ action, round[a + 1]? = some action →
      h.clickSwitch (getCurrentAnalysisCache h.analysisCache) c i e =
        .ok (some { h with majsoulCurrentActionIndex := (a : Int) + 1 }) ∧
      mjHandler.clickApply { h with majsoulCurrentActionIndex := (a : Int) + 1 } =
        .ok (mjHandler._analysisMajsoulRoundData
              { h with majsoulCurrentActionIndex := (a : Int) + 1 } action.Action "", action) ∧
      h._onRecordClick c i e =
        mjHandler.clickAdvance
          (mjHandler._analysisMajsoulRoundData
            { h with majsoulCurrentActionIndex := (a : Int) + 1 } action.Action "")
          (getCurrentAnalysisCache h.analysisCache) action ∧
      (¬ RoundEndName action.Name →
        h._onRecordClick c i e =
          .ok (mjHandler._analysisMajsoulRoundData
                { h with majsoulCurrentActionIndex := (a : Int) + 1 } action.Action ""))) := by
  have hsw := clickSwitch_step h (getCurrentAnalysisCache h.analysisCache) c i e r round hc hr hround
  constructor
  · intro hlen
    have hge : h.majsoulCurrentActionIndex + 1 ≥ (round.length : Int) := by omega
    rw [if_pos hge] at hsw
    exact onRecordClick_of_switch_none h c i e hsw
  · intro action hact
    have hlen : a + 1 < round.length := by
      rcases Nat.lt_or_ge (a + 1) round.length with hlt' | hge
      · exact hlt'
      · rw [List.getElem?_eq_none hge] at hact; cases hact
    have hlt : ¬ (h.majsoulCurrentActionIndex + 1 ≥ (round.length : Int)) := by omega
    rw [if_neg hlt, ha] at hsw
    have hidx : goIndex (h.majsoulCurrentRecordActionsList.getD []) (r : Int) = .ok round :=
      goIndex_ok _ _ _ hround
    have hact2 : goIndex round ((a : Int) + 1) = .ok action := by
      have := goIndex_ok _ _ _ hact
      simpa using this
    have happly : mjHandler.clickApply { h with majsoulCurrentActionIndex := (a : Int) + 1 } =
        .ok (mjHandler._analysisMajsoulRoundData
              { h with majsoulCurrentActionIndex := (a : Int) + 1 } action.Action "", action) := by
      simp only [mjHandler.clickApply, mjHandler.actionsList, hr, hidx, hact2, bind, Except.bind,
        pure, Except.pure]
    have hclick : h._onRecordClick c i e =
        mjHandler.clickAdvance
          (mjHandler._analysisMajsoulRoundData
            { h with majsoulCurrentActionIndex := (a : Int) + 1 } action.Action "")
          (getCurrentAnalysisCache h.analysisCache) action := by
      rw [onRecordClick_of_switch_some h _ c i e hsw]
      simp only [mjHandler.clickLand, happly, bind, Except.bind]
    refine ⟨hsw, happly, hclick, fun hname => ?_⟩
    rw [hclick]
    simp [mjHandler.clickAdvance, (isRoundEndName_false_iff _).mpr hname, pure, Except.pure]

/-- C8 at concrete inputs: `update` from (0, 1) applies the action at (0, 2);
the handler of the same store at (0, 4) is left unchanged. -/
theorem next_step_effect_witness :
    (recordHandler threeRoundStore 0 1)._onRecordClick "update" 0 0 =
      .ok (mjHandler._analysisMajsoulRoundData
        { recordHandler threeRoundStore 0 1 with majsoulCurrentActionIndex := ((1 : Nat) : Int) + 1 }
        (act "RecordDiscardTile" 2).Action "") ∧
    (recordHandler threeRoundStore 0 4)._onRecordClick "update" 0 0 =
      .ok (recordHandler threeRoundStore 0 4) :=
  ⟨((next_step_effect (recordHandler threeRoundStore 0 1) "update" 0 0 0 1 (fiveActionRound 0)
      (Or.inr rfl) rfl rfl rfl).2 (act "RecordDiscardTile" 2) rfl).2.2.2 (by decide),
   (next_step_effect (recordHandler threeRoundStore 0 4) "update" 0 0 0 4 (fiveActionRound 0)
      (Or.inr rfl) rfl rfl rfl).1 (by decide)⟩

/-! ## C9: jumpRound -/

/-- C9 fails as stated: with three rounds, `jumpRound` with index argument
-1 computes the Go remainder `-1 % 3 = -1`, not `2`, and the read of round -1
is out of range. -/
theorem jump_round_negative_counterexample :
    (recordHandler threeRoundStore 0 0).CursorValid ∧
    Int.tmod (-1) (threeRoundStore.length : Int) = -1 ∧
    (-1 : Int) % (threeRoundStore.length : Int) = 2 ∧
    (recordHandler threeRoundStore 0 0)._onRecordClick "jumpRound" (-1) 0 =
      .error GoPanic.indexOutOfRange ∧
    ¬ (∀ (h : mjHandler) (i : Int), 0 < h.actionsList.length →
        ∃ h1, h.clickSwitch (getCurrentAnalysisCache h.analysisCache) "jumpRound" i 0 = .ok (some h1) ∧
          h1.majsoulCurrentRoundIndex = i % (h.actionsList.length : Int)) := by
  refine ⟨by decide, by decide, by decide, rfl, fun H => ?_⟩
  obtain ⟨h1, heq, -⟩ := H (recordHandler threeRoundStore 0 0) (-1) (by decide)
  have hp : (recordHandler threeRoundStore 0 0).clickSwitch
      (getCurrentAnalysisCache (recordHandler threeRoundStore 0 0).analysisCache) "jumpRound" (-1) 0 =
      .error GoPanic.indexOutOfRange := rfl
  rw [hp] at heq
  cases heq

/-- C9 as amended: for every store with R >= 1 rounds and every index
argument i whose Go remainder `i % R` is not negative (every i >= 0 and every
negative multiple of R), `jumpRound` sets the round index to i mod R, a value
with 0 <= round index < R, sets the action index to 0 and starts one analysis
task on that round's action list, changing nothing else; when that round's
first action is not a round-end action the command then applies it and
returns with this cursor. -/
theorem jump_round_effect (h : mjHandler) (i e : Int) (hR : 0 < h.actionsList.length)
    (h0 : 0 ≤ Int.tmod i h.actionsList.length) :
    ∃ (k : Nat) (round : majsoulRoundActions),
      (k : Int) = i % (h.actionsList.length : Int) ∧ k < h.actionsList.length ∧
      h.actionsList[k]? = some round ∧
      h.clickSwitch (getCurrentAnalysisCache h.analysisCache) "jumpRound" i e =
        .ok (some { h with majsoulCurrentRoundIndex := (k : Int), majsoulCurrentActionIndex := 0,
                           startedTasks := h.startedTasks ++
                             [{ cache := getCurrentAnalysisCache h.analysisCache, actions := round }] }) ∧
      (∀ (first : majsoulRecordAction) (rest : majsoulRoundActions), round = first :: rest →
        ¬ RoundEndName first.Name →
        ∃ h', h._onRecordClick "jumpRound" i e = .ok h' ∧
          h'.majsoulCurrentRoundIndex = (k : Int) ∧ h'.majsoulCurrentActionIndex = 0 ∧
          h'.startedTasks = h.startedTasks ++
            [{ cache := getCurrentAnalysisCache h.analysisCache, actions := round }]) := by
  have hlt : Int.tmod i h.actionsList.length < h.actionsList.length :=
    Int.tmod_lt_of_pos i (by omega)
  have hk : Int.tmod i h.actionsList.length =
      (((Int.tmod i h.actionsList.length).toNat : Nat) : Int) := by omega
  have hklt : (Int.tmod i h.actionsList.length).toNat < h.actionsList.length := by omega
  have hkr := getElem?_of_lt_actionsList h _ hklt
  have hsw := clickSwitch_jumpRound h (getCurrentAnalysisCache h.analysisCache) i e _ _ (by omega) hk hkr
  refine ⟨_, _, ?_, hklt, hkr, hsw, ?_⟩
  · rw [← hk]; exact tmod_eq_emod_of_nonneg i _ hR h0
  · intro first rest hround hplain
    rw [hround] at hkr
    have hland := round_land_plain h (getCurrentAnalysisCache h.analysisCache) _ first rest hkr hplain
    rw [← hround] at hland
    exact ⟨_, (onRecordClick_of_switch_some h _ "jumpRound" i e hsw).trans hland, rfl, rfl, rfl⟩

/-- C9 as amended, at index argument 5 on three rounds: round index 2. -/
theorem jump_round_effect_witness :
    ∃ (k : Nat) (round : majsoulRoundActions),
      (k : Int) = 5 % ((recordHandler threeRoundStore 0 0).actionsList.length : Int) ∧
      k < (recordHandler threeRoundStore 0 0).actionsList.length ∧
      (recordHandler threeRoundStore 0 0).actionsList[k]? = some round ∧
      (recordHandler threeRoundStore 0 0).clickSwitch
          (getCurrentAnalysisCache (recordHandler threeRoundStore 0 0).analysisCache) "jumpRound" 5 0 =
        .ok (some { recordHandler threeRoundStore 0 0 with
                      majsoulCurrentRoundIndex := (k : Int), majsoulCurrentActionIndex := 0,
                      startedTasks := (recordHandler threeRoundStore 0 0).startedTasks ++
                        [{ cache := getCurrentAnalysisCache
                                      (recordHandler threeRoundStore 0 0).analysisCache,
                           actions := round }] }) ∧
      (∀ (first : majsoulRecordAction) (rest : majsoulRoundActions), round = first :: rest →
        ¬ RoundEndName first.Name →
        ∃ h', (recordHandler threeRoundStore 0 0)._onRecordClick "jumpRound" 5 0 = .ok h' ∧
          h'.majsoulCurrentRoundIndex = (k : Int) ∧ h'.majsoulCurrentActionIndex = 0 ∧
          h'.startedTasks = (recordHandler threeRoundStore 0 0).startedTasks ++
            [{ cache := getCurrentAnalysisCache (recordHandler threeRoundStore 0 0).analysisCache,
               actions := round }]) :=
  jump_round_effect (recordHandler threeRoundStore 0 0) 5 0 (by decide) (by decide)

/-! ## C10: the first record-action batch -/

/-- C10. When a payload is dispatched as a record-action batch while the store
is not loaded, the current record identity is non-empty and in the match
catalog, the active account is not -1, the viewing seat resolves and the batch
parses to rounds with a non-empty round 0, the handler afterwards has the
parsed rounds as store, cursor (0, 0), game mode record and the resolved seat;
exactly one analysis task was started, with the cache entry for (current
record identity, resolved seat) on round 0's actions, and exactly one payload
was applied, round 0's action 0. -/
theorem first_record_batch (env : Env) (h : mjHandler) (d : majsoulMessage) (originJSON : String)
    (baseInfo : majsoulRecordBaseInfo) (selfSeat : Int) (first : majsoulRecordAction)
    (rest : majsoulRoundActions) (rounds : List majsoulRoundActions)
    (hkind : classify d = EventKind.RecordActionBatch)
    (hstore : h.majsoulCurrentRecordActionsList = none)
    (huuid : h.majsoulCurrentRecordUUID ≠ "")
    (hmap : mapGet h.majsoulRecordMap h.majsoulCurrentRecordUUID = some baseInfo)
    (hacc : h.gameConf.currentActiveMajsoulAccountID ≠ -1)
    (hseat : env.getSelfSeat baseInfo h.gameConf.currentActiveMajsoulAccountID = .ok selfSeat)
    (hparse : env.parseMajsoulRecordAction d.RecordActions = .ok ((first :: rest) :: rounds)) :
    ∃ h', h.handleMessage env d originJSON = .ok h' ∧
      h'.majsoulCurrentRecordActionsList = some ((first :: rest) :: rounds) ∧
      h'.majsoulCurrentRoundIndex = 0 ∧ h'.majsoulCurrentActionIndex = 0 ∧
      h'.majsoulRoundData.gameMode = gameMode.gameModeRecord ∧
      h'.majsoulRoundData.selfSeat = selfSeat ∧
      h'.startedTasks = h.startedTasks ++
        [{ cache := some (newGameAnalysisCache h.majsoulCurrentRecordUUID selfSeat),
           actions := first :: rest }] ∧
      h'.majsoulRoundData.analysisCalls = h.majsoulRoundData.analysisCalls ++
        [{ msg := first.Action, originJSON := originJSON,
           skipOutput := h.majsoulRoundData.skipOutput }] := by
  have hidx : goIndex ((first :: rest) :: rounds) 0 = .ok (first :: rest) := by simp [goIndex]
  have hidx0 : goIndex (first :: rest) 0 = .ok first := by simp [goIndex]
  simp only [mjHandler.handleMessage, hkind, mjHandler.onRecordActions, hstore, huuid, hmap, hacc,
    hseat, hparse, mjHandler.actionsList, Option.getD, hidx, hidx0, Option.isSome, if_false,
    bind, Except.bind, pure, Except.pure]
  refine ⟨_, rfl, ?_⟩
  simp [mjHandler._analysisMajsoulRoundData, majsoulRoundData.analysis, mjHandler.goRunTask,
    majsoulRoundData.newGame]

/-- C10 at a concrete input: record "R1" is in the catalog, account 42 is at
seat 1, and the batch of three actions parses to one round. -/
theorem first_record_batch_witness :
    ∃ h', viewingHandler.handleMessage sampleEnv recordBatchMessage "raw" = .ok h' ∧
      h'.majsoulCurrentRecordActionsList =
        some ((act "RecordNewRound" 0 :: [act "RecordDealTile" 1, act "RecordDiscardTile" 2]) :: []) ∧
      h'.majsoulCurrentRoundIndex = 0 ∧ h'.majsoulCurrentActionIndex = 0 ∧
      h'.majsoulRoundData.gameMode = gameMode.gameModeRecord ∧
      h'.majsoulRoundData.selfSeat = 1 ∧
      h'.startedTasks = viewingHandler.startedTasks ++
        [{ cache := some (newGameAnalysisCache viewingHandler.majsoulCurrentRecordUUID 1),
           actions := act "RecordNewRound" 0 :: [act "RecordDealTile" 1, act "RecordDiscardTile" 2] }] ∧
      h'.majsoulRoundData.analysisCalls = viewingHandler.majsoulRoundData.analysisCalls ++
        [{ msg := (act "RecordNewRound" 0).Action, originJSON := "raw",
           skipOutput := viewingHandler.majsoulRoundData.skipOutput }] :=
  first_record_batch sampleEnv viewingHandler recordBatchMessage "raw"
    { UUID := "R1", isGuyiMode := false, other := 0 } 1 (act "RecordNewRound" 0)
    [act "RecordDealTile" 1, act "RecordDiscardTile" 2] []
    (by decide) rfl (by decide) rfl (by decide) rfl rfl

/-! ## C11: viewing a record that is not in the catalog -/

/-- C11 fails as stated: a payload that begins the viewing of "R9", which has
no catalog entry, resets the loaded store to not-loaded and makes the
payload's account the active one. -/
theorem begin_viewing_unknown_counterexample :
    classify (beginViewingMessage "R9" 7) = EventKind.BeginViewingRecord ∧
    mapGet (recordHandler threeRoundStore 1 2).majsoulRecordMap "R9" = none ∧
    (recordHandler threeRoundStore 1 2).majsoulCurrentRecordActionsList.isSome = true ∧
    (recordHandler threeRoundStore 1 2).gameConf.currentActiveMajsoulAccountID = 42 ∧
    ∃ h', (recordHandler threeRoundStore 1 2).handleMessage sampleEnv (beginViewingMessage "R9" 7) ""
        = .ok h' ∧
      h'.majsoulCurrentRecordActionsList.isSome = false ∧
      h'.gameConf.currentActiveMajsoulAccountID = 7 :=
  ⟨by decide, by decide, by decide, by decide, _, rfl, by decide, by decide⟩

/-- C11 as amended: a payload that begins the viewing of a record whose
identity has no catalog entry leaves the catalog, the current record identity,
the cursor and the round data as they were; the store is reset to not-loaded,
the analysis cache is reset and the payload's account becomes the active
account. -/
theorem begin_viewing_unknown_record (env : Env) (h : mjHandler) (d : majsoulMessage)
    (originJSON : String) (hkind : classify d = EventKind.BeginViewingRecord)
    (hmiss : mapGet h.majsoulRecordMap d.CurrentRecordUUID = none) :
    ∃ h', h.handleMessage env d originJSON = .ok h' ∧
      h' = { h with analysisCache := resetAnalysisCache h.analysisCache,
                    majsoulCurrentRecordActionsList := none,
                    gameConf := h.gameConf.setMajsoulAccountID d.AccountID } ∧
      h'.majsoulRecordMap = h.majsoulRecordMap ∧
      h'.majsoulCurrentRecordUUID = h.majsoulCurrentRecordUUID ∧
      h'.majsoulCurrentRoundIndex = h.majsoulCurrentRoundIndex ∧
      h'.majsoulCurrentActionIndex = h.majsoulCurrentActionIndex ∧
      h'.majsoulRoundData = h.majsoulRoundData ∧
      h'.majsoulCurrentRecordActionsList = none ∧
      h'.gameConf.currentActiveMajsoulAccountID = d.AccountID := by
  refine ⟨_, ?_, rfl, rfl, rfl, rfl, rfl, rfl, rfl, rfl⟩
  simp only [mjHandler.handleMessage, hkind, mjHandler._loadMajsoulRecordBaseInfo, hmiss]
  rfl

/-- C11 as amended, at the payload for "R9". -/
theorem begin_viewing_unknown_record_witness :
    ∃ h', (recordHandler threeRoundStore 1 2).handleMessage sampleEnv (beginViewingMessage "R9" 7) ""
        = .ok h' ∧
      h' = { recordHandler threeRoundStore 1 2 with
               analysisCache := resetAnalysisCache (recordHandler threeRoundStore 1 2).analysisCache,
               majsoulCurrentRecordActionsList := none,
               gameConf := (recordHandler threeRoundStore 1 2).gameConf.setMajsoulAccountID
                 (beginViewingMessage "R9" 7).AccountID } ∧
      h'.majsoulRecordMap = (recordHandler threeRoundStore 1 2).majsoulRecordMap ∧
      h'.majsoulCurrentRecordUUID = (recordHandler threeRoundStore 1 2).majsoulCurrentRecordUUID ∧
      h'.majsoulCurrentRoundIndex = (recordHandler threeRoundStore 1 2).majsoulCurrentRoundIndex ∧
      h'.majsoulCurrentActionIndex = (recordHandler threeRoundStore 1 2).majsoulCurrentActionIndex ∧
      h'.majsoulRoundData = (recordHandler threeRoundStore 1 2).majsoulRoundData ∧
      h'.majsoulCurrentRecordActionsList = none ∧
      h'.gameConf.currentActiveMajsoulAccountID = (beginViewingMessage "R9" 7).AccountID :=
  begin_viewing_unknown_record sampleEnv (recordHandler threeRoundStore 1 2)
    (beginViewingMessage "R9" 7) "" (by decide) (by decide)

/-! ## C12: record-action batches that cannot be resolved -/

/-- C12 fails as stated: when the viewing seat cannot be resolved, the round
data has already been reset by `newGame` and its game mode set to record. -/
theorem unresolved_seat_counterexample :
    classify recordBatchMessage = EventKind.RecordActionBatch ∧
    (∃ e, sampleEnv.getSelfSeat { UUID := "R1", isGuyiMode := false, other := 0 }
      strangerHandler.gameConf.currentActiveMajsoulAccountID = .error e) ∧
    strangerHandler.majsoulRoundData.gameMode = gameMode.gameModeMatch ∧
    strangerHandler.majsoulRoundData.newGameCalls = 0 ∧
    ∃ h', strangerHandler.handleMessage sampleEnv recordBatchMessage "" = .ok h' ∧
      h'.majsoulRoundData.gameMode = gameMode.gameModeRecord ∧
      h'.majsoulRoundData.newGameCalls = 1 :=
  ⟨by decide, ⟨_, rfl⟩, by decide, by decide, _, rfl, by decide, by decide⟩

/-- C12 as amended: a record-action batch that arrives while the current
record identity is empty or absent from the catalog, or while the account is
unset, leaves the whole handler state unchanged; when the viewing seat cannot
be resolved, no analysis task is started, no payload is applied and the
catalog, the store, the cursor, the analysis cache and the seat are unchanged. -/
theorem unresolved_record_batch (env : Env) (h : mjHandler) (d : majsoulMessage)
    (originJSON : String) (hkind : classify d = EventKind.RecordActionBatch) :
    ((h.majsoulCurrentRecordUUID = "" ∨
        mapGet h.majsoulRecordMap h.majsoulCurrentRecordUUID = none ∨
        h.gameConf.currentActiveMajsoulAccountID = -1) →
      h.handleMessage env d originJSON = .ok h) ∧
    (∀ (baseInfo : majsoulRecordBaseInfo) (e : String),
      h.majsoulCurrentRecordActionsList = none → h.majsoulCurrentRecordUUID ≠ "" →
      mapGet h.majsoulRecordMap h.majsoulCurrentRecordUUID = some baseInfo →
      h.gameConf.currentActiveMajsoulAccountID ≠ -1 →
      env.getSelfSeat baseInfo h.gameConf.currentActiveMajsoulAccountID = .error e →
      ∃ h', h.handleMessage env d originJSON = .ok h' ∧
        h' = { h with majsoulRoundData :=
                 { h.majsoulRoundData.newGame with gameMode := gameMode.gameModeRecord } } ∧
        h'.startedTasks = h.startedTasks ∧
        h'.majsoulRoundData.analysisCalls = h.majsoulRoundData.analysisCalls ∧
        h'.majsoulRecordMap = h.majsoulRecordMap ∧
        h'.majsoulCurrentRecordActionsList = h.majsoulCurrentRecordActionsList ∧
        h'.majsoulCurrentRoundIndex = h.majsoulCurrentRoundIndex ∧
        h'.majsoulCurrentActionIndex = h.majsoulCurrentActionIndex ∧
        h'.analysisCache = h.analysisCache ∧
        h'.majsoulRoundData.selfSeat = h.majsoulRoundData.selfSeat) := by
  constructor
  · intro hcase
    simp only [mjHandler.handleMessage, hkind, mjHandler.onRecordActions]
    by_cases hs : h.majsoulCurrentRecordActionsList.isSome = true
    · rw [if_pos hs]; rfl
    · rw [if_neg hs]
      by_cases hu : h.majsoulCurrentRecordUUID = ""
      · rw [if_pos hu]; rfl
      · rw [if_neg hu]
        cases hm : mapGet h.majsoulRecordMap h.majsoulCurrentRecordUUID with
        | none => rfl
        | some baseInfo =>
          have hacc : h.gameConf.currentActiveMajsoulAccountID = -1 := by
            rcases hcase with h1 | h1 | h1
            · exact absurd h1 hu
            · rw [hm] at h1; cases h1
            · exact h1
          simp only [hacc, if_true]
          rfl
  · intro baseInfo e hstore huuid hmap hacc hseat
    refine ⟨_, ?_, rfl, rfl, rfl, rfl, rfl, rfl, rfl, rfl, rfl⟩
    simp only [mjHandler.handleMessage, hkind, mjHandler.onRecordActions, hstore, huuid, hmap, hacc,
      hseat, Option.isSome, if_false]
    rfl

/-- C12 as amended, at a handler without a current record identity and at the
handler whose account has no seat in the record. -/
theorem unresolved_record_batch_witness :
    ({ viewingHandler with majsoulCurrentRecordUUID := "" }).handleMessage sampleEnv
        recordBatchMessage "" = .ok { viewingHandler with majsoulCurrentRecordUUID := "" } ∧
    ∃ h', strangerHandler.handleMessage sampleEnv recordBatchMessage "" = .ok h' ∧
      h' = { strangerHandler with majsoulRoundData :=
               { strangerHandler.majsoulRoundData.newGame with gameMode := gameMode.gameModeRecord } } ∧
      h'.startedTasks = strangerHandler.startedTasks ∧
      h'.majsoulRoundData.analysisCalls = strangerHandler.majsoulRoundData.analysisCalls ∧
      h'.majsoulRecordMap = strangerHandler.majsoulRecordMap ∧
      h'.majsoulCurrentRecordActionsList = strangerHandler.majsoulCurrentRecordActionsList ∧
      h'.majsoulCurrentRoundIndex = strangerHandler.majsoulCurrentRoundIndex ∧
      h'.majsoulCurrentActionIndex = strangerHandler.majsoulCurrentActionIndex ∧
      h'.analysisCache = strangerHandler.analysisCache ∧
      h'.majsoulRoundData.selfSeat = strangerHandler.majsoulRoundData.selfSeat :=
  ⟨(unresolved_record_batch sampleEnv { viewingHandler with majsoulCurrentRecordUUID := "" }
      recordBatchMessage "" (by decide)).1 (Or.inl rfl),
   (unresolved_record_batch sampleEnv strangerHandler recordBatchMessage "" (by decide)).2
      { UUID := "R1", isGuyiMode := false, other := 0 } "no such account"
      rfl (by decide) rfl (by decide) rfl⟩

/-! ## C20: batches after the store is loaded -/

/-- C20. While the store is loaded a record-action batch changes nothing (no
task, no payload); every payload that begins the viewing of a record resets
the store to not-loaded; and after a payload that begins the viewing of a
catalogued record, the next record-action batch is handled as the first one:
it loads the parsed rounds, whatever the store was before. -/
theorem record_batch_ignored_when_loaded (env : Env) (h : mjHandler) (originJSON : String) :
    (∀ d, classify d = EventKind.RecordActionBatch →
      h.majsoulCurrentRecordActionsList.isSome = true →
      h.handleMessage env d originJSON = .ok h) ∧
    (∀ d, classify d = EventKind.BeginViewingRecord →
      ∃ h', h.handleMessage env d originJSON = .ok h' ∧ h'.majsoulCurrentRecordActionsList = none) ∧
    (∀ (d1 d2 : majsoulMessage) (o2 : String) (baseInfo : majsoulRecordBaseInfo) (selfSeat : Int)
        (first : majsoulRecordAction) (rest : majsoulRoundActions) (rounds : List majsoulRoundActions),
      classify d1 = EventKind.BeginViewingRecord → classify d2 = EventKind.RecordActionBatch →
      mapGet h.majsoulRecordMap d1.CurrentRecordUUID = some baseInfo → d1.AccountID ≠ -1 →
      env.getSelfSeat baseInfo d1.AccountID = .ok selfSeat →
      env.parseMajsoulRecordAction d2.RecordActions = .ok ((first :: rest) :: rounds) →
      ∃ h1 h2, h.handleMessage env d1 originJSON = .ok h1 ∧ h1.handleMessage env d2 o2 = .ok h2 ∧
        h2.majsoulCurrentRecordActionsList = some ((first :: rest) :: rounds) ∧
        h2.majsoulCurrentRoundIndex = 0 ∧ h2.majsoulCurrentActionIndex = 0 ∧
        h2.majsoulRoundData.analysisCalls = h.majsoulRoundData.analysisCalls ++
          [{ msg := first.Action, originJSON := o2,
             skipOutput := h.majsoulRoundData.skipOutput }]) := by
  refine ⟨fun d hkind hs => ?_, fun d hkind => ?_, ?_⟩
  · simp only [mjHandler.handleMessage, hkind, mjHandler.onRecordActions, if_pos hs]
    rfl
  · simp only [mjHandler.handleMessage, hkind, mjHandler._loadMajsoulRecordBaseInfo]
    cases mapGet h.majsoulRecordMap d.CurrentRecordUUID with
    | none => exact ⟨_, rfl, rfl⟩
    | some baseInfo =>
      simp only []
      split_ifs
      · exact ⟨_, rfl, rfl⟩
      · exact ⟨_, rfl, rfl⟩
  · intro d1 d2 o2 baseInfo selfSeat first rest rounds hk1 hk2 hmap hacc hseat hparse
    have huuid : d1.CurrentRecordUUID ≠ "" := classify_beginViewing_uuid d1 hk1
    have hfirst : ∃ h1, h.handleMessage env d1 originJSON = .ok h1 ∧
        h1.majsoulCurrentRecordActionsList = none ∧
        h1.majsoulCurrentRecordUUID = d1.CurrentRecordUUID ∧
        h1.majsoulRecordMap = h.majsoulRecordMap ∧
        h1.gameConf.currentActiveMajsoulAccountID = d1.AccountID ∧
        h1.majsoulRoundData = h.majsoulRoundData := by
      simp only [mjHandler.handleMessage, hk1, mjHandler._loadMajsoulRecordBaseInfo, hmap]
      by_cases hcur : (h.gameConf.addMajsoulAccountID d1.AccountID).currentActiveMajsoulAccountID
          = d1.AccountID
      · rw [if_neg (not_not.mpr hcur)]
        exact ⟨_, rfl, rfl, rfl, rfl, hcur, rfl⟩
      · rw [if_pos hcur]
        exact ⟨_, rfl, rfl, rfl, rfl, rfl, rfl⟩
    obtain ⟨h1, hrun1, hst1, hu1, hm1, ha1, hrd1⟩ := hfirst
    obtain ⟨h2, hrun2, hst2, hr2, hai2, hc2⟩ := record_batch_loads env h1 d2 o2 baseInfo selfSeat first
      rest rounds hk2 hst1 (by rw [hu1]; exact huuid) (by rw [hm1, hu1]; exact hmap)
      (by rw [ha1]; exact hacc) (by rw [ha1]; exact hseat) hparse
    refine ⟨h1, h2, hrun1, hrun2, hst2, hr2, hai2, ?_⟩
    rw [hc2, hrd1]

/-- C20 at concrete inputs: a batch is ignored by a handler with a loaded
store, and loads the store after a payload that begins the viewing of "R1". -/
theorem record_batch_ignored_when_loaded_witness :
    ({ viewingHandler with majsoulCurrentRecordActionsList := some threeRoundStore }).handleMessage
        sampleEnv recordBatchMessage "raw" =
      .ok { viewingHandler with majsoulCurrentRecordActionsList := some threeRoundStore } ∧
    ∃ h1 h2,
      ({ viewingHandler with majsoulCurrentRecordActionsList := some threeRoundStore }).handleMessage
        sampleEnv (beginViewingMessage "R1" 42) "raw" = .ok h1 ∧
      h1.handleMessage sampleEnv recordBatchMessage "next" = .ok h2 ∧
      h2.majsoulCurrentRecordActionsList =
        some ((act "RecordNewRound" 0 :: [act "RecordDealTile" 1, act "RecordDiscardTile" 2]) :: []) ∧
      h2.majsoulCurrentRoundIndex = 0 ∧ h2.majsoulCurrentActionIndex = 0 ∧
      h2.majsoulRoundData.analysisCalls =
        ({ viewingHandler with
            majsoulCurrentRecordActionsList := some threeRoundStore }).majsoulRoundData.analysisCalls ++
          [{ msg := (act "RecordNewRound" 0).Action, originJSON := "next",
             skipOutput := ({ viewingHandler with
               majsoulCurrentRecordActionsList := some threeRoundStore }).majsoulRoundData.skipOutput }] :=
  ⟨(record_batch_ignored_when_loaded sampleEnv
      { viewingHandler with majsoulCurrentRecordActionsList := some threeRoundStore } "raw").1
      recordBatchMessage (by decide) rfl,
   (record_batch_ignored_when_loaded sampleEnv
      { viewingHandler with majsoulCurrentRecordActionsList := some threeRoundStore } "raw").2.2
      (beginViewingMessage "R1" 42) recordBatchMessage "next"
      { UUID := "R1", isGuyiMode := false, other := 0 } 1 (act "RecordNewRound" 0)
      [act "RecordDealTile" 1, act "RecordDiscardTile" 2] []
      (by decide) (by decide) rfl (by decide) rfl rfl⟩

/-! ## C13: seat switch in replay mode -/

/-- C13. For a handler that is not in live mode and has a valid cursor (r, a),
a seat-change payload with target seat s sets `selfSeat` to s, starts exactly
one analysis task, bound to the cache entry found for seat s (or created for
(current record identity, s) when there is none) and given the whole action
list of round r, leaves the store and the cursor unchanged, and applies
exactly the actions `store[r][0..a]` in order. -/
theorem seat_change_in_replay (env : Env) (h : mjHandler) (d : majsoulMessage) (originJSON : String)
    (s : Int) (r a : Nat) (round : majsoulRoundActions)
    (hkind : classify d = EventKind.SeatChange) (hseat : d.ChangeSeatTo = some s)
    (hmode : h.majsoulRoundData.gameMode ≠ gameMode.gameModeLive)
    (hr : h.majsoulCurrentRoundIndex = (r : Int)) (ha : h.majsoulCurrentActionIndex = (a : Int))
    (hround : h.actionsList[r]? = some round) (hlt : a < round.length) :
    ∃ h', h.handleMessage env d originJSON = .ok h' ∧
      h'.majsoulRoundData.selfSeat = s ∧
      h'.startedTasks = h.startedTasks ++
        [{ cache := some (match getAnalysisCache h.analysisCache s with
                          | some c => c
                          | none => newGameAnalysisCache h.majsoulCurrentRecordUUID s),
           actions := round }] ∧
      h'.majsoulCurrentRecordActionsList = h.majsoulCurrentRecordActionsList ∧
      h'.majsoulCurrentRoundIndex = h.majsoulCurrentRoundIndex ∧
      h'.majsoulCurrentActionIndex = h.majsoulCurrentActionIndex ∧
      h'.appliedPayloads = h.appliedPayloads ++ (round.take (a + 1)).map (fun x => x.Action) := by
  have hidx : goIndex (h.majsoulCurrentRecordActionsList.getD []) h.majsoulCurrentRoundIndex =
      .ok round := by
    rw [hr]; exact goIndex_ok _ _ _ hround
  have hsl : goSlice round 0 (h.majsoulCurrentActionIndex + 1) = .ok (round.take (a + 1)) := by
    have := goSlice_ok round 0 (a + 1) (Nat.zero_le _) (by omega)
    rw [ha]
    simpa using this
  simp only [mjHandler.handleMessage, hkind, hseat, mjHandler.onChangeSeat, if_neg hmode,
    mjHandler.actionsList, hidx, hsl, bind, Except.bind, pure, Except.pure]
  refine ⟨_, rfl, ?_⟩
  obtain ⟨rd, hrd, hs, -, -, -, -, -⟩ := fastLoadActions_frame
    (mjHandler.goRunTask
      { h with
          majsoulRoundData := { h.majsoulRoundData with selfSeat := s },
          analysisCache := setAnalysisCache h.analysisCache
            (match getAnalysisCache h.analysisCache s with
             | some c => c
             | none => newGameAnalysisCache h.majsoulCurrentRecordUUID s) }
      (some (match getAnalysisCache h.analysisCache s with
             | some c => c
             | none => newGameAnalysisCache h.majsoulCurrentRecordUUID s))
      round)
    (round.take (a + 1))
  refine ⟨?_, ?_, ?_, ?_, ?_, ?_⟩
  · exact (congrArg (fun x => x.majsoulRoundData.selfSeat) hrd).trans hs
  · exact congrArg (fun x => x.startedTasks) hrd
  · exact congrArg (fun x => x.majsoulCurrentRecordActionsList) hrd
  · exact congrArg (fun x => x.majsoulCurrentRoundIndex) hrd
  · exact congrArg (fun x => x.majsoulCurrentActionIndex) hrd
  · exact fastLoadActions_payloads _ _

/-- C13 at a concrete input: a switch to seat 3 at the cursor (1, 2) of the
three-round store. -/
theorem seat_change_in_replay_witness :
    ∃ h', (recordHandler threeRoundStore 1 2).handleMessage sampleEnv (seatChangeMessage 3) "" = .ok h' ∧
      h'.majsoulRoundData.selfSeat = 3 ∧
      h'.startedTasks = (recordHandler threeRoundStore 1 2).startedTasks ++
        [{ cache := some (match getAnalysisCache (recordHandler threeRoundStore 1 2).analysisCache 3 with
                          | some c => c
                          | none => newGameAnalysisCache
                              (recordHandler threeRoundStore 1 2).majsoulCurrentRecordUUID 3),
           actions := fiveActionRound 1 }] ∧
      h'.majsoulCurrentRecordActionsList =
        (recordHandler threeRoundStore 1 2).majsoulCurrentRecordActionsList ∧
      h'.majsoulCurrentRoundIndex = (recordHandler threeRoundStore 1 2).majsoulCurrentRoundIndex ∧
      h'.majsoulCurrentActionIndex = (recordHandler threeRoundStore 1 2).majsoulCurrentActionIndex ∧
      h'.appliedPayloads = (recordHandler threeRoundStore 1 2).appliedPayloads ++
        ((fiveActionRound 1).take (2 + 1)).map (fun x => x.Action) :=
  seat_change_in_replay sampleEnv (recordHandler threeRoundStore 1 2) (seatChangeMessage 3) "" 3 1 2
    (fiveActionRound 1) (by decide) rfl (by decide) rfl rfl rfl (by decide)

/-! ## C15: sync action batches -/

/-- C15 fails as stated: a sync batch of one action is applied with
`skipOutput = false`, and of a batch of five the last three are. -/
theorem sync_batch_always_suppressed_counterexample :
    classify (syncMessage [act "RecordDealTile" 1]) = EventKind.SyncActionBatch ∧
    (∃ h', (recordHandler [] 0 0).handleMessage sampleEnv (syncMessage [act "RecordDealTile" 1]) ""
        = .ok h' ∧ h'.skipFlags = [false]) ∧
    (∃ h', (recordHandler [] 0 0).handleMessage sampleEnv (syncMessage (fiveActionRound 7)) ""
        = .ok h' ∧ h'.skipFlags = [true, true, false, false, false]) :=
  ⟨by decide, ⟨_, rfl, by decide⟩, ⟨_, rfl, by decide⟩⟩

/-- C15 as amended: for every non-empty sync batch of n actions, every action
of the batch is applied exactly once, in order; the first max(0, n-3)
applications are made with `skipOutput = true` and the final min(n, 3) with
`skipOutput = false`, as `_fastLoadActions` does for every list. -/
theorem sync_batch_fast_loaded (env : Env) (h : mjHandler) (d : majsoulMessage) (originJSON : String)
    (hkind : classify d = EventKind.SyncActionBatch) :
    h.handleMessage env d originJSON = .ok (h._fastLoadActions d.SyncGameActions) ∧
    (h._fastLoadActions d.SyncGameActions).appliedPayloads =
      h.appliedPayloads ++ d.SyncGameActions.map (fun a => a.Action) ∧
    (h._fastLoadActions d.SyncGameActions).skipFlags =
      h.skipFlags ++ List.replicate (d.SyncGameActions.length - 3) true ++
        List.replicate (min d.SyncGameActions.length 3) false := by
  refine ⟨?_, fastLoadActions_payloads _ _, ?_⟩
  · simp only [mjHandler.handleMessage, hkind]; rfl
  · rw [skipFlags_eq, skipFlags_eq, fastLoadActions_calls, fastRecordEnd_eq]
    simp only [List.map_append, List.map_map]
    congr 1
    · congr 1
      rw [List.eq_replicate_iff]
      refine ⟨by simp only [List.length_map, List.length_take]; omega, ?_⟩
      intro b hb
      simp only [List.mem_map] at hb
      obtain ⟨x, _, rfl⟩ := hb
      rfl
    · rw [List.eq_replicate_iff]
      refine ⟨by simp only [List.length_map, List.length_drop]; omega, ?_⟩
      intro b hb
      simp only [List.mem_map] at hb
      obtain ⟨x, _, rfl⟩ := hb
      rfl

/-- C15 as amended, at a sync batch of five actions. -/
theorem sync_batch_fast_loaded_witness :
    (recordHandler [] 0 0).handleMessage sampleEnv (syncMessage (fiveActionRound 7)) "" =
      .ok ((recordHandler [] 0 0)._fastLoadActions (syncMessage (fiveActionRound 7)).SyncGameActions) ∧
    ((recordHandler [] 0 0)._fastLoadActions (syncMessage (fiveActionRound 7)).SyncGameActions).skipFlags =
      (recordHandler [] 0 0).skipFlags ++
        List.replicate ((syncMessage (fiveActionRound 7)).SyncGameActions.length - 3) true ++
        List.replicate (min (syncMessage (fiveActionRound 7)).SyncGameActions.length 3) false :=
  ⟨(sync_batch_fast_loaded sampleEnv (recordHandler [] 0 0) (syncMessage (fiveActionRound 7)) ""
      (by decide)).1,
   (sync_batch_fast_loaded sampleEnv (recordHandler [] 0 0) (syncMessage (fiveActionRound 7)) ""
      (by decide)).2.2⟩

/-! ## C18: `_fastLoadActions` -/

/-- C18. For every action list of length n, `_fastLoadActions` applies every
action exactly once in list order; the first max(0, n-3) applications are made
with `skipOutput = true` and the final min(n, 3) with `skipOutput = false`; for
n >= 1 the last application is unsuppressed and `skipOutput` is false on
return; for n = 0 the handler is returned as it was. -/
theorem fast_load_actions_effect (h : mjHandler) (actions : List majsoulRecordAction) :
    (h._fastLoadActions actions).appliedPayloads =
      h.appliedPayloads ++ actions.map (fun a => a.Action) ∧
    (h._fastLoadActions actions).majsoulRoundData.analysisCalls =
      h.majsoulRoundData.analysisCalls ++
        (actions.take (actions.length - 3)).map (appliedWith true) ++
        (actions.drop (actions.length - 3)).map (appliedWith false) ∧
    (actions.take (actions.length - 3)).length = max 0 (actions.length - 3) ∧
    (actions.drop (actions.length - 3)).length = min actions.length 3 ∧
    (1 ≤ actions.length →
      (h._fastLoadActions actions).majsoulRoundData.skipOutput = false ∧
      ∃ c, (h._fastLoadActions actions).majsoulRoundData.analysisCalls.getLast? = some c ∧
        c.skipOutput = false) ∧
    (actions.length = 0 → h._fastLoadActions actions = h) := by
  have hcalls := fastLoadActions_calls h actions
  rw [fastRecordEnd_eq] at hcalls
  refine ⟨fastLoadActions_payloads h actions, hcalls, ?_, ?_, ?_, ?_⟩
  · simp only [List.length_take]; omega
  · simp only [List.length_drop]; omega
  · intro hn
    have hne : actions ≠ [] := by
      intro hnil; rw [hnil] at hn; simp at hn
    obtain ⟨rd, hrd, -, -, -, -, hskip, -⟩ := fastLoadActions_frame h actions
    refine ⟨?_, ?_⟩
    · rw [hrd]; exact hskip hne
    · have hdrop : actions.drop (actions.length - 3) ≠ [] := by
        intro hnil
        have := congrArg List.length hnil
        simp only [List.length_drop, List.length_nil] at this
        omega
      have hmap : (actions.drop (actions.length - 3)).map (appliedWith false) ≠ [] := by
        simpa using hdrop
      refine ⟨((actions.drop (actions.length - 3)).map (appliedWith false)).getLast hmap, ?_, ?_⟩
      · rw [hcalls, List.getLast?_append_of_ne_nil _ hmap, List.getLast?_eq_getLast _ hmap]
      · have hmem := List.getLast_mem hmap
        simp only [List.mem_map] at hmem
        obtain ⟨x, _, hx⟩ := hmem
        rw [← hx]; rfl
  · intro hn
    simp only [mjHandler._fastLoadActions, if_pos hn]

/-- C18 at a concrete input: a list of five actions. -/
theorem fast_load_actions_effect_witness :
    ((recordHandler [] 0 0)._fastLoadActions (fiveActionRound 7)).majsoulRoundData.skipOutput = false ∧
    ∃ c, ((recordHandler [] 0 0)._fastLoadActions
        (fiveActionRound 7)).majsoulRoundData.analysisCalls.getLast? = some c ∧
      c.skipOutput = false :=
  (fast_load_actions_effect (recordHandler [] 0 0) (fiveActionRound 7)).2.2.2.2.1 (by decide)

/-! ## C14: a panic in the processing loop -/

/-- C14 at its failing input, outside debug mode, on a store of three rounds
with the cursor at (0, 0).  With `jumpRound -1` followed by `nextStep` in the
queue, the handling of the first message stores round index -1 and action
index 0 (lines 393-394) and panics at the read of the round (line 395); the
function deferred outside the `for` recovers the panic and the method
returns: one message is consumed, the `nextStep` after it stays unread in the
queue, and the handler keeps the cursor (-1, 0).  The `nextStep` on its own is
handled without a panic.  With an undecodable message and a `nextStep` before
the `jumpRound -1`, these two are consumed first, and the handler at the panic
has the payload of the first `nextStep` applied and the cursor (-1, 0).  The
tenhou loop ends in the same way: when `analysis` panics on the first of two
messages, the second stays unread. -/
theorem panic_ends_loop :
    (recordHandler threeRoundStore 0 0).CursorValid ∧
    (∃ h', (recordHandler threeRoundStore 0 0).handleMessage sampleEnv
        (clickMessage "nextStep" 0 0) "" = .ok h' ∧ h'.majsoulCurrentActionIndex = 1) ∧
    (recordHandler threeRoundStore 0 0).runAnalysisMajsoulMessageTask sampleEnv false panicQueue =
      { handler := { recordHandler threeRoundStore 0 0 with
                       majsoulCurrentRoundIndex := -1, majsoulCurrentActionIndex := 0 },
        unread := [queued (clickMessage "nextStep" 0 0)],
        consumed := 1,
        ending := loopEnd.recovered GoPanic.indexOutOfRange } ∧
    (recordHandler threeRoundStore 0 0).runAnalysisMajsoulMessageTask sampleEnv false
        mixedPanicQueue =
      { handler := { mjHandler._analysisMajsoulRoundData (recordHandler threeRoundStore 0 0)
                       (act "RecordDealTile" 1).Action "" with
                       majsoulCurrentRoundIndex := -1, majsoulCurrentActionIndex := 0 },
        unread := [queued (clickMessage "nextStep" 0 0)],
        consumed := 3,
        ending := loopEnd.recovered GoPanic.indexOutOfRange } ∧
    runAnalysisTenhouMessageTask (analysisPanicsOn 13) false freshTenhouRoundData tenhouQueue =
      { roundData := { msg := some 13, originJSON := "first", analysisCalls := [(13, "first")] },
        unread := [{ decoded := some 14, raw := "second" }],
        consumed := 1,
        ending := loopEnd.recovered GoPanic.indexOutOfRange } :=
  ⟨by decide, ⟨_, rfl, by decide⟩, rfl, rfl, rfl⟩

/-! ## C17: catalog monotonicity -/

/-- C17. A payload that upserts a match identity (a record catalog that lists
it, or a shared-record pointer to it) is handled without a panic and leaves
the identity in the catalog; after every sequence of later messages the
identity is still in the catalog and `_loadMajsoulRecordBaseInfo` on it does
not return the not-found error; and no handled message removes a catalog key. -/
theorem catalog_monotone (env : Env) (debugMode : Bool) (h : mjHandler) :
    (∀ (d : majsoulMessage) (originJSON uuid : String), upserts d uuid →
      ∃ h1, h.handleMessage env d originJSON = .ok h1 ∧ h1.inCatalog uuid ∧
        ∀ queue : List queuedMessage,
          (h1.runAnalysisMajsoulMessageTask env debugMode queue).handler.inCatalog uuid ∧
          ((h1.runAnalysisMajsoulMessageTask env debugMode
              queue).handler._loadMajsoulRecordBaseInfo uuid).isSome = true) ∧
    (∀ (d : majsoulMessage) (originJSON uuid : String) (h' : mjHandler),
      h.handleMessage env d originJSON = .ok h' → h.inCatalog uuid → h'.inCatalog uuid) := by
  have hload : ∀ (g : mjHandler) (uuid : String), g.inCatalog uuid →
      (g._loadMajsoulRecordBaseInfo uuid).isSome = true := by
    intro g uuid hin
    unfold mjHandler.inCatalog at hin
    unfold mjHandler._loadMajsoulRecordBaseInfo
    cases hm : mapGet g.majsoulRecordMap uuid with
    | none => rw [hm] at hin; cases hin
    | some b => rfl
  have hafter : ∀ (h1 : mjHandler) (uuid : String), h1.inCatalog uuid →
      ∀ queue : List queuedMessage,
        (h1.runAnalysisMajsoulMessageTask env debugMode queue).handler.inCatalog uuid ∧
        ((h1.runAnalysisMajsoulMessageTask env debugMode
            queue).handler._loadMajsoulRecordBaseInfo uuid).isSome = true := by
    intro h1 uuid hin queue
    have := loop_inCatalog env debugMode uuid queue h1 hin
    exact ⟨this, hload _ _ this⟩
  refine ⟨?_, fun d o uuid h' hres hin => handleMessage_inCatalog env h h' d o uuid hres hin⟩
  intro d o uuid hup
  rcases hup with ⟨hk, record, hmem, hid⟩ | ⟨hk, record, hsh, hid⟩
  · have hin : mjHandler.inCatalog
        { h with majsoulRecordMap :=
            (d.RecordBaseInfoList.foldl (fun m record => mapSet m record.UUID record)
              h.majsoulRecordMap) } uuid := by
      unfold mjHandler.inCatalog
      simp only [mapGet_foldl_mapSet]
      cases hfind : List.find? (fun r => r.UUID == uuid) d.RecordBaseInfoList.reverse with
      | none =>
        have := List.find?_eq_none.mp hfind record (by simpa using hmem)
        simp [hid] at this
      | some stored => rfl
    refine ⟨_, ?_, hin, hafter _ uuid hin⟩
    simp only [mjHandler.handleMessage, hk]
    rfl
  · have hin1 : mjHandler.inCatalog
        { h with majsoulRecordMap := mapSet h.majsoulRecordMap record.UUID record } uuid := by
      unfold mjHandler.inCatalog
      simp only [mapGet_mapSet, hid, if_true]
      rfl
    have hget : mapGet (mapSet h.majsoulRecordMap record.UUID record) record.UUID = some record := by
      rw [mapGet_mapSet, if_pos rfl]
    have hin2 : mjHandler.inCatalog
        { h with majsoulRecordMap := mapSet h.majsoulRecordMap record.UUID record,
                 majsoulCurrentRecordUUID := record.UUID,
                 considerOldYaku := record.isGuyiMode } uuid := hin1
    refine ⟨_, ?_, hin2, hafter _ uuid hin2⟩
    simp only [mjHandler.handleMessage, hk, hsh, mjHandler._loadMajsoulRecordBaseInfo, hget]
    rfl

/-- C17 at a concrete input: a catalog that lists "R7" is handled, and "R7"
is still in the catalog after a queue that ends in a panic. -/
theorem catalog_monotone_witness :
    ∃ h1, (recordHandler threeRoundStore 0 0).handleMessage sampleEnv
        (catalogMessage [{ UUID := "R7", isGuyiMode := false, other := 0 }]) "" = .ok h1 ∧
      h1.inCatalog "R7" ∧
      ∀ queue : List queuedMessage,
        (h1.runAnalysisMajsoulMessageTask sampleEnv false queue).handler.inCatalog "R7" ∧
        ((h1.runAnalysisMajsoulMessageTask sampleEnv false
            queue).handler._loadMajsoulRecordBaseInfo "R7").isSome = true :=
  (catalog_monotone sampleEnv false (recordHandler threeRoundStore 0 0)).1
    (catalogMessage [{ UUID := "R7", isGuyiMode := false, other := 0 }]) "" "R7"
    (Or.inl ⟨by decide, { UUID := "R7", isGuyiMode := false, other := 0 }, by decide, rfl⟩)

/-! ## C16: the cursor and the last applied action -/

/-- C16 fails as stated: `nextStep` from (2, 3) of the three-round store lands
on the win that ends the last round; the cursor is wrapped to (0, 0) and
nothing more is applied, so the payload applied last is that of the action at
(2, 4), not that of the action at the cursor. -/
theorem cursor_points_at_last_applied_counterexample :
    (recordHandler threeRoundStore 2 3).CursorValid ∧
    ∃ h', (recordHandler threeRoundStore 2 3)._onRecordClick "nextStep" 0 0 = .ok h' ∧
      h'.majsoulCurrentRoundIndex = 0 ∧ h'.majsoulCurrentActionIndex = 0 ∧
      h'.lastApplied.map (fun m => m.Other) = some 24 ∧
      h'.cursorAction.map (fun x => x.Action.Other) = some 0 ∧
      h'.lastApplied ≠ h'.cursorAction.map (fun x => x.Action) := by
  refine ⟨by decide, _, rfl, rfl, rfl, by decide, by decide, fun heq => ?_⟩
  have h2 := congrArg (fun o : Option majsoulMessage => o.map (fun m => m.Other)) heq
  revert h2
  decide

/-- C16 as amended: after the first record-action batch, and after every
navigation command issued at a valid cursor with arguments in range, either
nothing was applied and the handler is unchanged, or the payload applied last
is that of the action stored at the resulting cursor, or the command landed on
a round-end action of the last round: then the cursor is wrapped to (0, 0) and
the payload applied last is that of the round-end action. -/
theorem cursor_points_at_last_applied (env : Env) (h : mjHandler) :
    (∀ (d : majsoulMessage) (originJSON : String) (baseInfo : majsoulRecordBaseInfo)
        (selfSeat : Int) (first : majsoulRecordAction) (rest : majsoulRoundActions)
        (rounds : List majsoulRoundActions),
      classify d = EventKind.RecordActionBatch → h.majsoulCurrentRecordActionsList = none →
      h.majsoulCurrentRecordUUID ≠ "" →
      mapGet h.majsoulRecordMap h.majsoulCurrentRecordUUID = some baseInfo →
      h.gameConf.currentActiveMajsoulAccountID ≠ -1 →
      env.getSelfSeat baseInfo h.gameConf.currentActiveMajsoulAccountID = .ok selfSeat →
      env.parseMajsoulRecordAction d.RecordActions = .ok ((first :: rest) :: rounds) →
      ∃ h', h.handleMessage env d originJSON = .ok h' ∧
        h'.lastApplied = h'.cursorAction.map (fun x => x.Action)) ∧
    (∀ (c : String) (i e : Int), h.CursorValid →
      (c = "jumpRound" → 0 ≤ Int.tmod i h.actionsList.length) →
      (isBulkCommand c →
        h.bulkStart c ≤ goAdd e 1 ∧ goAdd e 1 < ((h.bulkRound c).length : Int)) →
      ∃ h', h._onRecordClick c i e = .ok h' ∧
        (h' = h ∨
         h'.lastApplied = h'.cursorAction.map (fun x => x.Action) ∨
         (h'.majsoulCurrentRoundIndex = 0 ∧ h'.majsoulCurrentActionIndex = 0 ∧
          ∃ (lastRound : majsoulRoundActions) (landed : majsoulRecordAction),
            h'.actionsList.getLast? = some lastRound ∧ landed ∈ lastRound ∧
            RoundEndName landed.Name ∧ h'.lastApplied = some landed.Action))) := by
  constructor
  · intro d originJSON baseInfo selfSeat first rest rounds hkind hstore huuid hmap hacc hseat hparse
    obtain ⟨h', hrun, hst, hr, ha, hcalls⟩ := record_batch_loads env h d originJSON baseInfo selfSeat
      first rest rounds hkind hstore huuid hmap hacc hseat hparse
    refine ⟨h', hrun, ?_⟩
    have hal : h'.actionsList[0]? = some (first :: rest) := by
      simp [mjHandler.actionsList, hst]
    rw [cursorAction_eq h' 0 0 (first :: rest) first hr ha hal (by simp)]
    simp [mjHandler.lastApplied, hcalls]
  · intro c i e hv hjump hbulk
    obtain ⟨res, hsw, hres⟩ :=
      switch_summary h (getCurrentAnalysisCache h.analysisCache) c i e hv hjump hbulk
    cases res with
    | none => exact ⟨h, onRecordClick_of_switch_none h c i e hsw, Or.inl rfl⟩
    | some hb =>
      obtain ⟨hbv, -⟩ := hres hb rfl
      obtain ⟨h', hland, hpt⟩ := clickLand_points hb (getCurrentAnalysisCache h.analysisCache) hbv
      refine ⟨h', ?_, Or.inr ?_⟩
      · rw [onRecordClick_of_switch_some h hb c i e hsw]; exact hland
      · rcases hpt with hpt | hpt
        · exact Or.inl hpt
        · exact Or.inr hpt

/-- C16 as amended, at `nextStep` from (0, 1) of the three-round store. -/
theorem cursor_points_at_last_applied_witness :
    ∃ h', (recordHandler threeRoundStore 0 1)._onRecordClick "nextStep" 0 0 = .ok h' ∧
      (h' = recordHandler threeRoundStore 0 1 ∨
       h'.lastApplied = h'.cursorAction.map (fun x => x.Action) ∨
       (h'.majsoulCurrentRoundIndex = 0 ∧ h'.majsoulCurrentActionIndex = 0 ∧
        ∃ (lastRound : majsoulRoundActions) (landed : majsoulRecordAction),
            h'.actionsList.getLast? = some lastRound ∧ landed ∈ lastRound ∧
            RoundEndName landed.Name ∧ h'.lastApplied = some landed.Action)) :=
  (cursor_points_at_last_applied sampleEnv (recordHandler threeRoundStore 0 1)).2 "nextStep" 0 0
    (by decide) (by decide) (by decide)

/-! ## C19: bulk navigation -/

/-- C19. For every bulk navigation command at a valid cursor with
`start <= fastRecordTo + 1 < len(round)` on the selected round (start is the
action index + 1 for `nextXun` and 0 for the other four): the switch applies
exactly `round[start..fastRecordTo]` in order, each with `skipOutput = true`,
and sets the action index to `fastRecordTo + 1`; the action there is then
applied with `skipOutput = false`, and the round-end step on it follows.
`jumpToLastRoundXun` selects round (round index - 1 + R) mod R, the others
keep the round index. -/
theorem bulk_navigation_effect (h : mjHandler) (c : String) (i e : Int)
    (hv : h.CursorValid) (hc : isBulkCommand c)
    (hlo : h.bulkStart c ≤ goAdd e 1) (hhi : goAdd e 1 < ((h.bulkRound c).length : Int)) :
    ∃ (hb : mjHandler) (action : majsoulRecordAction),
      h.clickSwitch (getCurrentAnalysisCache h.analysisCache) c i e = .ok (some hb) ∧
      hb.majsoulCurrentRecordActionsList = h.majsoulCurrentRecordActionsList ∧
      hb.majsoulCurrentRoundIndex = h.bulkRoundIndex c ∧
      hb.majsoulCurrentActionIndex = goAdd e 1 ∧
      hb.majsoulRoundData.analysisCalls = h.majsoulRoundData.analysisCalls ++
        ((((h.bulkRound c).take (goAdd e 1).toNat).drop (h.bulkStart c).toNat).map
          (appliedWith true)) ∧
      (h.bulkRound c)[(goAdd e 1).toNat]? = some action ∧
      hb.clickApply = .ok (hb._analysisMajsoulRoundData action.Action "", action) ∧
      (hb._analysisMajsoulRoundData action.Action "").majsoulRoundData.analysisCalls =
        h.majsoulRoundData.analysisCalls ++
        ((((h.bulkRound c).take (goAdd e 1).toNat).drop (h.bulkStart c).toNat).map
          (appliedWith true)) ++ [appliedWith false action] ∧
      h._onRecordClick c i e =
        (hb._analysisMajsoulRoundData action.Action "").clickAdvance
          (getCurrentAnalysisCache h.analysisCache) action ∧
      (c = "jumpToLastRoundXun" →
        h.bulkRoundIndex c =
          (h.majsoulCurrentRoundIndex - 1 + (h.actionsList.length : Int)) %
            (h.actionsList.length : Int)) ∧
      (c ≠ "jumpToLastRoundXun" → h.bulkRoundIndex c = h.majsoulCurrentRoundIndex) := by
  obtain ⟨hb, hsw, hbv, hst, hri, hai, hskip, hcalls⟩ :=
    bulk_switch_summary h (getCurrentAnalysisCache h.analysisCache) c i e hv hc hlo hhi
  obtain ⟨r, a, round, action, hr, ha, hround, hact⟩ := cursorValid_elim hb hbv
  have hal : hb.actionsList = h.actionsList := by simp [mjHandler.actionsList, hst]
  have hbr : h.bulkRound c = round := by
    unfold mjHandler.bulkRound
    rw [← hri, hr, ← hal]
    simp [List.getD, hround]
  have hidx : (goAdd e 1).toNat = a := by omega
  have happly := clickApply_ok hb r a round action hr ha hround hact
  refine ⟨hb, action, hsw, hst, hri, hai, hcalls, ?_, happly, ?_, ?_, ?_, ?_⟩
  · rw [hbr, hidx]; exact hact
  · simp [mjHandler._analysisMajsoulRoundData, majsoulRoundData.analysis, hcalls, hskip,
      appliedWith]
  · rw [onRecordClick_of_switch_some h hb c i e hsw]
    exact clickLand_of_apply hb _ _ action happly
  · intro hlast
    have h0 := hv.2.2.1
    have h1 := hv.2.2.2.1
    simp only [mjHandler.bulkRoundIndex, if_pos hlast]
    exact Int.tmod_eq_emod (by omega) (by omega)
  · intro hother
    simp only [mjHandler.bulkRoundIndex, if_neg hother]

/-- C19 at a concrete input: `nextXun` with target 2 from the cursor (1, 0). -/
theorem bulk_navigation_effect_witness :
    ∃ (hb : mjHandler) (action : majsoulRecordAction),
      (recordHandler threeRoundStore 1 0).clickSwitch
        (getCurrentAnalysisCache (recordHandler threeRoundStore 1 0).analysisCache) "nextXun" 0 2
        = .ok (some hb) ∧
      hb.majsoulCurrentRoundIndex = 1 ∧ hb.majsoulCurrentActionIndex = 3 ∧
      hb.majsoulRoundData.analysisCalls =
        [appliedWith true (act "RecordDealTile" 11), appliedWith true (act "RecordDiscardTile" 12)] ∧
      (fiveActionRound 1)[3]? = some action ∧
      (recordHandler threeRoundStore 1 0)._onRecordClick "nextXun" 0 2 =
        (hb._analysisMajsoulRoundData action.Action "").clickAdvance
          (getCurrentAnalysisCache (recordHandler threeRoundStore 1 0).analysisCache) action := by
  obtain ⟨hb, action, h1, -, h3, h4, h5, h6, -, -, h9, -, -⟩ :=
    bulk_navigation_effect (recordHandler threeRoundStore 1 0) "nextXun" 0 2
      (by decide) (by decide) (by decide) (by decide)
  exact ⟨hb, action, h1, h3, h4, h5, h6, h9⟩

end MahjongHelper
